import Mathlib

/-!
# GoInfo plugin: `Execute` of `src/main.go`

A shallow embedding of the `GoInfoPlugin.Execute` pipeline.  The third-party
analyzer (gore), the standard library (`strings.ToLower`,
`debug/buildinfo.ReadFile`) and the host plugin runtime (the job and its
feature sink) are outside the repository; they enter the model through the
record `Env`, which fixes what each of them answers during one invocation.
Every call that `Execute` makes to one of them is appended to a trace, so that
statements about what was emitted, queried or closed are statements about that
trace.  A record counts as emitted once `Execute` has handed it to the sink.
The `log.Printf` lines of `handleGorePanic` have no effect on the result and are
left out.
-/

set_option maxRecDepth 8000

namespace GoInfo

/-! ## Data model -/

/-- Go `error` value, observed through the text that `Error()` returns. -/
structure GoError where
  text : String
deriving DecidableEq, Repr

/-- The method `Error()` of a Go error. -/
def GoError.Error (e : GoError) : String := e.text

/-- Error categories of the host runtime; `Execute` only ever builds `ErrorException`. -/
inductive ErrorKind where
  | ErrorException
  | ErrorOther (code : String)
deriving DecidableEq, Repr

/-- Values of `*plugin.PluginError` as `Execute` builds or forwards them: an opt-out
(`plugin.NewPluginOptOut`) or an error with category, title, message and causal error
(`plugin.NewPluginError(...).WithCausalError(...)`). -/
inductive PluginError where
  | optOut (message : String)
  | error (kind : ErrorKind) (title : String) (message : String) (causal : Option GoError)
deriving DecidableEq, Repr

/-- Constructor `plugin.NewPluginOptOut`. -/
def NewPluginOptOut (message : String) : PluginError := PluginError.optOut message

/-- Constructor `plugin.NewPluginError`: no causal error yet. -/
def NewPluginError (kind : ErrorKind) (title message : String) : PluginError :=
  PluginError.error kind title message none

/-- Method `WithCausalError`: attaches the causal error. -/
def PluginError.WithCausalError : PluginError → GoError → PluginError
  | PluginError.optOut m, _ => PluginError.optOut m
  | PluginError.error k t m _, err => PluginError.error k t m (some err)

/-- Options of `job.AddFeatureWithExtra`; a field left out of the Go literal has its zero value. -/
structure AddFeatureOptions where
  Label : String
  Offset : Nat
  Size : Nat
deriving DecidableEq, Repr

/-- One feature record handed to the sink: `options` is `none` for `job.AddFeature`
and the options struct for `job.AddFeatureWithExtra`. -/
structure Feature where
  name : String
  value : String
  options : Option AddFeatureOptions
deriving DecidableEq, Repr

/-- Entry of `debug.BuildInfo.Settings`. -/
structure BuildSetting where
  Key : String
  Value : String
deriving DecidableEq, Repr

/-- Result of `debug/buildinfo.ReadFile` when it succeeds. -/
structure DebugBuildInfo where
  Settings : List BuildSetting
deriving DecidableEq, Repr

/-- The analyzer's `GoVersion`. -/
structure GoVersion where
  Name : String
  SHA : String
  Timestamp : String
deriving DecidableEq, Repr

/-- The analyzer's `BuildInfo`: `Compiler` may be nil. -/
structure GoreBuildInfo where
  Compiler : Option GoVersion
deriving DecidableEq, Repr

/-- The analyzer's `Function`; `Offset` and `End` are `uint64`. -/
structure Function where
  Name : String
  Offset : Nat
  End : Nat
  PackageName : String
deriving DecidableEq, Repr

/-- The analyzer's `Method`: a `Function` with a receiver. -/
structure Method where
  Receiver : String
  Name : String
  Offset : Nat
  End : Nat
  PackageName : String
deriving DecidableEq, Repr

/-- The analyzer's `Package`. -/
structure Package where
  Name : String
  Filepath : String
  Functions : List Function
  Methods : List Method
deriving DecidableEq, Repr

/-- The analyzer's `TypeMethod`; only its name is read. -/
structure TypeMethod where
  Name : String
deriving DecidableEq, Repr

/-- A `reflect.Kind`, observed through the text that `String()` returns. -/
structure Kind where
  text : String
deriving DecidableEq, Repr

/-- The analyzer's `GoType`; `Addr` is `uint64`, `Length` is `int`. -/
structure GoType where
  Name : String
  PackagePath : String
  Kind : Kind
  Addr : Nat
  Length : Int
  Methods : List TypeMethod
deriving DecidableEq, Repr

/-- An opened binary (`*gore.GoFile`): its two fields that `Execute` reads and what each
of its query methods returns.  A Go method returning `(x, err)` is a pair. -/
structure GoFile where
  BuildID : String
  BuildInfo : Option GoreBuildInfo
  GetCompilerVersion : Option GoVersion × Option GoError
  GetPackages : List Package × Option GoError
  GetVendors : List Package × Option GoError
  GetTypes : List GoType × Option GoError
deriving DecidableEq, Repr

/-- Value recovered from a panic: a Go string, or a value of any other dynamic type
(for instance an error value), kept through its printed text. -/
inductive PanicValue where
  | str (message : String)
  | nonString (text : String)
deriving DecidableEq, Repr

/-- What `gore.Open` does: it returns `(goFile, err)`, either of which may be nil, or it panics. -/
inductive OpenResult where
  | returned (goFile : Option GoFile) (err : Option GoError)
  | panicked (value : PanicValue)
deriving DecidableEq, Repr

/-- The calls `Execute` makes to its collaborators, in the order of the trace. -/
inductive Call where
  | GetContentPath
  | Open (sourcePath : String)
  | GetCompilerVersion
  | ReadFile (path : String)
  | AddFeature (feature : Feature)
  | GetPackages
  | GetVendors
  | GetTypes
  | Close
deriving DecidableEq, Repr

/-- Everything outside `main.go` during one invocation: the library function
`strings.ToLower`, the job's content path, the analyzer's `Open`, `debug/buildinfo.ReadFile`
and the feature sink, which sees the calls made so far and the record and answers nil
(`none`) or an error. -/
structure Env where
  ToLower : String → String
  GetContentPath : Except PluginError String
  Open : String → OpenResult
  ReadFile : String → Except GoError DebugBuildInfo
  sink : List Call → Feature → Option PluginError

/-- The plugin instance with its only field. -/
structure GoInfoPlugin where
  panicError : String
deriving DecidableEq, Repr

/-! ## Library functions with a fixed meaning -/

/-- Go `strings.Contains`: `substr` occurs in `s` as a contiguous block.  Go compares
bytes; on the well-formed UTF-8 texts that `String` holds this is the same as comparing
code points. -/
def strings_Contains (s substr : String) : Bool :=
  decide (substr.data <:+: s.data)

/-- Subtraction of two `uint64` values: wraps modulo 2^64. -/
def sub64 (a b : Nat) : Nat :=
  (a % 2 ^ 64 + 2 ^ 64 - b % 2 ^ 64) % 2 ^ 64

/-- Conversion `uint64(n)` of a Go `int`: wraps modulo 2^64. -/
def uint64 (n : Int) : Nat :=
  (n % 2 ^ 64).toNat

/-- Lower-casing of the ASCII letters, the instance of `strings.ToLower` used on
concrete inputs (Go maps further upper-case code points; none occurs in them). -/
def asciiToLower (s : String) : String :=
  String.mk (s.data.map Char.toLower)

/-! ## Trace-passing steps -/

/-- A step of `Execute`: it extends the trace and either yields a value or stops with the
plugin error that `Execute` returns at that point. -/
abbrev Step (α : Type) : Type := List Call → Except PluginError α × List Call

/-- Step that does nothing and yields `a`. -/
def Step.done {α : Type} (a : α) : Step α :=
  fun tr => (Except.ok a, tr)

/-- Sequencing with the pattern `if pluginErr != nil { return pluginErr }`. -/
def Step.andThen {α β : Type} (m : Step α) (f : α → Step β) : Step β :=
  fun tr =>
    match m tr with
    | (Except.ok a, tr1) => f a tr1
    | (Except.error e, tr1) => (Except.error e, tr1)

/-- The sink is handed one record: the call is logged and the sink's answer decides whether
the step goes on. -/
def emit (w : Env) (feature : Feature) : Step Unit :=
  fun tr =>
    (match w.sink tr feature with
      | none => Except.ok ()
      | some pluginErr => Except.error pluginErr,
     tr ++ [Call.AddFeature feature])

/-- Call of `job.AddFeature(name, value)`. -/
def AddFeature (w : Env) (name value : String) : Step Unit :=
  emit w ⟨name, value, none⟩

/-- Call of `job.AddFeatureWithExtra(name, value, &opts)`. -/
def AddFeatureWithExtra (w : Env) (name value : String) (opts : AddFeatureOptions) : Step Unit :=
  emit w ⟨name, value, some opts⟩

/-- An analyzer query `xs, err := goFile.Get...()` followed by
`if err != nil { return NewPluginError(ErrorException, title, message).WithCausalError(err) }`. -/
def query {α : Type} (c : Call) (r : α × Option GoError) (title message : String) : Step α :=
  fun tr =>
    match r.2 with
    | some err =>
      (Except.error ((NewPluginError ErrorKind.ErrorException title message).WithCausalError err),
        tr ++ [c])
    | none => (Except.ok r.1, tr ++ [c])

/-- A `for _, x := range xs` loop whose body may return a plugin error. -/
def forRange {α : Type} (body : α → Step Unit) : List α → Step Unit
  | [] => Step.done ()
  | x :: rest => (body x).andThen (fun _ => forRange body rest)

/-- A call that cannot fail from the point of view of `Execute`: it is only logged. -/
def record (c : Call) : Step Unit :=
  fun tr => (Except.ok (), tr ++ [c])

/-- The statement `return pluginErr` with a non-nil error. -/
def Step.fail {α : Type} (pluginErr : PluginError) : Step α :=
  fun tr => (Except.error pluginErr, tr)

/-! ## The code of `main.go` -/

/-- Value types of a declared feature in the host runtime; the plugin only declares
`events.FeatureString`. -/
inductive FeatureType where
  | FeatureString
  | FeatureOther (name : String)
deriving DecidableEq, Repr

/-- Entry of the feature declaration (`events.PluginEntityFeature`); `DataType` is the field
`Type` of the Go struct. -/
structure PluginEntityFeature where
  Name : String
  DataType : FeatureType
  Description : String
deriving DecidableEq, Repr

/-- Method `GetFeatures`: the features the plugin declares. -/
def GetFeatures : List PluginEntityFeature :=
  [⟨"go_compiler_flag", FeatureType.FeatureString,
      "A flag used at compile time of the go binary."⟩,
   ⟨"go_build_id", FeatureType.FeatureString, "Go build ID"⟩,
   ⟨"go_compiler_version", FeatureType.FeatureString, "Go compiler version"⟩,
   ⟨"go_compiler_timestamp", FeatureType.FeatureString, "Go compiler timestamp"⟩,
   ⟨"go_package", FeatureType.FeatureString, "User defined packages in a Go binary"⟩,
   ⟨"go_package_function", FeatureType.FeatureString, "Functions in user defined packages"⟩,
   ⟨"go_package_method", FeatureType.FeatureString, "Methods in user defined packages"⟩,
   ⟨"go_vendor_package", FeatureType.FeatureString,
      "Packages from 3rd party vendors in a Go binary"⟩,
   ⟨"go_file", FeatureType.FeatureString, "Files in a Go build"⟩,
   ⟨"go_type", FeatureType.FeatureString, "Types in a Go binary"⟩,
   ⟨"go_type_method", FeatureType.FeatureString, "Methods of a type"⟩,
   ⟨"malformed", FeatureType.FeatureString, "File appears to be a corrupted PE file."⟩]

/-- Function `handleGorePanic`, the deferred handler of `openGoreFile`; `goreRecover` is the
value of `recover()`, `none` when there was no panic. -/
def handleGorePanic (gi : GoInfoPlugin) (goreRecover : Option PanicValue) : GoInfoPlugin :=
  match goreRecover with
  | some (PanicValue.str gorePanicMessage) => { gi with panicError := gorePanicMessage }
  | some (PanicValue.nonString _) =>
    { gi with panicError := "PyGore panic but the error couldn't be recovered." }
  | none => { gi with panicError := "" }

/-- Method `openGoreFile`: `gore.Open` under the deferred `handleGorePanic`.  When `Open`
panics the handler recovers and the unnamed results are their zero values `(nil, nil)`. -/
def openGoreFile (w : Env) (gi : GoInfoPlugin) (sourcePath : String) :
    GoInfoPlugin × Option GoFile × Option GoError :=
  match w.Open sourcePath with
  | OpenResult.returned goFile err => (handleGorePanic gi none, goFile, err)
  | OpenResult.panicked value => (handleGorePanic gi (some value), none, none)

/-- The version gate of `Execute`:
`compilerVersion == nil || (err != nil && strings.ToLower(err.Error()) == "no goversion found")`. -/
def noGoVersion (w : Env) (r : Option GoVersion × Option GoError) : Bool :=
  match r with
  | (none, _) => true
  | (some _, some err) => decide (w.ToLower err.Error = "no goversion found")
  | (some _, none) => false

/-- The build-settings block of `Execute`: the loop runs only when `ReadFile` gave no error. -/
def buildSettings (w : Env) (contentFilePath : String) : Step Unit :=
  (record (Call.ReadFile contentFilePath)).andThen fun _ =>
    match w.ReadFile contentFilePath with
    | Except.ok buildInfo =>
      forRange (fun s => AddFeatureWithExtra w "go_compiler_flag" s.Value ⟨s.Key, 0, 0⟩)
        buildInfo.Settings
    | Except.error _ => Step.done ()

/-- The core compiler block of `Execute`: build id, then name and timestamp of the compiler
when `goFile.BuildInfo` and its `Compiler` are both non-nil. -/
def compilerInfo (w : Env) (goFile : GoFile) : Step Unit :=
  (AddFeature w "go_build_id" goFile.BuildID).andThen fun _ =>
    match goFile.BuildInfo with
    | some buildInfo =>
      match buildInfo.Compiler with
      | some compiler =>
        (AddFeature w "go_compiler_version" compiler.Name).andThen fun _ =>
          AddFeature w "go_compiler_timestamp" compiler.Timestamp
      | none => Step.done ()
    | none => Step.done ()

/-- The package loop of `Execute`.  `goPackageSet` is the map used as a set, kept as the list
of its keys; the key is inserted right after the `go_package` call, and since the map is only
read after the loop has completed it is threaded here past the error check. -/
def packagesLoop (w : Env) : List Package → List String → Step (List String)
  | [], goPackageSet => Step.done goPackageSet
  | pkg :: rest, goPackageSet =>
    (AddFeature w "go_package" pkg.Name).andThen fun _ =>
    (if pkg.Filepath ≠ "." then AddFeature w "go_file" pkg.Filepath else Step.done ()).andThen
      fun _ =>
    (forRange (fun pkgFunc => AddFeatureWithExtra w "go_package_function" pkgFunc.Name
        ⟨pkgFunc.PackageName, pkgFunc.Offset, sub64 pkgFunc.End pkgFunc.Offset⟩)
      pkg.Functions).andThen fun _ =>
    (forRange (fun pkgMethods => AddFeatureWithExtra w "go_package_method" pkgMethods.Name
        ⟨pkgMethods.PackageName, pkgMethods.Offset, sub64 pkgMethods.End pkgMethods.Offset⟩)
      pkg.Methods).andThen fun _ =>
    packagesLoop w rest (goPackageSet ++ [pkg.Name])

/-- The vendor loop of `Execute`. -/
def vendorsLoop (w : Env) (vendorPackages : List Package) : Step Unit :=
  forRange (fun vendorPackage => AddFeature w "go_vendor_package" vendorPackage.Name)
    vendorPackages

/-- The type loop of `Execute`: a type whose `PackagePath` is no key of `goPackageSet` is
skipped (`continue`). -/
def typesLoop (w : Env) (goPackageSet : List String) (goTypes : List GoType) : Step Unit :=
  forRange (fun goType =>
      if goType.PackagePath ∈ goPackageSet then
        (AddFeatureWithExtra w "go_type" goType.Name
          ⟨goType.Kind.text, goType.Addr, uint64 goType.Length⟩).andThen fun _ =>
        forRange (fun goTypeMethod =>
            AddFeatureWithExtra w "go_type_method" goTypeMethod.Name ⟨goType.Name, 0, 0⟩)
          goType.Methods
      else Step.done ())
    goTypes

/-- The part of `Execute` that runs under `defer goFile.Close()`, from the version query to
the final `return nil`. -/
def executeOpened (w : Env) (goFile : GoFile) (contentFilePath : String) : Step Unit :=
  (record Call.GetCompilerVersion).andThen fun _ =>
  if noGoVersion w goFile.GetCompilerVersion then
    Step.fail (NewPluginOptOut "Not a go binary, no go version found.")
  else
    (buildSettings w contentFilePath).andThen fun _ =>
    (compilerInfo w goFile).andThen fun _ =>
    (query Call.GetPackages goFile.GetPackages "Failed to get packages"
      "Failed to get the packages for the go binary.").andThen fun packageList =>
    (packagesLoop w packageList []).andThen fun goPackageSet =>
    (query Call.GetVendors goFile.GetVendors "Failed to get vendor packages"
      "Failed to get the vendor packages for the go binary.").andThen fun vendorPackages =>
    (vendorsLoop w vendorPackages).andThen fun _ =>
    (query Call.GetTypes goFile.GetTypes "Failed to get GoTypes"
      "Failed to get the GoTypes for the go binary.").andThen fun goTypes =>
    typesLoop w goPackageSet goTypes

/-- What a step leaves as the return value of `Execute`: nil or the plugin error. -/
def outcomeOf (r : Except PluginError Unit) : Option PluginError :=
  match r with
  | Except.ok _ => none
  | Except.error pluginErr => some pluginErr

/-- Method `Execute`.  The result is the instance after the call, the returned
`*plugin.PluginError` (`none` is nil) and the trace of the calls made. -/
def Execute (w : Env) (gi : GoInfoPlugin) : GoInfoPlugin × Option PluginError × List Call :=
  match w.GetContentPath with
  | Except.error pluginErr => (gi, some pluginErr, [Call.GetContentPath])
  | Except.ok contentFilePath =>
    match openGoreFile w gi contentFilePath with
    | (gi1, _, some err) =>
      if strings_Contains (w.ToLower err.Error) "unsupported" then
        (gi1, some (NewPluginOptOut
            ("File could not be opened by pygore with message " ++ err.Error)),
          [Call.GetContentPath, Call.Open contentFilePath])
      else if strings_Contains (w.ToLower err.Error) "fail to read string table length" then
        match AddFeature w "malformed"
            ("PE file was corrupted and it's header couldn't be read with error " ++ err.Error)
            [Call.GetContentPath, Call.Open contentFilePath] with
        | (r, tr) => (gi1, outcomeOf r, tr)
      else
        (gi1, some ((NewPluginError ErrorKind.ErrorException "Could not be opened"
            "Pygore could not open the file").WithCausalError err),
          [Call.GetContentPath, Call.Open contentFilePath])
    | (gi1, none, none) =>
      if gi1.panicError = "Unsupported architecture" then
        (gi1, some (NewPluginOptOut
            ("Gore paniced while trying to open the file with the panic message: '"
              ++ gi1.panicError ++ "'")),
          [Call.GetContentPath, Call.Open contentFilePath])
      else
        (gi1, some (NewPluginError ErrorKind.ErrorException "Pygore Panic"
            ("Pygore paniced with a panic message: '" ++ gi1.panicError ++ "'")),
          [Call.GetContentPath, Call.Open contentFilePath])
    | (gi1, some goFile, none) =>
      match executeOpened w goFile contentFilePath
          [Call.GetContentPath, Call.Open contentFilePath] with
      | (r, tr) => (gi1, outcomeOf r, tr ++ [Call.Close])

/-- The feature records of a trace, in the order in which they were handed to the sink. -/
def emitted : List Call → List Feature
  | [] => []
  | Call.AddFeature feature :: rest => feature :: emitted rest
  | _ :: rest => emitted rest

/-- The emitted records that carry a given name. -/
def emittedNamed (name : String) (tr : List Call) : List Feature :=
  (emitted tr).filter (fun feature => decide (feature.name = name))

/-! ## The records of a full run, written out

The lists below say which records each block of `Execute` hands to the sink when nothing
stops it.  They are compared with the loops above in the lemmas that follow. -/

/-- Hand a list of records to the sink in order, stopping at the first one it rejects. -/
def emitAll (w : Env) : List Feature → Step Unit
  | [] => Step.done ()
  | feature :: rest => (emit w feature).andThen (fun _ => emitAll w rest)

/-- Record of one build setting. -/
def flagFeature (s : BuildSetting) : Feature :=
  ⟨"go_compiler_flag", s.Value, some ⟨s.Key, 0, 0⟩⟩

/-- Records of the build-settings block: one per setting, none when `ReadFile` failed. -/
def flagFeatures (r : Except GoError DebugBuildInfo) : List Feature :=
  match r with
  | Except.ok buildInfo => buildInfo.Settings.map flagFeature
  | Except.error _ => []

/-- Records of the core compiler block. -/
def compilerFeatures (goFile : GoFile) : List Feature :=
  ⟨"go_build_id", goFile.BuildID, none⟩ ::
    (match goFile.BuildInfo with
      | some buildInfo =>
        match buildInfo.Compiler with
        | some compiler =>
          [⟨"go_compiler_version", compiler.Name, none⟩,
           ⟨"go_compiler_timestamp", compiler.Timestamp, none⟩]
        | none => []
      | none => [])

/-- Record of one package function. -/
def functionFeature (f : Function) : Feature :=
  ⟨"go_package_function", f.Name, some ⟨f.PackageName, f.Offset, sub64 f.End f.Offset⟩⟩

/-- Record of one package method. -/
def methodFeature (m : Method) : Feature :=
  ⟨"go_package_method", m.Name, some ⟨m.PackageName, m.Offset, sub64 m.End m.Offset⟩⟩

/-- Record naming a package. -/
def packageFeature (pkg : Package) : Feature :=
  ⟨"go_package", pkg.Name, none⟩

/-- Record naming the file path of a package. -/
def fileFeature (pkg : Package) : Feature :=
  ⟨"go_file", pkg.Filepath, none⟩

/-- Records of one package: its name, its file path unless that is ".", its functions, its
methods. -/
def packageFeatures (pkg : Package) : List Feature :=
  packageFeature pkg :: ((if pkg.Filepath ≠ "." then [fileFeature pkg] else []) ++
    (pkg.Functions.map functionFeature ++ pkg.Methods.map methodFeature))

/-- Record of one vendor package. -/
def vendorFeature (vendorPackage : Package) : Feature :=
  ⟨"go_vendor_package", vendorPackage.Name, none⟩

/-- Record of one type. -/
def goTypeFeature (goType : GoType) : Feature :=
  ⟨"go_type", goType.Name, some ⟨goType.Kind.text, goType.Addr, uint64 goType.Length⟩⟩

/-- Record of one method of a type. -/
def typeMethodFeature (goType : GoType) (goTypeMethod : TypeMethod) : Feature :=
  ⟨"go_type_method", goTypeMethod.Name, some ⟨goType.Name, 0, 0⟩⟩

/-- Records of one type under a given package set: none when the type is skipped. -/
def typeFeatures (goPackageSet : List String) (goType : GoType) : List Feature :=
  if goType.PackagePath ∈ goPackageSet then
    goTypeFeature goType :: goType.Methods.map (typeMethodFeature goType)
  else []

/-- The whole trace of an invocation that opens `goFile` at `contentFilePath` and runs to
the final `return nil`. -/
def successTrace (w : Env) (contentFilePath : String) (goFile : GoFile) : List Call :=
  [Call.GetContentPath, Call.Open contentFilePath, Call.GetCompilerVersion,
    Call.ReadFile contentFilePath]
  ++ (flagFeatures (w.ReadFile contentFilePath)).map Call.AddFeature
  ++ (compilerFeatures goFile).map Call.AddFeature
  ++ [Call.GetPackages]
  ++ (goFile.GetPackages.1.flatMap packageFeatures).map Call.AddFeature
  ++ [Call.GetVendors]
  ++ (goFile.GetVendors.1.map vendorFeature).map Call.AddFeature
  ++ [Call.GetTypes]
  ++ (goFile.GetTypes.1.flatMap
        (typeFeatures (goFile.GetPackages.1.map Package.Name))).map Call.AddFeature
  ++ [Call.Close]

/-- The records of such an invocation, in order. -/
def successFeatures (w : Env) (contentFilePath : String) (goFile : GoFile) : List Feature :=
  flagFeatures (w.ReadFile contentFilePath)
  ++ compilerFeatures goFile
  ++ goFile.GetPackages.1.flatMap packageFeatures
  ++ goFile.GetVendors.1.map vendorFeature
  ++ goFile.GetTypes.1.flatMap (typeFeatures (goFile.GetPackages.1.map Package.Name))

/-! ## The stages of an opened binary

After the build-settings and compiler blocks `Execute` runs three stages, each an analyzer
query followed by a loop over its result.  The definitions below name these stages, the
records of each and the calls made up to each query, so that every way in which a run can
end can be written down. -/

/-- The type stage, for a package set already built. -/
def typesStage (w : Env) (goFile : GoFile) (goPackageSet : List String) : Step Unit :=
  (query Call.GetTypes goFile.GetTypes "Failed to get GoTypes"
    "Failed to get the GoTypes for the go binary.").andThen fun goTypes =>
  emitAll w (goTypes.flatMap (typeFeatures goPackageSet))

/-- The vendor stage followed by the type stage. -/
def vendorsStage (w : Env) (goFile : GoFile) (goPackageSet : List String) : Step Unit :=
  (query Call.GetVendors goFile.GetVendors "Failed to get vendor packages"
    "Failed to get the vendor packages for the go binary.").andThen fun vendorPackages =>
  (emitAll w (vendorPackages.map vendorFeature)).andThen fun _ =>
  typesStage w goFile goPackageSet

/-- The package stage followed by the vendor and type stages. -/
def packagesStage (w : Env) (goFile : GoFile) : Step Unit :=
  (query Call.GetPackages goFile.GetPackages "Failed to get packages"
    "Failed to get the packages for the go binary.").andThen fun packageList =>
  (emitAll w (packageList.flatMap packageFeatures)).andThen fun _ =>
  vendorsStage w goFile (packageList.map Package.Name)

/-- Records of the two blocks before the package stage: build settings, then compiler. -/
def headFeatures (w : Env) (contentFilePath : String) (goFile : GoFile) : List Feature :=
  flagFeatures (w.ReadFile contentFilePath) ++ compilerFeatures goFile

/-- Records of the package stage. -/
def packageStageFeatures (goFile : GoFile) : List Feature :=
  goFile.GetPackages.1.flatMap packageFeatures

/-- Records of the vendor stage. -/
def vendorStageFeatures (goFile : GoFile) : List Feature :=
  goFile.GetVendors.1.map vendorFeature

/-- Records of the type stage. -/
def typeStageFeatures (goFile : GoFile) : List Feature :=
  goFile.GetTypes.1.flatMap (typeFeatures (goFile.GetPackages.1.map Package.Name))

/-- The calls from the version query up to and including the package query, when nothing
stops the run before. -/
def uptoPackages (w : Env) (contentFilePath : String) (goFile : GoFile) : List Call :=
  [Call.GetCompilerVersion, Call.ReadFile contentFilePath]
  ++ (headFeatures w contentFilePath goFile).map Call.AddFeature ++ [Call.GetPackages]

/-- The calls up to and including the vendor query. -/
def uptoVendors (w : Env) (contentFilePath : String) (goFile : GoFile) : List Call :=
  uptoPackages w contentFilePath goFile
  ++ (packageStageFeatures goFile).map Call.AddFeature ++ [Call.GetVendors]

/-- The calls up to and including the type query. -/
def uptoTypes (w : Env) (contentFilePath : String) (goFile : GoFile) : List Call :=
  uptoVendors w contentFilePath goFile
  ++ (vendorStageFeatures goFile).map Call.AddFeature ++ [Call.GetTypes]

/-- The calls of the three stages after the package query, when nothing stops the run. -/
def afterPackages (goFile : GoFile) : List Call :=
  (packageStageFeatures goFile).map Call.AddFeature ++ [Call.GetVendors]
  ++ (vendorStageFeatures goFile).map Call.AddFeature ++ [Call.GetTypes]
  ++ (typeStageFeatures goFile).map Call.AddFeature

/-- All calls between `Open` and `Close` of a run that nothing stops. -/
def openedPlan (w : Env) (contentFilePath : String) (goFile : GoFile) : List Call :=
  uptoPackages w contentFilePath goFile ++ afterPackages goFile

/-- While the records `fs` are handed over after the calls `tr`, the sink takes the records
`p` and answers the next one, `f`, with the error `e`. -/
def Rejected (w : Env) (tr : List Call) (fs : List Feature) (e : PluginError)
    (p : List Feature) (f : Feature) : Prop :=
  p ++ [f] <+: fs ∧ w.sink (tr ++ p.map Call.AddFeature) f = some e

/-- The nine ways in which the processing of an opened binary can end, each with the value
and the trace it leaves: the version gate, a rejected record in one of the four record
blocks, a failed query in one of the three stages, or the final `return nil`. -/
inductive OpenedRun (w : Env) (goFile : GoFile) (contentFilePath : String) (tr : List Call) :
    Except PluginError Unit × List Call → Prop where
  | noVersion (hgate : noGoVersion w goFile.GetCompilerVersion = true) :
    OpenedRun w goFile contentFilePath tr
      (Except.error (PluginError.optOut "Not a go binary, no go version found."),
        tr ++ [Call.GetCompilerVersion])
  | headRejected (e : PluginError) (p : List Feature) (f : Feature)
      (hgate : noGoVersion w goFile.GetCompilerVersion = false)
      (hrej : Rejected w (tr ++ [Call.GetCompilerVersion, Call.ReadFile contentFilePath])
        (headFeatures w contentFilePath goFile) e p f) :
    OpenedRun w goFile contentFilePath tr
      (Except.error e,
        tr ++ [Call.GetCompilerVersion, Call.ReadFile contentFilePath]
          ++ (p ++ [f]).map Call.AddFeature)
  | packagesFailed (err : GoError)
      (hgate : noGoVersion w goFile.GetCompilerVersion = false)
      (herr : goFile.GetPackages.2 = some err) :
    OpenedRun w goFile contentFilePath tr
      (Except.error (PluginError.error ErrorKind.ErrorException "Failed to get packages"
          "Failed to get the packages for the go binary." (some err)),
        tr ++ uptoPackages w contentFilePath goFile)
  | packagesRejected (e : PluginError) (p : List Feature) (f : Feature)
      (hgate : noGoVersion w goFile.GetCompilerVersion = false)
      (hpackages : goFile.GetPackages.2 = none)
      (hrej : Rejected w (tr ++ uptoPackages w contentFilePath goFile)
        (packageStageFeatures goFile) e p f) :
    OpenedRun w goFile contentFilePath tr
      (Except.error e,
        tr ++ uptoPackages w contentFilePath goFile ++ (p ++ [f]).map Call.AddFeature)
  | vendorsFailed (err : GoError)
      (hgate : noGoVersion w goFile.GetCompilerVersion = false)
      (hpackages : goFile.GetPackages.2 = none)
      (herr : goFile.GetVendors.2 = some err) :
    OpenedRun w goFile contentFilePath tr
      (Except.error (PluginError.error ErrorKind.ErrorException
          "Failed to get vendor packages"
          "Failed to get the vendor packages for the go binary." (some err)),
        tr ++ uptoVendors w contentFilePath goFile)
  | vendorsRejected (e : PluginError) (p : List Feature) (f : Feature)
      (hgate : noGoVersion w goFile.GetCompilerVersion = false)
      (hpackages : goFile.GetPackages.2 = none)
      (hvendors : goFile.GetVendors.2 = none)
      (hrej : Rejected w (tr ++ uptoVendors w contentFilePath goFile)
        (vendorStageFeatures goFile) e p f) :
    OpenedRun w goFile contentFilePath tr
      (Except.error e,
        tr ++ uptoVendors w contentFilePath goFile ++ (p ++ [f]).map Call.AddFeature)
  | typesFailed (err : GoError)
      (hgate : noGoVersion w goFile.GetCompilerVersion = false)
      (hpackages : goFile.GetPackages.2 = none)
      (hvendors : goFile.GetVendors.2 = none)
      (herr : goFile.GetTypes.2 = some err) :
    OpenedRun w goFile contentFilePath tr
      (Except.error (PluginError.error ErrorKind.ErrorException "Failed to get GoTypes"
          "Failed to get the GoTypes for the go binary." (some err)),
        tr ++ uptoTypes w contentFilePath goFile)
  | typesRejected (e : PluginError) (p : List Feature) (f : Feature)
      (hgate : noGoVersion w goFile.GetCompilerVersion = false)
      (hpackages : goFile.GetPackages.2 = none)
      (hvendors : goFile.GetVendors.2 = none)
      (htypes : goFile.GetTypes.2 = none)
      (hrej : Rejected w (tr ++ uptoTypes w contentFilePath goFile)
        (typeStageFeatures goFile) e p f) :
    OpenedRun w goFile contentFilePath tr
      (Except.error e,
        tr ++ uptoTypes w contentFilePath goFile ++ (p ++ [f]).map Call.AddFeature)
  | finished
      (hgate : noGoVersion w goFile.GetCompilerVersion = false)
      (hpackages : goFile.GetPackages.2 = none)
      (hvendors : goFile.GetVendors.2 = none)
      (htypes : goFile.GetTypes.2 = none) :
    OpenedRun w goFile contentFilePath tr
      (Except.ok (),
        tr ++ uptoTypes w contentFilePath goFile
          ++ (typeStageFeatures goFile).map Call.AddFeature)

/-- The same surroundings with a sink that accepts every record. -/
def withAcceptingSink (w : Env) : Env :=
  { w with sink := fun _ _ => none }

/-- The calls between `Open` and `Close` that a sink accepting everything lets the run make:
the plan of the stages, cut at the version gate or right after the first failing query. -/
def acceptingPlan (w : Env) (contentFilePath : String) (goFile : GoFile) : List Call :=
  if noGoVersion w goFile.GetCompilerVersion then [Call.GetCompilerVersion]
  else if goFile.GetPackages.2.isSome then uptoPackages w contentFilePath goFile
  else if goFile.GetVendors.2.isSome then uptoVendors w contentFilePath goFile
  else if goFile.GetTypes.2.isSome then uptoTypes w contentFilePath goFile
  else uptoTypes w contentFilePath goFile ++ (typeStageFeatures goFile).map Call.AddFeature

/-- A step is orderly for the sink of `w` when it only adds calls to the trace and stops at
the first record that the sink rejects, with the sink's answer as its error: if a record
`f` is handed over after the calls `tr1` and the sink answers `e`, the step ends there. -/
def Orderly (w : Env) {α : Type} (m : Step α) : Prop :=
  ∀ tr0, tr0 <+: (m tr0).2 ∧
    ∀ tr1 f e, tr0 <+: tr1 → tr1 ++ [Call.AddFeature f] <+: (m tr0).2 →
      w.sink tr1 f = some e → m tr0 = (Except.error e, tr1 ++ [Call.AddFeature f])

/-! ## Sample invocations -/

/-- An invocation in which `gore.Open` returns the error `text` and no handle; the sink
accepts everything. -/
def envOpenError (text : String) : Env where
  ToLower := asciiToLower
  GetContentPath := Except.ok "/tmp/content"
  Open := fun _ => OpenResult.returned none (some ⟨text⟩)
  ReadFile := fun _ => Except.error ⟨"not a Go executable"⟩
  sink := fun _ _ => none

/-- An invocation in which `gore.Open` panics with `value`. -/
def envPanic (value : PanicValue) : Env where
  ToLower := asciiToLower
  GetContentPath := Except.ok "/tmp/content"
  Open := fun _ => OpenResult.panicked value
  ReadFile := fun _ => Except.error ⟨"not a Go executable"⟩
  sink := fun _ _ => none

/-- An invocation in which `gore.Open` returns the handle `goFile`, reading the build
settings gives `settings`, and the sink accepts everything. -/
def envOpened (goFile : GoFile) (settings : Except GoError DebugBuildInfo) : Env where
  ToLower := asciiToLower
  GetContentPath := Except.ok "/tmp/content"
  Open := fun _ => OpenResult.returned (some goFile) none
  ReadFile := fun _ => settings
  sink := fun _ _ => none

/-- A small Go executable: one user package with two functions and one method, one vendor
package, one user type with a method and one runtime type. -/
def sampleGoFile : GoFile where
  BuildID := "THyJCsrrxDurShR"
  BuildInfo := some ⟨some ⟨"go1.15", "", "2020-08-11T19:01:57Z"⟩⟩
  GetCompilerVersion := (some ⟨"go1.15", "", "2020-08-11T19:01:57Z"⟩, none)
  GetPackages :=
    ([⟨"main", "D:/src/xor",
        [⟨"init", 4639616, 4639958, "main"⟩, ⟨"main", 4638816, 4639616, "main"⟩],
        [⟨"Loader", "Run", 4640000, 4640100, "main"⟩]⟩], none)
  GetVendors := ([⟨"github.com/acme/lib", ".", [], []⟩, ⟨"golang.org/x/sys", ".", [], []⟩], none)
  GetTypes :=
    ([⟨"main.Loader", "main", ⟨"struct"⟩, 4700000, 24, [⟨"Run"⟩]⟩,
      ⟨"runtime.g", "runtime", ⟨"struct"⟩, 4710000, 400, [⟨"ptr"⟩]⟩], none)

/-- An opened binary without a version marker: the version query gives nil and the error
"no goversion found". -/
def sampleNonGoFile : GoFile where
  BuildID := ""
  BuildInfo := none
  GetCompilerVersion := (none, some ⟨"no goversion found"⟩)
  GetPackages := ([], none)
  GetVendors := ([], none)
  GetTypes := ([], none)

/-- A stripped Go executable: the version marker is found, but the build id is empty, no
compiler identity is recorded and nothing is enumerated. -/
def sampleStrippedFile : GoFile where
  BuildID := ""
  BuildInfo := none
  GetCompilerVersion := (some ⟨"go1.15", "", ""⟩, none)
  GetPackages := ([], none)
  GetVendors := ([], none)
  GetTypes := ([], none)

/-- The error with which the sample sinks answer a record they reject. -/
def sinkError : PluginError :=
  PluginError.error (ErrorKind.ErrorOther "sink") "Feature rejected"
    "the job does not take this feature" none

/-- An invocation like `envOpened` whose sink rejects the records named `name` and accepts
all others. -/
def envRejecting (goFile : GoFile) (settings : Except GoError DebugBuildInfo)
    (name : String) : Env where
  ToLower := asciiToLower
  GetContentPath := Except.ok "/tmp/content"
  Open := fun _ => OpenResult.returned (some goFile) none
  ReadFile := fun _ => settings
  sink := fun _ feature => if feature.name = name then some sinkError else none

/-- The sample binary with a failing package enumeration. -/
def sampleNoPackages : GoFile :=
  { sampleGoFile with GetPackages := ([], some ⟨"no pclntab section found"⟩) }

/-- The sample binary with a failing vendor enumeration. -/
def sampleNoVendors : GoFile :=
  { sampleGoFile with GetVendors := ([], some ⟨"no pclntab section found"⟩) }

/-- The sample binary with a failing type enumeration. -/
def sampleNoTypes : GoFile :=
  { sampleGoFile with GetTypes := ([], some ⟨"no moduledata found"⟩) }

/-- Two build settings, the second with an empty value. -/
def sampleSettings : DebugBuildInfo :=
  ⟨[⟨"GOOS", "windows"⟩, ⟨"CGO_CFLAGS", ""⟩]⟩

/-- A binary whose analyzer reports the package "main" twice, each time with the function
"init" listed twice. -/
def sampleDuplicated : GoFile :=
  { sampleStrippedFile with
    GetPackages :=
      ([⟨"main", ".", [⟨"init", 4096, 4128, "main"⟩, ⟨"init", 4096, 4128, "main"⟩], []⟩,
        ⟨"main", ".", [⟨"init", 4096, 4128, "main"⟩, ⟨"init", 4096, 4128, "main"⟩], []⟩],
       none) }

/-- The sample binary whose version query gives a version together with an error whose
text contains, but is not, "no goversion found". -/
def sampleOddVersion : GoFile :=
  { sampleGoFile with
    GetCompilerVersion :=
      (some ⟨"go1.15", "", "2020-08-11T19:01:57Z"⟩, some ⟨"error: no goversion found"⟩) }

/-- A handle whose version query gives neither a version nor an error. -/
def sampleSilentVersion : GoFile :=
  { sampleGoFile with GetCompilerVersion := (none, none) }

/-- A binary for which the analyzer reports a function that ends before it starts. -/
def sampleInverted : GoFile :=
  { sampleStrippedFile with
    GetPackages := ([⟨"main", ".", [⟨"stub", 4200, 4100, "main"⟩], []⟩], none) }

/-- The sample binary with its package reported three times, in another order, next to a
second package without types. -/
def sampleReordered : GoFile :=
  { sampleGoFile with
    GetPackages :=
      ([⟨"util", ".", [], []⟩, ⟨"main", ".", [], []⟩, ⟨"main", ".", [], []⟩,
        ⟨"util", ".", [], []⟩], none) }

/-- The sample binary with the packages "main" and "util", once each. -/
def sampleTwoPackages : GoFile :=
  { sampleGoFile with
    GetPackages := ([⟨"main", "D:/src/xor", [], []⟩, ⟨"util", ".", [], []⟩], none) }

/-- An invocation in which the job has no content path. -/
def envNoPath (pluginErr : PluginError) : Env where
  ToLower := asciiToLower
  GetContentPath := Except.error pluginErr
  Open := fun _ => OpenResult.returned (some sampleGoFile) none
  ReadFile := fun _ => Except.ok sampleSettings
  sink := fun _ _ => none

/-- An invocation in which `gore.Open` returns neither a handle nor an error. -/
def envNothing : Env where
  ToLower := asciiToLower
  GetContentPath := Except.ok "/tmp/content"
  Open := fun _ => OpenResult.returned none none
  ReadFile := fun _ => Except.ok sampleSettings
  sink := fun _ _ => none

/-! ## Basic facts about steps -/

theorem andThen_apply {α β : Type} (m : Step α) (f : α → Step β) (tr : List Call) :
    m.andThen f tr =
      match m tr with
      | (Except.ok a, tr1) => f a tr1
      | (Except.error e, tr1) => (Except.error e, tr1) := rfl

theorem done_andThen {α β : Type} (a : α) (f : α → Step β) :
    (Step.done a).andThen f = f a := rfl

theorem andThen_assoc {α β γ : Type} (m : Step α) (f : α → Step β) (g : β → Step γ) :
    (m.andThen f).andThen g = m.andThen (fun a => (f a).andThen g) := by
  funext tr
  simp only [andThen_apply]
  rcases m tr with ⟨r, tr1⟩
  cases r <;> rfl

theorem andThen_done (m : Step Unit) : m.andThen (fun _ => Step.done ()) = m := by
  funext tr
  simp only [andThen_apply]
  rcases m tr with ⟨r, tr1⟩
  cases r <;> rfl

/-- A sequence ends well exactly when both halves do. -/
theorem andThen_ok {α β : Type} (m : Step α) (f : α → Step β) (tr tr2 : List Call) (b : β) :
    m.andThen f tr = (Except.ok b, tr2) ↔
      ∃ a tr1, m tr = (Except.ok a, tr1) ∧ f a tr1 = (Except.ok b, tr2) := by
  simp only [andThen_apply]
  rcases h : m tr with ⟨r, tr1⟩
  cases r with
  | error e => simp
  | ok a =>
    constructor
    · intro hf
      exact ⟨a, tr1, rfl, hf⟩
    · rintro ⟨a1, tr3, hm, hf⟩
      cases hm
      exact hf

theorem emitAll_append (w : Env) (fs gs : List Feature) :
    emitAll w (fs ++ gs) = (emitAll w fs).andThen (fun _ => emitAll w gs) := by
  induction fs with
  | nil => rfl
  | cons f rest ih =>
    rw [List.cons_append]
    simp only [emitAll]
    rw [ih, andThen_assoc]

theorem emitAll_singleton (w : Env) (f : Feature) : emitAll w [f] = emit w f := by
  simp only [emitAll, andThen_done]

/-- A loop whose body hands over the records `g x` hands over their concatenation. -/
theorem forRange_eq_emitAll {α : Type} (w : Env) (body : α → Step Unit) (g : α → List Feature)
    (h : ∀ x, body x = emitAll w (g x)) (xs : List α) :
    forRange body xs = emitAll w (xs.flatMap g) := by
  induction xs with
  | nil => rfl
  | cons x rest ih =>
    simp only [forRange, List.flatMap_cons, emitAll_append, h, ih]

theorem forRange_emit {α : Type} (w : Env) (g : α → Feature) (xs : List α) :
    forRange (fun x => emit w (g x)) xs = emitAll w (xs.map g) := by
  induction xs with
  | nil => rfl
  | cons x rest ih => simp only [forRange, List.map_cons, emitAll, ih]

/-! ## The blocks of `Execute` as record lists -/

theorem buildSettings_eq (w : Env) (contentFilePath : String) :
    buildSettings w contentFilePath =
      (record (Call.ReadFile contentFilePath)).andThen
        (fun _ => emitAll w (flagFeatures (w.ReadFile contentFilePath))) := by
  have hloop : (match w.ReadFile contentFilePath with
      | Except.ok buildInfo =>
        forRange (fun s => AddFeatureWithExtra w "go_compiler_flag" s.Value ⟨s.Key, 0, 0⟩)
          buildInfo.Settings
      | Except.error _ => Step.done ()) = emitAll w (flagFeatures (w.ReadFile contentFilePath)) := by
    cases w.ReadFile contentFilePath with
    | error e => rfl
    | ok buildInfo => exact forRange_emit w flagFeature buildInfo.Settings
  unfold buildSettings
  rw [hloop]

theorem compilerInfo_eq (w : Env) (goFile : GoFile) :
    compilerInfo w goFile = emitAll w (compilerFeatures goFile) := by
  unfold compilerInfo compilerFeatures AddFeature
  cases goFile.BuildInfo with
  | none => simp only [emitAll]
  | some buildInfo =>
    simp only []
    cases buildInfo.Compiler with
    | none => simp only [emitAll]
    | some compiler => simp only [emitAll, andThen_done]

theorem packageBody_eq (w : Env) (pkg : Package) {α : Type} (k : Step α) :
    ((AddFeature w "go_package" pkg.Name).andThen fun _ =>
      (if pkg.Filepath ≠ "." then AddFeature w "go_file" pkg.Filepath
        else Step.done ()).andThen fun _ =>
      (forRange (fun pkgFunc => AddFeatureWithExtra w "go_package_function" pkgFunc.Name
          ⟨pkgFunc.PackageName, pkgFunc.Offset, sub64 pkgFunc.End pkgFunc.Offset⟩)
        pkg.Functions).andThen fun _ =>
      (forRange (fun pkgMethods => AddFeatureWithExtra w "go_package_method" pkgMethods.Name
          ⟨pkgMethods.PackageName, pkgMethods.Offset, sub64 pkgMethods.End pkgMethods.Offset⟩)
        pkg.Methods).andThen fun _ => k) =
    (emitAll w (packageFeatures pkg)).andThen fun _ => k := by
  have hf := forRange_emit w functionFeature pkg.Functions
  have hm := forRange_emit w methodFeature pkg.Methods
  unfold functionFeature at hf
  unfold methodFeature at hm
  unfold AddFeatureWithExtra AddFeature
  rw [hf, hm]
  unfold packageFeatures
  simp only [emitAll, emitAll_append, andThen_assoc]
  by_cases hp : pkg.Filepath = "."
  · simp only [hp, ne_eq, not_true_eq_false, if_false, emitAll, done_andThen]
    rfl
  · simp only [hp, ne_eq, not_false_eq_true, if_true, emitAll, andThen_assoc, done_andThen]
    rfl

theorem packagesLoop_eq (w : Env) (pkgs : List Package) (goPackageSet : List String) :
    packagesLoop w pkgs goPackageSet =
      (emitAll w (pkgs.flatMap packageFeatures)).andThen
        (fun _ => Step.done (goPackageSet ++ pkgs.map Package.Name)) := by
  induction pkgs generalizing goPackageSet with
  | nil => simp [packagesLoop, emitAll, done_andThen]
  | cons pkg rest ih =>
    unfold packagesLoop
    rw [packageBody_eq, ih]
    simp only [List.flatMap_cons, emitAll_append, andThen_assoc, List.map_cons,
      List.append_assoc, List.singleton_append]

theorem vendorsLoop_eq (w : Env) (vendorPackages : List Package) :
    vendorsLoop w vendorPackages = emitAll w (vendorPackages.map vendorFeature) :=
  forRange_emit w vendorFeature vendorPackages

theorem typesLoop_eq (w : Env) (goPackageSet : List String) (goTypes : List GoType) :
    typesLoop w goPackageSet goTypes =
      emitAll w (goTypes.flatMap (typeFeatures goPackageSet)) := by
  unfold typesLoop
  apply forRange_eq_emitAll
  intro goType
  unfold typeFeatures
  by_cases hp : goType.PackagePath ∈ goPackageSet
  · have hm := forRange_emit w (typeMethodFeature goType) goType.Methods
    unfold typeMethodFeature at hm
    unfold AddFeatureWithExtra
    simp only [hp, if_true, emitAll, hm]
    rfl
  · simp only [hp, if_false, emitAll]

/-! ## When a step ends well -/

theorem emit_ok (w : Env) (f : Feature) (tr tr2 : List Call) (u : Unit) :
    emit w f tr = (Except.ok u, tr2) ↔ w.sink tr f = none ∧ tr2 = tr ++ [Call.AddFeature f] := by
  unfold emit
  cases w.sink tr f with
  | none => simp [eq_comm]
  | some e => simp

theorem emitAll_ok_trace (w : Env) (fs : List Feature) (tr tr2 : List Call) (u : Unit)
    (h : emitAll w fs tr = (Except.ok u, tr2)) : tr2 = tr ++ fs.map Call.AddFeature := by
  induction fs generalizing tr with
  | nil =>
    simp only [emitAll, Step.done, Prod.mk.injEq] at h
    simp [h.2]
  | cons f rest ih =>
    simp only [emitAll] at h
    rw [andThen_ok] at h
    obtain ⟨a, tr1, h1, h2⟩ := h
    rw [emit_ok] at h1
    rw [ih tr1 h2, h1.2]
    simp

theorem record_ok (c : Call) (tr tr2 : List Call) (u : Unit) :
    record c tr = (Except.ok u, tr2) ↔ tr2 = tr ++ [c] := by
  simp [record, eq_comm]

theorem query_ok {α : Type} (c : Call) (r : α × Option GoError) (title message : String)
    (tr tr2 : List Call) (a : α) :
    query c r title message tr = (Except.ok a, tr2) ↔
      r.2 = none ∧ a = r.1 ∧ tr2 = tr ++ [c] := by
  unfold query
  cases h : r.2 with
  | none => simp [eq_comm]
  | some e => simp

theorem done_ok {α : Type} (a b : α) (tr tr2 : List Call) :
    Step.done a tr = (Except.ok b, tr2) ↔ b = a ∧ tr2 = tr := by
  simp [Step.done, eq_comm]

/-- An opened binary is processed to the end only past the version gate and with all three
enumerations succeeding, and then the calls made are those of `successTrace`. -/
theorem executeOpened_ok (w : Env) (goFile : GoFile) (contentFilePath : String)
    (tr tr2 : List Call) (u : Unit)
    (h : executeOpened w goFile contentFilePath tr = (Except.ok u, tr2)) :
    noGoVersion w goFile.GetCompilerVersion = false ∧ goFile.GetPackages.2 = none ∧
      goFile.GetVendors.2 = none ∧ goFile.GetTypes.2 = none ∧
      tr2 = tr ++ [Call.GetCompilerVersion, Call.ReadFile contentFilePath]
        ++ (flagFeatures (w.ReadFile contentFilePath)).map Call.AddFeature
        ++ (compilerFeatures goFile).map Call.AddFeature
        ++ [Call.GetPackages]
        ++ (goFile.GetPackages.1.flatMap packageFeatures).map Call.AddFeature
        ++ [Call.GetVendors]
        ++ (goFile.GetVendors.1.map vendorFeature).map Call.AddFeature
        ++ [Call.GetTypes]
        ++ (goFile.GetTypes.1.flatMap
              (typeFeatures (goFile.GetPackages.1.map Package.Name))).map Call.AddFeature := by
  unfold executeOpened at h
  rw [andThen_ok] at h
  obtain ⟨_, t1, h1, h⟩ := h
  rw [record_ok] at h1
  cases hg : noGoVersion w goFile.GetCompilerVersion with
  | true =>
    rw [hg] at h
    simp [Step.fail] at h
  | false =>
    rw [hg] at h
    simp only [Bool.false_eq_true, if_false] at h
    rw [buildSettings_eq, compilerInfo_eq, andThen_assoc] at h
    rw [andThen_ok] at h
    obtain ⟨_, t2, h2, h⟩ := h
    rw [record_ok] at h2
    rw [andThen_ok] at h
    obtain ⟨_, t3, h3, h⟩ := h
    have e3 := emitAll_ok_trace w _ _ _ _ h3
    rw [andThen_ok] at h
    obtain ⟨_, t4, h4, h⟩ := h
    have e4 := emitAll_ok_trace w _ _ _ _ h4
    rw [andThen_ok] at h
    obtain ⟨packageList, t5, h5, h⟩ := h
    rw [query_ok] at h5
    obtain ⟨p5, q5, e5⟩ := h5
    rw [packagesLoop_eq, andThen_assoc, andThen_ok] at h
    obtain ⟨_, t6, h6, h⟩ := h
    have e6 := emitAll_ok_trace w _ _ _ _ h6
    rw [done_andThen, andThen_ok] at h
    obtain ⟨vendorPackages, t7, h7, h⟩ := h
    rw [query_ok] at h7
    obtain ⟨p7, q7, e7⟩ := h7
    rw [vendorsLoop_eq, andThen_ok] at h
    obtain ⟨_, t8, h8, h⟩ := h
    have e8 := emitAll_ok_trace w _ _ _ _ h8
    rw [andThen_ok] at h
    obtain ⟨goTypes, t9, h9, h⟩ := h
    rw [query_ok] at h9
    obtain ⟨p9, q9, e9⟩ := h9
    rw [typesLoop_eq] at h
    have e10 := emitAll_ok_trace w _ _ _ _ h
    refine ⟨rfl, p5, p7, p9, ?_⟩
    subst q5 q7 q9
    rw [e10, e9, e8, e7, e6, e5, e4, e3, h2, h1]
    simp

/-! ## `Execute` case by case -/

/-- Shape of `Execute` when the job has no content path: the error is returned at once. -/
theorem Execute_noPath (w : Env) (gi : GoInfoPlugin) (pluginErr : PluginError)
    (hpath : w.GetContentPath = Except.error pluginErr) :
    Execute w gi = (gi, some pluginErr, [Call.GetContentPath]) := by
  unfold Execute
  rw [hpath]

/-- Shape of `Execute` when `gore.Open` returns an error. -/
theorem Execute_openError (w : Env) (gi : GoInfoPlugin) (contentFilePath : String)
    (goFile : Option GoFile) (err : GoError)
    (hpath : w.GetContentPath = Except.ok contentFilePath)
    (hopen : w.Open contentFilePath = OpenResult.returned goFile (some err)) :
    Execute w gi =
      if strings_Contains (w.ToLower err.Error) "unsupported" then
        (handleGorePanic gi none, some (PluginError.optOut
            ("File could not be opened by pygore with message " ++ err.Error)),
          [Call.GetContentPath, Call.Open contentFilePath])
      else if strings_Contains (w.ToLower err.Error) "fail to read string table length" then
        (handleGorePanic gi none,
          w.sink [Call.GetContentPath, Call.Open contentFilePath]
            ⟨"malformed",
              "PE file was corrupted and it's header couldn't be read with error " ++ err.Error,
              none⟩,
          [Call.GetContentPath, Call.Open contentFilePath,
            Call.AddFeature ⟨"malformed",
              "PE file was corrupted and it's header couldn't be read with error " ++ err.Error,
              none⟩])
      else
        (handleGorePanic gi none,
          some (PluginError.error ErrorKind.ErrorException "Could not be opened"
            "Pygore could not open the file" (some err)),
          [Call.GetContentPath, Call.Open contentFilePath]) := by
  unfold Execute openGoreFile
  rw [hpath]
  simp only [hopen]
  split
  · rfl
  · split
    · unfold AddFeature emit
      cases w.sink [Call.GetContentPath, Call.Open contentFilePath]
          ⟨"malformed",
            "PE file was corrupted and it's header couldn't be read with error " ++ err.Error,
            none⟩ <;> rfl
    · rfl

/-- Shape of `Execute` when `gore.Open` yields neither a handle nor an error: `message` is
what `handleGorePanic` stored. -/
theorem Execute_noHandle (w : Env) (gi : GoInfoPlugin) (contentFilePath : String)
    (hpath : w.GetContentPath = Except.ok contentFilePath)
    (hopen : (openGoreFile w gi contentFilePath).2 = (none, none)) :
    Execute w gi =
      if (openGoreFile w gi contentFilePath).1.panicError = "Unsupported architecture" then
        ((openGoreFile w gi contentFilePath).1,
          some (PluginError.optOut
            ("Gore paniced while trying to open the file with the panic message: '"
              ++ (openGoreFile w gi contentFilePath).1.panicError ++ "'")),
          [Call.GetContentPath, Call.Open contentFilePath])
      else
        ((openGoreFile w gi contentFilePath).1,
          some (PluginError.error ErrorKind.ErrorException "Pygore Panic"
            ("Pygore paniced with a panic message: '"
              ++ (openGoreFile w gi contentFilePath).1.panicError ++ "'") none),
          [Call.GetContentPath, Call.Open contentFilePath]) := by
  unfold Execute
  simp only [hpath]
  rcases hq : openGoreFile w gi contentFilePath with ⟨gi1, f, e⟩
  rw [hq] at hopen
  simp only [Prod.mk.injEq] at hopen
  obtain ⟨rfl, rfl⟩ := hopen
  rfl

/-- Shape of `Execute` when `gore.Open` returns a handle and no error. -/
theorem Execute_opened (w : Env) (gi : GoInfoPlugin) (contentFilePath : String)
    (goFile : GoFile)
    (hpath : w.GetContentPath = Except.ok contentFilePath)
    (hopen : w.Open contentFilePath = OpenResult.returned (some goFile) none) :
    Execute w gi =
      (handleGorePanic gi none,
        outcomeOf (executeOpened w goFile contentFilePath
          [Call.GetContentPath, Call.Open contentFilePath]).1,
        (executeOpened w goFile contentFilePath
          [Call.GetContentPath, Call.Open contentFilePath]).2 ++ [Call.Close]) := by
  unfold Execute openGoreFile
  rw [hpath]
  simp only [hopen]

/-- An invocation that opened `goFile` and returned nil passed the version gate, had all
three enumerations succeed and made exactly the calls of `successTrace`. -/
theorem Execute_success (w : Env) (gi : GoInfoPlugin) (contentFilePath : String)
    (goFile : GoFile)
    (hpath : w.GetContentPath = Except.ok contentFilePath)
    (hopen : w.Open contentFilePath = OpenResult.returned (some goFile) none)
    (hnil : (Execute w gi).2.1 = none) :
    (Execute w gi).2.2 = successTrace w contentFilePath goFile ∧
      noGoVersion w goFile.GetCompilerVersion = false ∧ goFile.GetPackages.2 = none ∧
      goFile.GetVendors.2 = none ∧ goFile.GetTypes.2 = none := by
  rw [Execute_opened w gi contentFilePath goFile hpath hopen] at hnil ⊢
  rcases hr : executeOpened w goFile contentFilePath
      [Call.GetContentPath, Call.Open contentFilePath] with ⟨r, tr⟩
  rw [hr] at hnil
  cases r with
  | error e => simp [outcomeOf] at hnil
  | ok u =>
    obtain ⟨hg, hp, hv, ht, htr⟩ := executeOpened_ok w goFile contentFilePath _ _ _ hr
    refine ⟨?_, hg, hp, hv, ht⟩
    simp only [htr, successTrace, List.append_assoc, List.cons_append, List.nil_append]

/-! ## Reading records off a trace -/

theorem emitted_append (a b : List Call) : emitted (a ++ b) = emitted a ++ emitted b := by
  induction a with
  | nil => rfl
  | cons c rest ih => cases c <;> simp [emitted, ih]

theorem emitted_map (fs : List Feature) : emitted (fs.map Call.AddFeature) = fs := by
  induction fs with
  | nil => rfl
  | cons f rest ih => simp [emitted, ih]

/-- The records of a full run are `successFeatures`. -/
theorem emitted_successTrace (w : Env) (contentFilePath : String) (goFile : GoFile) :
    emitted (successTrace w contentFilePath goFile) =
      successFeatures w contentFilePath goFile := by
  have h0 : emitted [Call.GetContentPath, Call.Open contentFilePath, Call.GetCompilerVersion,
      Call.ReadFile contentFilePath] = [] := rfl
  have h1 : emitted [Call.GetPackages] = [] := rfl
  have h2 : emitted [Call.GetVendors] = [] := rfl
  have h3 : emitted [Call.GetTypes] = [] := rfl
  have h4 : emitted [Call.Close] = [] := rfl
  simp only [successTrace, successFeatures, emitted_append, emitted_map, h0, h1, h2, h3, h4,
    List.append_nil, List.nil_append]

/-! ## Names of the records of each block -/

theorem name_of_mem_flagFeatures (r : Except GoError DebugBuildInfo) (f : Feature)
    (h : f ∈ flagFeatures r) : f.name = "go_compiler_flag" := by
  cases r with
  | error e => simp [flagFeatures] at h
  | ok buildInfo =>
    simp only [flagFeatures, List.mem_map] at h
    obtain ⟨s, _, rfl⟩ := h
    rfl

theorem name_of_mem_compilerFeatures (goFile : GoFile) (f : Feature)
    (h : f ∈ compilerFeatures goFile) :
    f.name ∈ ["go_build_id", "go_compiler_version", "go_compiler_timestamp"] := by
  unfold compilerFeatures at h
  rcases hb : goFile.BuildInfo with _ | ⟨_ | compiler⟩ <;> rw [hb] at h <;>
    simp only [List.mem_cons, List.not_mem_nil, or_false] at h
  · subst h
    simp
  · subst h
    simp
  · rcases h with rfl | rfl | rfl <;> simp

theorem name_of_mem_packageFeatures (pkgs : List Package) (f : Feature)
    (h : f ∈ pkgs.flatMap packageFeatures) :
    f.name ∈ ["go_package", "go_file", "go_package_function", "go_package_method"] := by
  simp only [List.mem_flatMap, packageFeatures, List.mem_cons, List.mem_append,
    List.mem_map] at h
  obtain ⟨pkg, _, h⟩ := h
  rcases h with rfl | h | ⟨x, _, rfl⟩ | ⟨x, _, rfl⟩
  · simp [packageFeature]
  · by_cases hp : pkg.Filepath = "."
    · simp [hp] at h
    · simp only [ne_eq, hp, not_false_eq_true, if_true, List.mem_singleton] at h
      subst h
      simp [fileFeature]
  · simp [functionFeature]
  · simp [methodFeature]

theorem name_of_mem_vendorFeatures (vendorPackages : List Package) (f : Feature)
    (h : f ∈ vendorPackages.map vendorFeature) : f.name = "go_vendor_package" := by
  simp only [List.mem_map] at h
  obtain ⟨v, _, rfl⟩ := h
  rfl

theorem name_of_mem_typeFeatures (goPackageSet : List String) (goTypes : List GoType)
    (f : Feature) (h : f ∈ goTypes.flatMap (typeFeatures goPackageSet)) :
    f.name ∈ ["go_type", "go_type_method"] := by
  simp only [List.mem_flatMap, typeFeatures] at h
  obtain ⟨goType, _, h⟩ := h
  by_cases hp : goType.PackagePath ∈ goPackageSet
  · simp only [hp, if_true, List.mem_cons, List.mem_map] at h
    rcases h with rfl | ⟨m, _, rfl⟩
    · simp [goTypeFeature]
    · simp [typeMethodFeature]
  · simp [hp] at h

/-- Records whose names all lie in a list that misses `n` contribute nothing under `n`. -/
theorem filter_named_eq_nil (n : String) (names : List String) (fs : List Feature)
    (h : ∀ f ∈ fs, f.name ∈ names) (hn : n ∉ names) :
    fs.filter (fun feature => decide (feature.name = n)) = [] := by
  rw [List.filter_eq_nil_iff]
  intro f hf hd
  simp only [decide_eq_true_eq] at hd
  exact hn (hd ▸ h f hf)

/-- Records that all carry the name `n` are all kept under `n`. -/
theorem filter_named_eq_self (n : String) (fs : List Feature) (h : ∀ f ∈ fs, f.name = n) :
    fs.filter (fun feature => decide (feature.name = n)) = fs := by
  rw [List.filter_eq_self]
  intro f hf
  simp [h f hf]

theorem filter_flagFeatures_other (n : String) (hn : n ∉ ["go_compiler_flag"])
    (r : Except GoError DebugBuildInfo) :
    (flagFeatures r).filter (fun f => decide (f.name = n)) = [] :=
  filter_named_eq_nil n ["go_compiler_flag"] _
    (fun f hf => by simp [name_of_mem_flagFeatures r f hf]) hn

theorem filter_compilerFeatures_other (n : String)
    (hn : n ∉ ["go_build_id", "go_compiler_version", "go_compiler_timestamp"])
    (goFile : GoFile) :
    (compilerFeatures goFile).filter (fun f => decide (f.name = n)) = [] :=
  filter_named_eq_nil n _ _ (name_of_mem_compilerFeatures goFile) hn

theorem filter_packageFeatures_other (n : String)
    (hn : n ∉ ["go_package", "go_file", "go_package_function", "go_package_method"])
    (pkgs : List Package) :
    (pkgs.flatMap packageFeatures).filter (fun f => decide (f.name = n)) = [] :=
  filter_named_eq_nil n _ _ (name_of_mem_packageFeatures pkgs) hn

theorem filter_vendorFeatures_other (n : String) (hn : n ∉ ["go_vendor_package"])
    (vendorPackages : List Package) :
    (vendorPackages.map vendorFeature).filter (fun f => decide (f.name = n)) = [] :=
  filter_named_eq_nil n ["go_vendor_package"] _
    (fun f hf => by simp [name_of_mem_vendorFeatures vendorPackages f hf]) hn

theorem filter_typeFeatures_other (n : String) (hn : n ∉ ["go_type", "go_type_method"])
    (goPackageSet : List String) (goTypes : List GoType) :
    (goTypes.flatMap (typeFeatures goPackageSet)).filter (fun f => decide (f.name = n)) = [] :=
  filter_named_eq_nil n _ _ (name_of_mem_typeFeatures goPackageSet goTypes) hn

theorem emittedNamed_success (n : String) (w : Env) (gi : GoInfoPlugin)
    (contentFilePath : String) (goFile : GoFile)
    (hpath : w.GetContentPath = Except.ok contentFilePath)
    (hopen : w.Open contentFilePath = OpenResult.returned (some goFile) none)
    (hnil : (Execute w gi).2.1 = none) :
    emittedNamed n (Execute w gi).2.2 =
      (flagFeatures (w.ReadFile contentFilePath)).filter (fun f => decide (f.name = n))
      ++ (compilerFeatures goFile).filter (fun f => decide (f.name = n))
      ++ (goFile.GetPackages.1.flatMap packageFeatures).filter (fun f => decide (f.name = n))
      ++ (goFile.GetVendors.1.map vendorFeature).filter (fun f => decide (f.name = n))
      ++ (goFile.GetTypes.1.flatMap
            (typeFeatures (goFile.GetPackages.1.map Package.Name))).filter
          (fun f => decide (f.name = n)) := by
  unfold emittedNamed
  rw [(Execute_success w gi contentFilePath goFile hpath hopen hnil).1, emitted_successTrace]
  simp only [successFeatures, List.filter_append]

theorem emittedNamed_success_packages (w : Env) (gi : GoInfoPlugin)
    (contentFilePath : String) (goFile : GoFile)
    (hpath : w.GetContentPath = Except.ok contentFilePath)
    (hopen : w.Open contentFilePath = OpenResult.returned (some goFile) none)
    (hnil : (Execute w gi).2.1 = none) :
    emittedNamed "go_package" (Execute w gi).2.2 = goFile.GetPackages.1.map packageFeature := by
  rw [emittedNamed_success "go_package" w gi contentFilePath goFile hpath hopen hnil,
    filter_flagFeatures_other "go_package" (by decide),
    filter_compilerFeatures_other "go_package" (by decide),
    filter_vendorFeatures_other "go_package" (by decide),
    filter_typeFeatures_other "go_package" (by decide)]
  simp only [List.nil_append, List.append_nil]
  induction goFile.GetPackages.1 with
  | nil => rfl
  | cons pkg rest ih =>
    rw [List.flatMap_cons, List.filter_append, ih, List.map_cons]
    have htail : ((if pkg.Filepath ≠ "." then [fileFeature pkg] else []) ++
        (pkg.Functions.map functionFeature ++ pkg.Methods.map methodFeature)).filter
          (fun f => decide (f.name = "go_package")) = [] := by
      apply filter_named_eq_nil "go_package"
        ["go_file", "go_package_function", "go_package_method"]
      · intro f hf
        simp only [List.mem_append, List.mem_map] at hf
        rcases hf with hf | ⟨x, _, rfl⟩ | ⟨x, _, rfl⟩
        · by_cases hp : pkg.Filepath = "."
          · simp [hp] at hf
          · simp only [ne_eq, hp, not_false_eq_true, if_true, List.mem_singleton] at hf
            subst hf
            simp [fileFeature]
        · simp [functionFeature]
        · simp [methodFeature]
      · decide
    unfold packageFeatures
    rw [List.filter_cons_of_pos (by simp [packageFeature]), htail]
    rfl

theorem filter_go_type_typeFeatures (goPackageSet : List String) (goTypes : List GoType) :
    (goTypes.flatMap (typeFeatures goPackageSet)).filter
        (fun f => decide (f.name = "go_type")) =
      (goTypes.filter (fun goType => decide (goType.PackagePath ∈ goPackageSet))).map
        goTypeFeature := by
  induction goTypes with
  | nil => rfl
  | cons goType rest ih =>
    rw [List.flatMap_cons, List.filter_append, ih]
    unfold typeFeatures
    by_cases hp : goType.PackagePath ∈ goPackageSet
    · have hm : (goType.Methods.map (typeMethodFeature goType)).filter
          (fun f => decide (f.name = "go_type")) = [] := by
        apply filter_named_eq_nil "go_type" ["go_type_method"]
        · intro f hf
          simp only [List.mem_map] at hf
          obtain ⟨m, _, rfl⟩ := hf
          simp [typeMethodFeature]
        · decide
      rw [if_pos hp, List.filter_cons_of_pos (by simp [goTypeFeature]), hm,
        List.filter_cons_of_pos (by simp [hp])]
      rfl
    · rw [if_neg hp, List.filter_cons_of_neg (by simp [hp])]
      rfl

/-- No record of a full run is a "go_file" record with value ".". -/
theorem go_file_dot_not_mem_successFeatures (w : Env) (contentFilePath : String)
    (goFile : GoFile) :
    (⟨"go_file", ".", none⟩ : Feature) ∉ successFeatures w contentFilePath goFile := by
  intro h
  simp only [successFeatures, List.mem_append] at h
  rcases h with (((h | h) | h) | h) | h
  · exact absurd (name_of_mem_flagFeatures _ _ h) (by decide)
  · have := name_of_mem_compilerFeatures _ _ h
    revert this
    decide
  · simp only [List.mem_flatMap, packageFeatures, List.mem_cons, List.mem_append,
      List.mem_map] at h
    obtain ⟨pkg, _, h⟩ := h
    rcases h with h | h | ⟨x, _, h⟩ | ⟨x, _, h⟩
    · exact absurd (show "go_file" = "go_package" from congrArg Feature.name h) (by decide)
    · by_cases hp : pkg.Filepath = "."
      · simp [hp] at h
      · simp only [ne_eq, hp, not_false_eq_true, if_true, List.mem_singleton] at h
        exact hp (congrArg Feature.value h).symm
    · exact absurd (show "go_package_function" = "go_file" from congrArg Feature.name h)
        (by decide)
    · exact absurd (show "go_package_method" = "go_file" from congrArg Feature.name h)
        (by decide)
  · exact absurd (name_of_mem_vendorFeatures _ _ h) (by decide)
  · have := name_of_mem_typeFeatures _ _ _ h
    revert this
    decide

theorem packageFeatures_subset_successFeatures (w : Env) (contentFilePath : String)
    (goFile : GoFile) (pkg : Package) (hpkg : pkg ∈ goFile.GetPackages.1) (f : Feature)
    (hf : f ∈ packageFeatures pkg) : f ∈ successFeatures w contentFilePath goFile := by
  simp only [successFeatures, List.mem_append, List.mem_flatMap]
  exact Or.inl (Or.inl (Or.inr ⟨pkg, hpkg, hf⟩))

/-! ## Runs with a sink that accepts everything -/

theorem emitAll_accepting (w : Env) (hsink : ∀ tr f, w.sink tr f = none) (fs : List Feature)
    (tr : List Call) : emitAll w fs tr = (Except.ok (), tr ++ fs.map Call.AddFeature) := by
  induction fs generalizing tr with
  | nil => simp [emitAll, Step.done]
  | cons f rest ih =>
    simp only [emitAll, andThen_apply, emit, hsink, ih, List.map_cons, List.append_assoc,
      List.singleton_append]

/-- Past the version gate, with all three enumerations succeeding and a sink that accepts
everything, the opened binary is processed to the end. -/
theorem executeOpened_accepting (w : Env) (goFile : GoFile) (contentFilePath : String)
    (tr : List Call) (hsink : ∀ tr f, w.sink tr f = none)
    (hgate : noGoVersion w goFile.GetCompilerVersion = false)
    (hpackages : goFile.GetPackages.2 = none) (hvendors : goFile.GetVendors.2 = none)
    (htypes : goFile.GetTypes.2 = none) :
    (executeOpened w goFile contentFilePath tr).1 = Except.ok () := by
  unfold executeOpened
  rw [buildSettings_eq, compilerInfo_eq]
  simp only [hgate, Bool.false_eq_true, if_false, andThen_apply, record, query, hpackages,
    hvendors, htypes, packagesLoop_eq, vendorsLoop_eq, typesLoop_eq,
    emitAll_accepting w hsink, Step.done]

/-- With a handle and no open error, past the version gate, with all three enumerations
succeeding and a sink that accepts everything, `Execute` returns nil. -/
theorem Execute_accepting (w : Env) (gi : GoInfoPlugin) (contentFilePath : String)
    (goFile : GoFile)
    (hpath : w.GetContentPath = Except.ok contentFilePath)
    (hopen : w.Open contentFilePath = OpenResult.returned (some goFile) none)
    (hsink : ∀ tr f, w.sink tr f = none)
    (hgate : noGoVersion w goFile.GetCompilerVersion = false)
    (hpackages : goFile.GetPackages.2 = none) (hvendors : goFile.GetVendors.2 = none)
    (htypes : goFile.GetTypes.2 = none) :
    (Execute w gi).2.1 = none := by
  rw [Execute_opened w gi contentFilePath goFile hpath hopen,
    executeOpened_accepting w goFile contentFilePath _ hsink hgate hpackages hvendors htypes]
  rfl

/-- On values in range and in the order of the data model, `uint64` subtraction is the
plain difference. -/
theorem sub64_of_le (a b : Nat) (hab : b ≤ a) (ha : a < 2 ^ 64) : sub64 a b = a - b := by
  unfold sub64
  have hb : b < 2 ^ 64 := lt_of_le_of_lt hab ha
  rw [Nat.mod_eq_of_lt ha, Nat.mod_eq_of_lt hb]
  have : a + 2 ^ 64 - b = (a - b) + 2 ^ 64 := by omega
  rw [this, Nat.add_mod_right, Nat.mod_eq_of_lt (by omega)]

/-- A length in the range of `uint64` is its own conversion. -/
theorem uint64_of_nonneg (n : Nat) (hn : n < 2 ^ 64) : uint64 (n : Int) = n := by
  unfold uint64
  have h : ((n : Int) % 2 ^ 64) = (n : Int) := Int.emod_eq_of_lt (by omega) (by exact_mod_cast hn)
  rw [h]
  rfl

/-! ## Failures of the open call -/

/-- C1: when `gore.Open` returns an error whose lower-cased text contains "unsupported",
`Execute` returns the opt-out whose message is "File could not be opened by pygore with
message " followed by the error text as it is, and no record is handed to the sink. -/
theorem unsupported_open_error_opts_out (w : Env) (gi : GoInfoPlugin)
    (contentFilePath : String) (goFile : Option GoFile) (err : GoError)
    (hpath : w.GetContentPath = Except.ok contentFilePath)
    (hopen : w.Open contentFilePath = OpenResult.returned goFile (some err))
    (hunsupported : strings_Contains (w.ToLower err.Error) "unsupported" = true) :
    (Execute w gi).2.1 = some (PluginError.optOut
        ("File could not be opened by pygore with message " ++ err.Error)) ∧
      emitted (Execute w gi).2.2 = [] := by
  rw [Execute_openError w gi contentFilePath goFile err hpath hopen, if_pos hunsupported]
  exact ⟨rfl, rfl⟩

/-- The PDF fixture of C1: the analyzer answers "unsupported file". -/
theorem unsupported_open_error_opts_out_witness :
    strings_Contains ((envOpenError "unsupported file").ToLower "unsupported file")
        "unsupported" = true ∧
      (Execute (envOpenError "unsupported file") ⟨""⟩).2.1 = some (PluginError.optOut
        "File could not be opened by pygore with message unsupported file") ∧
      emitted (Execute (envOpenError "unsupported file") ⟨""⟩).2.2 = [] :=
  ⟨by decide,
    unsupported_open_error_opts_out (envOpenError "unsupported file") ⟨""⟩ "/tmp/content" none
      ⟨"unsupported file"⟩ rfl rfl (by decide)⟩

/-- C2: when the open error's lower-cased text does not contain "unsupported" but contains
"fail to read string table length" and the sink accepts the record, `Execute` returns nil
and the records handed to the sink are exactly one, named "malformed", whose value is
"PE file was corrupted and it's header couldn't be read with error " followed by the error
text as it is. -/
theorem corrupted_header_emits_malformed (w : Env) (gi : GoInfoPlugin)
    (contentFilePath : String) (goFile : Option GoFile) (err : GoError)
    (hpath : w.GetContentPath = Except.ok contentFilePath)
    (hopen : w.Open contentFilePath = OpenResult.returned goFile (some err))
    (hsupported : strings_Contains (w.ToLower err.Error) "unsupported" = false)
    (hcorrupt :
      strings_Contains (w.ToLower err.Error) "fail to read string table length" = true)
    (haccept : w.sink [Call.GetContentPath, Call.Open contentFilePath]
      ⟨"malformed",
        "PE file was corrupted and it's header couldn't be read with error " ++ err.Error,
        none⟩ = none) :
    (Execute w gi).2.1 = none ∧
      emitted (Execute w gi).2.2 =
        [⟨"malformed",
          "PE file was corrupted and it's header couldn't be read with error " ++ err.Error,
          none⟩] := by
  rw [Execute_openError w gi contentFilePath goFile err hpath hopen, hsupported,
    if_neg Bool.false_ne_true, if_pos hcorrupt]
  exact ⟨haccept, rfl⟩

/-- The corrupted PE fixture of C2. -/
theorem corrupted_header_emits_malformed_witness :
    (Execute (envOpenError
        "error when parsing the PE file: fail to read string table length: EOF") ⟨""⟩).2.1
        = none ∧
      emitted (Execute (envOpenError
        "error when parsing the PE file: fail to read string table length: EOF") ⟨""⟩).2.2 =
        [⟨"malformed",
          "PE file was corrupted and it's header couldn't be read with error error when parsing the PE file: fail to read string table length: EOF",
          none⟩] :=
  corrupted_header_emits_malformed
    (envOpenError "error when parsing the PE file: fail to read string table length: EOF")
    ⟨""⟩ "/tmp/content" none
    ⟨"error when parsing the PE file: fail to read string table length: EOF"⟩ rfl rfl
    (by decide) (by decide) rfl

/-- C7: when the open error's lower-cased text contains neither "unsupported" nor "fail to
read string table length", `Execute` returns the error of category Exception titled "Could
not be opened" whose causal error is the open error. -/
theorem other_open_error_is_fatal (w : Env) (gi : GoInfoPlugin)
    (contentFilePath : String) (goFile : Option GoFile) (err : GoError)
    (hpath : w.GetContentPath = Except.ok contentFilePath)
    (hopen : w.Open contentFilePath = OpenResult.returned goFile (some err))
    (hsupported : strings_Contains (w.ToLower err.Error) "unsupported" = false)
    (hcorrupt :
      strings_Contains (w.ToLower err.Error) "fail to read string table length" = false) :
    (Execute w gi).2.1 = some (PluginError.error ErrorKind.ErrorException
      "Could not be opened" "Pygore could not open the file" (some err)) := by
  rw [Execute_openError w gi contentFilePath goFile err hpath hopen, hsupported, hcorrupt,
    if_neg Bool.false_ne_true, if_neg Bool.false_ne_true]

/-- An unreadable file as instance of C7. -/
theorem other_open_error_is_fatal_witness :
    (Execute (envOpenError "open /tmp/content: permission denied") ⟨""⟩).2.1 =
      some (PluginError.error ErrorKind.ErrorException "Could not be opened"
        "Pygore could not open the file" (some ⟨"open /tmp/content: permission denied"⟩)) :=
  other_open_error_is_fatal (envOpenError "open /tmp/content: permission denied") ⟨""⟩
    "/tmp/content" none ⟨"open /tmp/content: permission denied"⟩ rfl rfl
    (by decide) (by decide)

/-! ## Panics of the open call -/

/-- C5: when `gore.Open` panics with the string "Unsupported architecture", `Execute`
returns the opt-out "Gore paniced while trying to open the file with the panic message:
'Unsupported architecture'" and no record is handed to the sink. -/
theorem unsupported_architecture_panic_opts_out (w : Env) (gi : GoInfoPlugin)
    (contentFilePath : String)
    (hpath : w.GetContentPath = Except.ok contentFilePath)
    (hopen : w.Open contentFilePath =
      OpenResult.panicked (PanicValue.str "Unsupported architecture")) :
    (Execute w gi).2.1 = some (PluginError.optOut
        "Gore paniced while trying to open the file with the panic message: 'Unsupported architecture'")
      ∧ emitted (Execute w gi).2.2 = [] := by
  have hq : openGoreFile w gi contentFilePath =
      ({ gi with panicError := "Unsupported architecture" }, none, none) := by
    unfold openGoreFile
    rw [hopen]
    rfl
  rw [Execute_noHandle w gi contentFilePath hpath (by rw [hq]), hq]
  simp only [if_true]
  exact ⟨rfl, rfl⟩

/-- The Mach-O fixture of C5. -/
theorem unsupported_architecture_panic_opts_out_witness :
    (Execute (envPanic (PanicValue.str "Unsupported architecture")) ⟨""⟩).2.1 =
        some (PluginError.optOut
          "Gore paniced while trying to open the file with the panic message: 'Unsupported architecture'")
      ∧ emitted (Execute (envPanic (PanicValue.str "Unsupported architecture")) ⟨""⟩).2.2
        = [] :=
  unsupported_architecture_panic_opts_out
    (envPanic (PanicValue.str "Unsupported architecture")) ⟨""⟩ "/tmp/content" rfl rfl

/-- C6: when `gore.Open` panics with a string `m` other than exactly "Unsupported
architecture", `Execute` returns the error of category Exception titled "Pygore Panic" with
message "Pygore paniced with a panic message: '" ++ m ++ "'". -/
theorem other_string_panic_is_fatal (w : Env) (gi : GoInfoPlugin)
    (contentFilePath : String) (m : String)
    (hpath : w.GetContentPath = Except.ok contentFilePath)
    (hopen : w.Open contentFilePath = OpenResult.panicked (PanicValue.str m))
    (hm : m ≠ "Unsupported architecture") :
    (Execute w gi).2.1 = some (PluginError.error ErrorKind.ErrorException "Pygore Panic"
      ("Pygore paniced with a panic message: '" ++ m ++ "'") none) := by
  have hq : openGoreFile w gi contentFilePath = ({ gi with panicError := m }, none, none) := by
    unfold openGoreFile
    rw [hopen]
    rfl
  rw [Execute_noHandle w gi contentFilePath hpath (by rw [hq]), hq]
  simp only [if_neg hm]

/-- The same words in another letter case are not recognised: instance of C6. -/
theorem other_string_panic_is_fatal_witness :
    "unsupported architecture" ≠ "Unsupported architecture" ∧
      (Execute (envPanic (PanicValue.str "unsupported architecture")) ⟨""⟩).2.1 =
        some (PluginError.error ErrorKind.ErrorException "Pygore Panic"
          "Pygore paniced with a panic message: 'unsupported architecture'" none) :=
  ⟨by decide,
    other_string_panic_is_fatal (envPanic (PanicValue.str "unsupported architecture")) ⟨""⟩
      "/tmp/content" "unsupported architecture" rfl rfl (by decide)⟩

/-! ## The version gate -/

/-- C3: after an open that gave a handle and no error, if the version query gives no
version, or gives an error whose lower-cased text equals "no goversion found", `Execute`
returns the opt-out "Not a go binary, no go version found." and no record is handed to the
sink. -/
theorem no_go_version_opts_out (w : Env) (gi : GoInfoPlugin)
    (contentFilePath : String) (goFile : GoFile)
    (hpath : w.GetContentPath = Except.ok contentFilePath)
    (hopen : w.Open contentFilePath = OpenResult.returned (some goFile) none)
    (hversion : goFile.GetCompilerVersion.1 = none ∨
      ∃ err, goFile.GetCompilerVersion.2 = some err ∧
        w.ToLower err.Error = "no goversion found") :
    (Execute w gi).2.1 = some (PluginError.optOut "Not a go binary, no go version found.") ∧
      emitted (Execute w gi).2.2 = [] := by
  have hgate : noGoVersion w goFile.GetCompilerVersion = true := by
    rcases hv : goFile.GetCompilerVersion with ⟨v, e⟩
    rw [hv] at hversion
    cases v with
    | none => rfl
    | some v =>
      rcases hversion with h | ⟨err, he, hl⟩
      · cases h
      · simp only at he
        subst he
        simp [noGoVersion, hl]
  have hrun : executeOpened w goFile contentFilePath
      [Call.GetContentPath, Call.Open contentFilePath] =
      (Except.error (PluginError.optOut "Not a go binary, no go version found."),
        [Call.GetContentPath, Call.Open contentFilePath, Call.GetCompilerVersion]) := by
    unfold executeOpened
    rw [hgate]
    rfl
  rw [Execute_opened w gi contentFilePath goFile hpath hopen, hrun]
  exact ⟨rfl, rfl⟩

/-- A binary without version marker as instance of C3. -/
theorem no_go_version_opts_out_witness :
    (Execute (envOpened sampleNonGoFile (Except.error ⟨"not a Go executable"⟩)) ⟨""⟩).2.1 =
        some (PluginError.optOut "Not a go binary, no go version found.") ∧
      emitted (Execute (envOpened sampleNonGoFile
        (Except.error ⟨"not a Go executable"⟩)) ⟨""⟩).2.2 = [] :=
  no_go_version_opts_out (envOpened sampleNonGoFile (Except.error ⟨"not a Go executable"⟩))
    ⟨""⟩ "/tmp/content" sampleNonGoFile rfl rfl (Or.inl rfl)

/-! ## Records of a successful invocation -/

/-- C8: in an invocation that opened the binary and ran to the final `return nil` (so the
version gate passed, every enumeration succeeded and the sink accepted every record), the
records named "go_build_id" are exactly one, whose value is the handle's build id; nothing
is assumed about the build id or about the outcome of reading the build settings. -/
theorem build_id_emitted_once (w : Env) (gi : GoInfoPlugin) (contentFilePath : String)
    (goFile : GoFile)
    (hpath : w.GetContentPath = Except.ok contentFilePath)
    (hopen : w.Open contentFilePath = OpenResult.returned (some goFile) none)
    (hnil : (Execute w gi).2.1 = none) :
    emittedNamed "go_build_id" (Execute w gi).2.2 =
      [⟨"go_build_id", goFile.BuildID, none⟩] := by
  have hc : (compilerFeatures goFile).filter (fun f => decide (f.name = "go_build_id")) =
      [⟨"go_build_id", goFile.BuildID, none⟩] := by
    unfold compilerFeatures
    rcases goFile.BuildInfo with _ | ⟨_ | compiler⟩ <;> rfl
  rw [emittedNamed_success "go_build_id" w gi contentFilePath goFile hpath hopen hnil, hc,
    filter_flagFeatures_other "go_build_id" (by decide),
    filter_packageFeatures_other "go_build_id" (by decide),
    filter_vendorFeatures_other "go_build_id" (by decide),
    filter_typeFeatures_other "go_build_id" (by decide)]
  rfl

/-- Instance of C8 with an empty build id and unreadable build settings. -/
theorem build_id_emitted_once_witness :
    (Execute (envOpened sampleStrippedFile (Except.error ⟨"not a Go executable"⟩)) ⟨""⟩).2.1
        = none ∧
      emittedNamed "go_build_id"
        (Execute (envOpened sampleStrippedFile
          (Except.error ⟨"not a Go executable"⟩)) ⟨""⟩).2.2 =
        [⟨"go_build_id", "", none⟩] :=
  ⟨by decide,
    build_id_emitted_once (envOpened sampleStrippedFile (Except.error ⟨"not a Go executable"⟩))
      ⟨""⟩ "/tmp/content" sampleStrippedFile rfl rfl (by decide)⟩

/-- C10: in an invocation that ran to the final `return nil`, the records named
"go_vendor_package" are the analyzer's vendor list mapped to its names, entry by entry and
in the same order, each made by `AddFeature` and so without label, offset or size. -/
theorem vendor_records_follow_vendor_list (w : Env) (gi : GoInfoPlugin)
    (contentFilePath : String) (goFile : GoFile)
    (hpath : w.GetContentPath = Except.ok contentFilePath)
    (hopen : w.Open contentFilePath = OpenResult.returned (some goFile) none)
    (hnil : (Execute w gi).2.1 = none) :
    emittedNamed "go_vendor_package" (Execute w gi).2.2 =
      goFile.GetVendors.1.map
        (fun vendorPackage => (⟨"go_vendor_package", vendorPackage.Name, none⟩ : Feature)) := by
  rw [emittedNamed_success "go_vendor_package" w gi contentFilePath goFile hpath hopen hnil,
    filter_flagFeatures_other "go_vendor_package" (by decide),
    filter_compilerFeatures_other "go_vendor_package" (by decide),
    filter_packageFeatures_other "go_vendor_package" (by decide),
    filter_typeFeatures_other "go_vendor_package" (by decide),
    filter_named_eq_self "go_vendor_package" _ (name_of_mem_vendorFeatures goFile.GetVendors.1)]
  simp only [List.nil_append, List.append_nil]
  rfl

/-- Instance of C10: the two vendor packages of the sample binary, in order. -/
theorem vendor_records_follow_vendor_list_witness :
    (Execute (envOpened sampleGoFile (Except.ok ⟨[⟨"GOOS", "windows"⟩]⟩)) ⟨""⟩).2.1 = none ∧
      emittedNamed "go_vendor_package"
        (Execute (envOpened sampleGoFile (Except.ok ⟨[⟨"GOOS", "windows"⟩]⟩)) ⟨""⟩).2.2 =
        [⟨"go_vendor_package", "github.com/acme/lib", none⟩,
         ⟨"go_vendor_package", "golang.org/x/sys", none⟩] :=
  ⟨by decide,
    vendor_records_follow_vendor_list
      (envOpened sampleGoFile (Except.ok ⟨[⟨"GOOS", "windows"⟩]⟩)) ⟨""⟩ "/tmp/content"
      sampleGoFile rfl rfl (by decide)⟩

/-- C4: in an invocation that ran to the final `return nil`, the records named "go_type"
are, in order, the records (value `Name`, label the kind's text, offset `Addr`, size
`uint64(Length)`) of exactly those type descriptors of the analyzer whose `PackagePath`
equals the value of some "go_package" record of the same invocation: each such descriptor
has its record and no other descriptor has one. -/
theorem go_type_iff_package_emitted (w : Env) (gi : GoInfoPlugin)
    (contentFilePath : String) (goFile : GoFile)
    (hpath : w.GetContentPath = Except.ok contentFilePath)
    (hopen : w.Open contentFilePath = OpenResult.returned (some goFile) none)
    (hnil : (Execute w gi).2.1 = none) :
    emittedNamed "go_type" (Execute w gi).2.2 =
      (goFile.GetTypes.1.filter (fun goType =>
          decide (goType.PackagePath ∈
            (emittedNamed "go_package" (Execute w gi).2.2).map Feature.value))).map
        (fun goType => (⟨"go_type", goType.Name,
          some ⟨goType.Kind.text, goType.Addr, uint64 goType.Length⟩⟩ : Feature)) := by
  have hvalues : (emittedNamed "go_package" (Execute w gi).2.2).map Feature.value =
      goFile.GetPackages.1.map Package.Name := by
    rw [emittedNamed_success_packages w gi contentFilePath goFile hpath hopen hnil,
      List.map_map]
    rfl
  rw [hvalues,
    emittedNamed_success "go_type" w gi contentFilePath goFile hpath hopen hnil,
    filter_flagFeatures_other "go_type" (by decide),
    filter_compilerFeatures_other "go_type" (by decide),
    filter_packageFeatures_other "go_type" (by decide),
    filter_vendorFeatures_other "go_type" (by decide),
    filter_go_type_typeFeatures]
  simp only [List.nil_append, List.append_nil]
  rfl

/-- Instance of C4: of the two types of the sample binary only the one of package "main"
has a record. -/
theorem go_type_iff_package_emitted_witness :
    (Execute (envOpened sampleGoFile (Except.ok ⟨[⟨"GOOS", "windows"⟩]⟩)) ⟨""⟩).2.1 = none ∧
      emittedNamed "go_type"
        (Execute (envOpened sampleGoFile (Except.ok ⟨[⟨"GOOS", "windows"⟩]⟩)) ⟨""⟩).2.2 =
        [⟨"go_type", "main.Loader", some ⟨"struct", 4700000, 24⟩⟩] :=
  ⟨by decide,
    (go_type_iff_package_emitted
      (envOpened sampleGoFile (Except.ok ⟨[⟨"GOOS", "windows"⟩]⟩)) ⟨""⟩ "/tmp/content"
      sampleGoFile rfl rfl (by decide)).trans (by decide)⟩

/-- C9: in an invocation that ran to the final `return nil`, for every package `pkg` of the
analyzer's list a "go_package" record with value `pkg.Name` is emitted; a "go_file" record
with value `pkg.Filepath` is emitted if and only if `pkg.Filepath` is not "."; every function
of `pkg` has its "go_package_function" record with value its name, label its own
`PackageName`, offset its `Offset` and size `End - Offset` (in `uint64`); and every method
of `pkg` has the like "go_package_method" record. -/
theorem package_records_emitted (w : Env) (gi : GoInfoPlugin) (contentFilePath : String)
    (goFile : GoFile)
    (hpath : w.GetContentPath = Except.ok contentFilePath)
    (hopen : w.Open contentFilePath = OpenResult.returned (some goFile) none)
    (hnil : (Execute w gi).2.1 = none)
    (pkg : Package) (hpkg : pkg ∈ goFile.GetPackages.1) :
    (⟨"go_package", pkg.Name, none⟩ : Feature) ∈ emitted (Execute w gi).2.2 ∧
      ((⟨"go_file", pkg.Filepath, none⟩ : Feature) ∈ emitted (Execute w gi).2.2 ↔
        pkg.Filepath ≠ ".") ∧
      (∀ pkgFunc ∈ pkg.Functions,
        (⟨"go_package_function", pkgFunc.Name,
          some ⟨pkgFunc.PackageName, pkgFunc.Offset, sub64 pkgFunc.End pkgFunc.Offset⟩⟩ :
            Feature) ∈ emitted (Execute w gi).2.2) ∧
      (∀ pkgMethods ∈ pkg.Methods,
        (⟨"go_package_method", pkgMethods.Name,
          some ⟨pkgMethods.PackageName, pkgMethods.Offset,
            sub64 pkgMethods.End pkgMethods.Offset⟩⟩ : Feature) ∈
          emitted (Execute w gi).2.2) := by
  rw [(Execute_success w gi contentFilePath goFile hpath hopen hnil).1, emitted_successTrace]
  have hsub := packageFeatures_subset_successFeatures w contentFilePath goFile pkg hpkg
  refine ⟨?_, ⟨?_, ?_⟩, ?_, ?_⟩
  · apply hsub
    simp [packageFeatures, packageFeature]
  · intro hmem hdot
    rw [hdot] at hmem
    exact go_file_dot_not_mem_successFeatures w contentFilePath goFile hmem
  · intro hdot
    apply hsub
    simp [packageFeatures, fileFeature, hdot]
  · intro pkgFunc hmem
    apply hsub
    simp only [packageFeatures, List.mem_cons, List.mem_append, List.mem_map]
    exact Or.inr (Or.inr (Or.inl ⟨pkgFunc, hmem, rfl⟩))
  · intro pkgMethods hmem
    apply hsub
    simp only [packageFeatures, List.mem_cons, List.mem_append, List.mem_map]
    exact Or.inr (Or.inr (Or.inr ⟨pkgMethods, hmem, rfl⟩))

/-- Instance of C9: package "main" of the sample binary, whose file path is not ".". -/
theorem package_records_emitted_witness :
    (Execute (envOpened sampleGoFile (Except.ok ⟨[⟨"GOOS", "windows"⟩]⟩)) ⟨""⟩).2.1 = none ∧
      (⟨"go_file", "D:/src/xor", none⟩ : Feature) ∈
        emitted (Execute (envOpened sampleGoFile
          (Except.ok ⟨[⟨"GOOS", "windows"⟩]⟩)) ⟨""⟩).2.2 ∧
      (⟨"go_package_function", "init", some ⟨"main", 4639616, 342⟩⟩ : Feature) ∈
        emitted (Execute (envOpened sampleGoFile
          (Except.ok ⟨[⟨"GOOS", "windows"⟩]⟩)) ⟨""⟩).2.2 :=
  have h := package_records_emitted
    (envOpened sampleGoFile (Except.ok ⟨[⟨"GOOS", "windows"⟩]⟩)) ⟨""⟩ "/tmp/content"
    sampleGoFile rfl rfl (by decide)
    ⟨"main", "D:/src/xor",
      [⟨"init", 4639616, 4639958, "main"⟩, ⟨"main", 4638816, 4639616, "main"⟩],
      [⟨"Loader", "Run", 4640000, 4640100, "main"⟩]⟩ (by decide)
  ⟨by decide, h.2.1.2 (by decide),
    h.2.2.1 ⟨"init", 4639616, 4639958, "main"⟩ (by decide)⟩

/-! ## Every way a run can end -/

theorem emitAll_cases (w : Env) (fs : List Feature) (tr : List Call) :
    emitAll w fs tr = (Except.ok (), tr ++ fs.map Call.AddFeature) ∨
      ∃ e p f, Rejected w tr fs e p f ∧
        emitAll w fs tr = (Except.error e, tr ++ (p ++ [f]).map Call.AddFeature) := by
  induction fs generalizing tr with
  | nil => exact Or.inl (by simp [emitAll, Step.done])
  | cons g rest ih =>
    cases hs : w.sink tr g with
    | some e =>
      refine Or.inr ⟨e, [], g, ⟨?_, ?_⟩, ?_⟩
      · exact ⟨rest, rfl⟩
      · simpa using hs
      · simp [emitAll, andThen_apply, emit, hs]
    | none =>
      rcases ih (tr ++ [Call.AddFeature g]) with h | ⟨e, p, f, ⟨hp, hsink⟩, h⟩
      · refine Or.inl ?_
        simp [emitAll, andThen_apply, emit, hs, h]
      · refine Or.inr ⟨e, g :: p, f, ⟨?_, ?_⟩, ?_⟩
        · obtain ⟨t, ht⟩ := hp
          exact ⟨t, by simp [← ht]⟩
        · simpa using hsink
        · simp [emitAll, andThen_apply, emit, hs, h]

theorem query_andThen_some {α β : Type} (c : Call) (r : α × Option GoError)
    (title message : String) (f : α → Step β) (tr : List Call) (err : GoError)
    (h : r.2 = some err) :
    (query c r title message).andThen f tr =
      (Except.error (PluginError.error ErrorKind.ErrorException title message (some err)),
        tr ++ [c]) := by
  simp [andThen_apply, query, h, NewPluginError, PluginError.WithCausalError]

theorem query_andThen_none {α β : Type} (c : Call) (r : α × Option GoError)
    (title message : String) (f : α → Step β) (tr : List Call) (h : r.2 = none) :
    (query c r title message).andThen f tr = f r.1 (tr ++ [c]) := by
  simp [andThen_apply, query, h]

/-- The processing of an opened binary as the version gate, the two record blocks and the
three stages. -/
theorem executeOpened_eq (w : Env) (goFile : GoFile) (contentFilePath : String) :
    executeOpened w goFile contentFilePath =
      (record Call.GetCompilerVersion).andThen fun _ =>
      if noGoVersion w goFile.GetCompilerVersion then
        Step.fail (NewPluginOptOut "Not a go binary, no go version found.")
      else
        (record (Call.ReadFile contentFilePath)).andThen fun _ =>
        (emitAll w (headFeatures w contentFilePath goFile)).andThen fun _ =>
        packagesStage w goFile := by
  unfold executeOpened packagesStage vendorsStage typesStage headFeatures
  simp only [buildSettings_eq, compilerInfo_eq, packagesLoop_eq, vendorsLoop_eq, typesLoop_eq,
    andThen_assoc, done_andThen, emitAll_append, List.nil_append]

theorem typesStage_run (w : Env) (goFile : GoFile) (contentFilePath : String)
    (tr : List Call)
    (hgate : noGoVersion w goFile.GetCompilerVersion = false)
    (hpackages : goFile.GetPackages.2 = none) (hvendors : goFile.GetVendors.2 = none) :
    OpenedRun w goFile contentFilePath tr
      (typesStage w goFile (goFile.GetPackages.1.map Package.Name)
        (tr ++ uptoVendors w contentFilePath goFile
          ++ (vendorStageFeatures goFile).map Call.AddFeature)) := by
  unfold typesStage
  cases htypes : goFile.GetTypes.2 with
  | some err =>
    rw [query_andThen_some _ _ _ _ _ _ err htypes]
    have h := @OpenedRun.typesFailed w goFile contentFilePath tr err hgate
      hpackages hvendors htypes
    simpa [uptoTypes, List.append_assoc] using h
  | none =>
    rw [query_andThen_none _ _ _ _ _ _ htypes]
    have htr : tr ++ uptoVendors w contentFilePath goFile
        ++ (vendorStageFeatures goFile).map Call.AddFeature ++ [Call.GetTypes] =
        tr ++ uptoTypes w contentFilePath goFile := by
      simp [uptoTypes, List.append_assoc]
    rw [htr]
    rcases emitAll_cases w (typeStageFeatures goFile)
        (tr ++ uptoTypes w contentFilePath goFile) with h | ⟨e, p, f, hrej, h⟩
    · unfold typeStageFeatures at h
      rw [h]
      exact OpenedRun.finished hgate hpackages hvendors htypes
    · have h2 := h
      unfold typeStageFeatures at h2
      rw [h2]
      exact OpenedRun.typesRejected e p f hgate hpackages hvendors htypes hrej

theorem vendorsStage_run (w : Env) (goFile : GoFile) (contentFilePath : String)
    (tr : List Call)
    (hgate : noGoVersion w goFile.GetCompilerVersion = false)
    (hpackages : goFile.GetPackages.2 = none) :
    OpenedRun w goFile contentFilePath tr
      (vendorsStage w goFile (goFile.GetPackages.1.map Package.Name)
        (tr ++ uptoPackages w contentFilePath goFile
          ++ (packageStageFeatures goFile).map Call.AddFeature)) := by
  unfold vendorsStage
  cases hvendors : goFile.GetVendors.2 with
  | some err =>
    rw [query_andThen_some _ _ _ _ _ _ err hvendors]
    have h := @OpenedRun.vendorsFailed w goFile contentFilePath tr err hgate
      hpackages hvendors
    simpa [uptoVendors, List.append_assoc] using h
  | none =>
    rw [query_andThen_none _ _ _ _ _ _ hvendors]
    have htr : tr ++ uptoPackages w contentFilePath goFile
        ++ (packageStageFeatures goFile).map Call.AddFeature ++ [Call.GetVendors] =
        tr ++ uptoVendors w contentFilePath goFile := by
      simp [uptoVendors, List.append_assoc]
    rw [htr, andThen_apply]
    rcases emitAll_cases w (vendorStageFeatures goFile)
        (tr ++ uptoVendors w contentFilePath goFile) with h | ⟨e, p, f, hrej, h⟩
    · unfold vendorStageFeatures at h
      rw [h]
      exact typesStage_run w goFile contentFilePath tr hgate hpackages hvendors
    · have h2 := h
      unfold vendorStageFeatures at h2
      rw [h2]
      exact OpenedRun.vendorsRejected e p f hgate hpackages hvendors hrej

theorem packagesStage_run (w : Env) (goFile : GoFile) (contentFilePath : String)
    (tr : List Call)
    (hgate : noGoVersion w goFile.GetCompilerVersion = false) :
    OpenedRun w goFile contentFilePath tr
      (packagesStage w goFile
        (tr ++ [Call.GetCompilerVersion, Call.ReadFile contentFilePath]
          ++ (headFeatures w contentFilePath goFile).map Call.AddFeature)) := by
  unfold packagesStage
  cases hpackages : goFile.GetPackages.2 with
  | some err =>
    rw [query_andThen_some _ _ _ _ _ _ err hpackages]
    have h := @OpenedRun.packagesFailed w goFile contentFilePath tr err
      hgate hpackages
    simpa [uptoPackages, List.append_assoc] using h
  | none =>
    rw [query_andThen_none _ _ _ _ _ _ hpackages]
    have htr : tr ++ [Call.GetCompilerVersion, Call.ReadFile contentFilePath]
        ++ (headFeatures w contentFilePath goFile).map Call.AddFeature ++ [Call.GetPackages] =
        tr ++ uptoPackages w contentFilePath goFile := by
      simp [uptoPackages, List.append_assoc]
    rw [htr, andThen_apply]
    rcases emitAll_cases w (packageStageFeatures goFile)
        (tr ++ uptoPackages w contentFilePath goFile) with h | ⟨e, p, f, hrej, h⟩
    · unfold packageStageFeatures at h
      rw [h]
      exact vendorsStage_run w goFile contentFilePath tr hgate hpackages
    · have h2 := h
      unfold packageStageFeatures at h2
      rw [h2]
      exact OpenedRun.packagesRejected e p f hgate hpackages hrej

/-- The processing of an opened binary ends in one of the nine ways of `OpenedRun`. -/
theorem executeOpened_run (w : Env) (goFile : GoFile) (contentFilePath : String)
    (tr : List Call) :
    OpenedRun w goFile contentFilePath tr (executeOpened w goFile contentFilePath tr) := by
  rw [executeOpened_eq]
  cases hgate : noGoVersion w goFile.GetCompilerVersion with
  | true =>
    have h : ((record Call.GetCompilerVersion).andThen fun _ =>
        if true = true then
          (Step.fail (NewPluginOptOut "Not a go binary, no go version found.") : Step Unit)
        else
          (record (Call.ReadFile contentFilePath)).andThen fun _ =>
          (emitAll w (headFeatures w contentFilePath goFile)).andThen fun _ =>
          packagesStage w goFile) tr =
        (Except.error (PluginError.optOut "Not a go binary, no go version found."),
          tr ++ [Call.GetCompilerVersion]) := rfl
    rw [h]
    exact OpenedRun.noVersion hgate
  | false =>
    have h : ((record Call.GetCompilerVersion).andThen fun _ =>
        if false = true then
          (Step.fail (NewPluginOptOut "Not a go binary, no go version found.") : Step Unit)
        else
          (record (Call.ReadFile contentFilePath)).andThen fun _ =>
          (emitAll w (headFeatures w contentFilePath goFile)).andThen fun _ =>
          packagesStage w goFile) tr =
        ((emitAll w (headFeatures w contentFilePath goFile)).andThen fun _ =>
          packagesStage w goFile)
          (tr ++ [Call.GetCompilerVersion, Call.ReadFile contentFilePath]) := by
      simp [andThen_apply, record]
    rw [h, andThen_apply]
    rcases emitAll_cases w (headFeatures w contentFilePath goFile)
        (tr ++ [Call.GetCompilerVersion, Call.ReadFile contentFilePath])
      with h1 | ⟨e, p, f, hrej, h1⟩
    · rw [h1]
      exact packagesStage_run w goFile contentFilePath tr hgate
    · rw [h1]
      exact OpenedRun.headRejected e p f hgate hrej

/-- The run of `Execute` on an opened binary, as one of the nine ways of `OpenedRun`: the
outcome and the trace before `Close`. -/
theorem Execute_run (w : Env) (gi : GoInfoPlugin) (contentFilePath : String)
    (goFile : GoFile)
    (hpath : w.GetContentPath = Except.ok contentFilePath)
    (hopen : w.Open contentFilePath = OpenResult.returned (some goFile) none) :
    ∃ r tr, OpenedRun w goFile contentFilePath
        [Call.GetContentPath, Call.Open contentFilePath] (r, tr) ∧
      Execute w gi = (handleGorePanic gi none, outcomeOf r, tr ++ [Call.Close]) := by
  refine ⟨(executeOpened w goFile contentFilePath
      [Call.GetContentPath, Call.Open contentFilePath]).1,
    (executeOpened w goFile contentFilePath
      [Call.GetContentPath, Call.Open contentFilePath]).2, ?_, ?_⟩
  · exact executeOpened_run w goFile contentFilePath _
  · exact Execute_opened w gi contentFilePath goFile hpath hopen

/-! ## What every run of an opened binary has in common -/

theorem emitted_uptoPackages (w : Env) (contentFilePath : String) (goFile : GoFile) :
    emitted (uptoPackages w contentFilePath goFile) = headFeatures w contentFilePath goFile := by
  have h0 : emitted [Call.GetCompilerVersion, Call.ReadFile contentFilePath] = [] := rfl
  have h1 : emitted [Call.GetPackages] = [] := rfl
  simp only [uptoPackages, emitted_append, emitted_map, h0, h1, List.nil_append,
    List.append_nil]

theorem emitted_afterPackages (goFile : GoFile) :
    emitted (afterPackages goFile) =
      packageStageFeatures goFile ++ vendorStageFeatures goFile ++ typeStageFeatures goFile := by
  have h1 : emitted [Call.GetVendors] = [] := rfl
  have h2 : emitted [Call.GetTypes] = [] := rfl
  simp only [afterPackages, emitted_append, emitted_map, h1, h2, List.append_nil]

theorem emitted_openedPlan (w : Env) (contentFilePath : String) (goFile : GoFile) :
    emitted (openedPlan w contentFilePath goFile) = successFeatures w contentFilePath goFile := by
  simp only [openedPlan, emitted_append, emitted_uptoPackages, emitted_afterPackages,
    headFeatures, packageStageFeatures, vendorStageFeatures, typeStageFeatures,
    successFeatures, List.append_assoc]

theorem emitted_initial (p q : List Call) (h : p <+: q) : emitted p <+: emitted q := by
  obtain ⟨t, rfl⟩ := h
  rw [emitted_append]
  exact List.prefix_append _ _

/-- Past the version gate a run either stops at a rejected record of the first two blocks,
or makes the package query and then follows the plan of the three stages for a while. -/
theorem OpenedRun.stages {w : Env} {goFile : GoFile} {contentFilePath : String}
    {tr0 : List Call} {r : Except PluginError Unit} {tr : List Call}
    (hrun : OpenedRun w goFile contentFilePath tr0 (r, tr)) :
    (noGoVersion w goFile.GetCompilerVersion = true ∧
        r = Except.error (PluginError.optOut "Not a go binary, no go version found.") ∧
        tr = tr0 ++ [Call.GetCompilerVersion]) ∨
      (noGoVersion w goFile.GetCompilerVersion = false ∧ ∃ e p f,
        Rejected w (tr0 ++ [Call.GetCompilerVersion, Call.ReadFile contentFilePath])
          (headFeatures w contentFilePath goFile) e p f ∧ r = Except.error e ∧
        tr = tr0 ++ [Call.GetCompilerVersion, Call.ReadFile contentFilePath]
          ++ (p ++ [f]).map Call.AddFeature) ∨
      (noGoVersion w goFile.GetCompilerVersion = false ∧ ∃ rest,
        rest <+: afterPackages goFile ∧
        tr = tr0 ++ uptoPackages w contentFilePath goFile ++ rest) := by
  cases hrun with
  | noVersion hgate => exact Or.inl ⟨hgate, rfl, rfl⟩
  | headRejected e p f hgate hrej => exact Or.inr (Or.inl ⟨hgate, e, p, f, hrej, rfl, rfl⟩)
  | packagesFailed err hgate herr =>
    exact Or.inr (Or.inr ⟨hgate, [], List.nil_prefix, by simp⟩)
  | packagesRejected e p f hgate hpackages hrej =>
    obtain ⟨t, ht⟩ := hrej.1
    refine Or.inr (Or.inr ⟨hgate, (p ++ [f]).map Call.AddFeature, ?_, rfl⟩)
    refine ⟨t.map Call.AddFeature ++ [Call.GetVendors]
      ++ (vendorStageFeatures goFile).map Call.AddFeature ++ [Call.GetTypes]
      ++ (typeStageFeatures goFile).map Call.AddFeature, ?_⟩
    simp only [afterPackages, ← ht, List.map_append, List.append_assoc]
  | vendorsFailed err hgate hpackages herr =>
    refine Or.inr (Or.inr ⟨hgate,
      (packageStageFeatures goFile).map Call.AddFeature ++ [Call.GetVendors], ?_, ?_⟩)
    · exact ⟨(vendorStageFeatures goFile).map Call.AddFeature ++ [Call.GetTypes]
        ++ (typeStageFeatures goFile).map Call.AddFeature,
        by simp only [afterPackages, List.append_assoc]⟩
    · simp only [uptoVendors, List.append_assoc]
  | vendorsRejected e p f hgate hpackages hvendors hrej =>
    obtain ⟨t, ht⟩ := hrej.1
    refine Or.inr (Or.inr ⟨hgate,
      (packageStageFeatures goFile).map Call.AddFeature ++ [Call.GetVendors]
        ++ (p ++ [f]).map Call.AddFeature, ?_, ?_⟩)
    · exact ⟨t.map Call.AddFeature ++ [Call.GetTypes]
        ++ (typeStageFeatures goFile).map Call.AddFeature,
        by simp only [afterPackages, ← ht, List.map_append, List.append_assoc]⟩
    · simp only [uptoVendors, List.append_assoc]
  | typesFailed err hgate hpackages hvendors herr =>
    refine Or.inr (Or.inr ⟨hgate,
      (packageStageFeatures goFile).map Call.AddFeature ++ [Call.GetVendors]
        ++ (vendorStageFeatures goFile).map Call.AddFeature ++ [Call.GetTypes], ?_, ?_⟩)
    · exact ⟨(typeStageFeatures goFile).map Call.AddFeature,
        by simp only [afterPackages, List.append_assoc]⟩
    · simp only [uptoTypes, uptoVendors, List.append_assoc]
  | typesRejected e p f hgate hpackages hvendors htypes hrej =>
    obtain ⟨t, ht⟩ := hrej.1
    refine Or.inr (Or.inr ⟨hgate,
      (packageStageFeatures goFile).map Call.AddFeature ++ [Call.GetVendors]
        ++ (vendorStageFeatures goFile).map Call.AddFeature ++ [Call.GetTypes]
        ++ (p ++ [f]).map Call.AddFeature, ?_, ?_⟩)
    · exact ⟨t.map Call.AddFeature,
        by simp only [afterPackages, ← ht, List.map_append, List.append_assoc]⟩
    · simp only [uptoTypes, uptoVendors, List.append_assoc]
  | finished hgate hpackages hvendors htypes =>
    refine Or.inr (Or.inr ⟨hgate, afterPackages goFile, List.prefix_refl _, ?_⟩)
    simp only [afterPackages, uptoTypes, uptoVendors, List.append_assoc]

/-- The calls of a run between `Open` and `Close` are an initial part of `openedPlan`. -/
theorem OpenedRun.within_plan {w : Env} {goFile : GoFile} {contentFilePath : String}
    {tr0 : List Call} {r : Except PluginError Unit} {tr : List Call}
    (hrun : OpenedRun w goFile contentFilePath tr0 (r, tr)) :
    ∃ q, q <+: openedPlan w contentFilePath goFile ∧ tr = tr0 ++ q := by
  rcases hrun.stages with ⟨_, _, htr⟩ | ⟨_, e, p, f, hrej, _, htr⟩ | ⟨_, rest, hrest, htr⟩
  · refine ⟨[Call.GetCompilerVersion], ?_, htr⟩
    exact ⟨Call.ReadFile contentFilePath ::
      ((headFeatures w contentFilePath goFile).map Call.AddFeature ++ [Call.GetPackages]
        ++ afterPackages goFile), by simp [openedPlan, uptoPackages]⟩
  · obtain ⟨t, ht⟩ := hrej.1
    refine ⟨[Call.GetCompilerVersion, Call.ReadFile contentFilePath]
      ++ (p ++ [f]).map Call.AddFeature, ?_, by rw [htr, List.append_assoc]⟩
    exact ⟨t.map Call.AddFeature ++ [Call.GetPackages] ++ afterPackages goFile,
      by simp only [openedPlan, uptoPackages, ← ht, List.map_append, List.append_assoc]⟩
  · refine ⟨uptoPackages w contentFilePath goFile ++ rest, ?_, by rw [htr, List.append_assoc]⟩
    obtain ⟨t, ht⟩ := hrest
    exact ⟨t, by rw [openedPlan, ← ht, List.append_assoc]⟩

theorem close_not_mem_openedPlan (w : Env) (contentFilePath : String) (goFile : GoFile) :
    Call.Close ∉ openedPlan w contentFilePath goFile := by
  simp [openedPlan, uptoPackages, afterPackages]

theorem handleGorePanic_indep (gi gi2 : GoInfoPlugin) (goreRecover : Option PanicValue) :
    handleGorePanic gi goreRecover = handleGorePanic gi2 goreRecover := by
  cases goreRecover with
  | none => rfl
  | some value => cases value <;> rfl

theorem openGoreFile_indep (w : Env) (gi gi2 : GoInfoPlugin) (sourcePath : String) :
    openGoreFile w gi sourcePath = openGoreFile w gi2 sourcePath := by
  unfold openGoreFile
  cases w.Open sourcePath with
  | returned goFile err => simp only [handleGorePanic_indep gi gi2]
  | panicked value => simp only [handleGorePanic_indep gi gi2]

/-- Outcome and trace of `Execute` do not depend on the instance it is called on. -/
theorem Execute_indep (w : Env) (gi gi2 : GoInfoPlugin) :
    (Execute w gi).2 = (Execute w gi2).2 := by
  unfold Execute
  cases h : w.GetContentPath with
  | error pluginErr => rfl
  | ok contentFilePath =>
    simp only []
    rw [openGoreFile_indep w gi gi2]

/-! ## Closing the handle -/

/-- C15: whenever the open gives a handle and no error, the trace of `Execute` is some calls
without `Close` followed by one `Close`: the handle is closed exactly once, as the last call
before `Execute` returns and so after every record emission, whichever way the run ends. -/
theorem handle_closed_once (w : Env) (gi : GoInfoPlugin) (contentFilePath : String)
    (goFile : GoFile)
    (hpath : w.GetContentPath = Except.ok contentFilePath)
    (hopen : w.Open contentFilePath = OpenResult.returned (some goFile) none) :
    (Execute w gi).2.2.count Call.Close = 1 ∧
      ∃ body, (Execute w gi).2.2 = body ++ [Call.Close] ∧ Call.Close ∉ body ∧
        emitted body = emitted (Execute w gi).2.2 := by
  obtain ⟨r, tr, hrun, hE⟩ := Execute_run w gi contentFilePath goFile hpath hopen
  obtain ⟨q, hq, htr⟩ := hrun.within_plan
  have hbody : Call.Close ∉ tr := by
    rw [htr]
    intro hmem
    rcases List.mem_append.1 hmem with h | h
    · simp at h
    · exact close_not_mem_openedPlan w contentFilePath goFile (hq.subset h)
  rw [hE]
  refine ⟨?_, tr, rfl, hbody, ?_⟩
  · show (tr ++ [Call.Close]).count Call.Close = 1
    rw [List.count_append, List.count_eq_zero_of_not_mem hbody]
    rfl
  · show emitted tr = emitted (tr ++ [Call.Close])
    rw [emitted_append]
    exact (List.append_nil _).symm

/-- Instance of C15 on the exit through the version gate. -/
theorem handle_closed_once_witness :
    (Execute (envOpened sampleNonGoFile (Except.error ⟨"not a Go executable"⟩)) ⟨""⟩).2.2.count
        Call.Close = 1 ∧
      ∃ body, (Execute (envOpened sampleNonGoFile
          (Except.error ⟨"not a Go executable"⟩)) ⟨""⟩).2.2 = body ++ [Call.Close] ∧
        Call.Close ∉ body ∧
        emitted body = emitted (Execute (envOpened sampleNonGoFile
          (Except.error ⟨"not a Go executable"⟩)) ⟨""⟩).2.2 :=
  handle_closed_once (envOpened sampleNonGoFile (Except.error ⟨"not a Go executable"⟩)) ⟨""⟩
    "/tmp/content" sampleNonGoFile rfl rfl

/-! ## Opt-outs -/

/-- C16: in each of the three situations in which `Execute` opts out (an open error whose
lower-cased text contains "unsupported", the string panic "Unsupported architecture", a
handle for which the version gate finds no version) the outcome is an opt-out and no record
has been handed to the sink. -/
theorem opt_out_emits_nothing (w : Env) (gi : GoInfoPlugin) (contentFilePath : String)
    (hpath : w.GetContentPath = Except.ok contentFilePath)
    (hcause :
      (∃ goFile err, w.Open contentFilePath = OpenResult.returned goFile (some err) ∧
        strings_Contains (w.ToLower err.Error) "unsupported" = true) ∨
      w.Open contentFilePath = OpenResult.panicked (PanicValue.str "Unsupported architecture") ∨
      (∃ goFile, w.Open contentFilePath = OpenResult.returned (some goFile) none ∧
        noGoVersion w goFile.GetCompilerVersion = true)) :
    (∃ message, (Execute w gi).2.1 = some (PluginError.optOut message)) ∧
      emitted (Execute w gi).2.2 = [] := by
  rcases hcause with ⟨goFile, err, hopen, hunsupported⟩ | hopen | ⟨goFile, hopen, hgate⟩
  · rw [Execute_openError w gi contentFilePath goFile err hpath hopen, if_pos hunsupported]
    exact ⟨⟨_, rfl⟩, rfl⟩
  · have hq : openGoreFile w gi contentFilePath =
        ({ gi with panicError := "Unsupported architecture" }, none, none) := by
      unfold openGoreFile
      rw [hopen]
      rfl
    rw [Execute_noHandle w gi contentFilePath hpath (by rw [hq]), hq]
    simp only [if_true]
    exact ⟨⟨_, rfl⟩, rfl⟩
  · obtain ⟨r, tr, hrun, hE⟩ := Execute_run w gi contentFilePath goFile hpath hopen
    rw [hE]
    rcases hrun.stages with ⟨_, hr, htr⟩ | ⟨hg, _⟩ | ⟨hg, _⟩
    · subst hr htr
      exact ⟨⟨_, rfl⟩, rfl⟩
    · rw [hgate] at hg
      cases hg
    · rw [hgate] at hg
      cases hg

/-- Instance of C16 for the binary without version marker. -/
theorem opt_out_emits_nothing_witness :
    (∃ message, (Execute (envOpened sampleNonGoFile
        (Except.error ⟨"not a Go executable"⟩)) ⟨""⟩).2.1 =
        some (PluginError.optOut message)) ∧
      emitted (Execute (envOpened sampleNonGoFile
        (Except.error ⟨"not a Go executable"⟩)) ⟨""⟩).2.2 = [] :=
  opt_out_emits_nothing (envOpened sampleNonGoFile (Except.error ⟨"not a Go executable"⟩))
    ⟨""⟩ "/tmp/content" rfl (Or.inr (Or.inr ⟨sampleNonGoFile, rfl, rfl⟩))

/-! ## The instance field -/

/-- C18: outcome and trace of `Execute` are the same for every initial value of the
instance, so for every value of `panicError` left by an earlier invocation; in particular
a second invocation on the instance left by a first one, in the same surroundings, gives
again the same outcome and records, and what an invocation in other surroundings `w1` left
in the field does not change the outcome or the records of the next one. -/
theorem execute_independent_of_instance (w w1 : Env) (gi gi2 : GoInfoPlugin) :
    (Execute w gi).2 = (Execute w gi2).2 ∧
      (Execute w (Execute w gi).1).2 = (Execute w gi).2 ∧
      (Execute w (Execute w1 gi).1).2 = (Execute w gi).2 :=
  ⟨Execute_indep w gi gi2, Execute_indep w _ gi, Execute_indep w _ gi⟩

/-- C19: when `gore.Open` panics with a value that is not a string, whatever its text, the
message stored in `panicError` is "PyGore panic but the error couldn't be recovered." and
`Execute` returns the error of category Exception titled "Pygore Panic" (with that message
quoted), which is no opt-out. -/
theorem non_string_panic_is_fatal (w : Env) (gi : GoInfoPlugin) (contentFilePath : String)
    (text : String)
    (hpath : w.GetContentPath = Except.ok contentFilePath)
    (hopen : w.Open contentFilePath = OpenResult.panicked (PanicValue.nonString text)) :
    (Execute w gi).1.panicError = "PyGore panic but the error couldn't be recovered." ∧
      (Execute w gi).2.1 = some (PluginError.error ErrorKind.ErrorException "Pygore Panic"
        "Pygore paniced with a panic message: 'PyGore panic but the error couldn't be recovered.'"
        none) ∧
      ∀ message, (Execute w gi).2.1 ≠ some (PluginError.optOut message) := by
  have hq : openGoreFile w gi contentFilePath =
      ({ gi with panicError := "PyGore panic but the error couldn't be recovered." },
        none, none) := by
    unfold openGoreFile
    rw [hopen]
    rfl
  rw [Execute_noHandle w gi contentFilePath hpath (by rw [hq]), hq]
  have hne : ¬ ("PyGore panic but the error couldn't be recovered." =
      "Unsupported architecture") := by decide
  rw [if_neg hne]
  refine ⟨rfl, rfl, ?_⟩
  intro message h
  cases h

/-- Instance of C19: an error value whose text is "Unsupported architecture". -/
theorem non_string_panic_is_fatal_witness :
    (Execute (envPanic (PanicValue.nonString "Unsupported architecture")) ⟨""⟩).1.panicError
        = "PyGore panic but the error couldn't be recovered." ∧
      (Execute (envPanic (PanicValue.nonString "Unsupported architecture")) ⟨""⟩).2.1 =
        some (PluginError.error ErrorKind.ErrorException "Pygore Panic"
          "Pygore paniced with a panic message: 'PyGore panic but the error couldn't be recovered.'"
          none) ∧
      ∀ message, (Execute (envPanic (PanicValue.nonString "Unsupported architecture"))
        ⟨""⟩).2.1 ≠ some (PluginError.optOut message) :=
  non_string_panic_is_fatal (envPanic (PanicValue.nonString "Unsupported architecture")) ⟨""⟩
    "/tmp/content" "Unsupported architecture" rfl rfl

/-! ## Failing enumerations -/

/-- When the package query is made and fails, `Execute` returns the package error and the
run consists of the calls up to that query and `Close`. -/
theorem Execute_packages_failed (w : Env) (gi : GoInfoPlugin) (contentFilePath : String)
    (goFile : GoFile) (err : GoError)
    (hpath : w.GetContentPath = Except.ok contentFilePath)
    (hopen : w.Open contentFilePath = OpenResult.returned (some goFile) none)
    (hquery : Call.GetPackages ∈ (Execute w gi).2.2)
    (herr : goFile.GetPackages.2 = some err) :
    (Execute w gi).2 =
      (some (PluginError.error ErrorKind.ErrorException "Failed to get packages"
          "Failed to get the packages for the go binary." (some err)),
        [Call.GetContentPath, Call.Open contentFilePath]
          ++ uptoPackages w contentFilePath goFile ++ [Call.Close]) := by
  obtain ⟨r, tr, hrun, hE⟩ := Execute_run w gi contentFilePath goFile hpath hopen
  rw [hE] at hquery ⊢
  simp only at hquery
  cases hrun with
  | noVersion hgate => simp at hquery
  | headRejected e p f hgate hrej => simp at hquery
  | packagesFailed err2 hgate herr2 =>
    rw [herr] at herr2
    cases herr2
    rfl
  | packagesRejected e p f hgate hpackages hrej => rw [herr] at hpackages; cases hpackages
  | vendorsFailed err2 hgate hpackages herr2 => rw [herr] at hpackages; cases hpackages
  | vendorsRejected e p f hgate hpackages hvendors hrej =>
    rw [herr] at hpackages; cases hpackages
  | typesFailed err2 hgate hpackages hvendors herr2 => rw [herr] at hpackages; cases hpackages
  | typesRejected e p f hgate hpackages hvendors htypes hrej =>
    rw [herr] at hpackages; cases hpackages
  | finished hgate hpackages hvendors htypes => rw [herr] at hpackages; cases hpackages

/-- When the vendor query is made and fails, `Execute` returns the vendor error and the run
consists of the calls up to that query and `Close`. -/
theorem Execute_vendors_failed (w : Env) (gi : GoInfoPlugin) (contentFilePath : String)
    (goFile : GoFile) (err : GoError)
    (hpath : w.GetContentPath = Except.ok contentFilePath)
    (hopen : w.Open contentFilePath = OpenResult.returned (some goFile) none)
    (hquery : Call.GetVendors ∈ (Execute w gi).2.2)
    (herr : goFile.GetVendors.2 = some err) :
    (Execute w gi).2 =
      (some (PluginError.error ErrorKind.ErrorException "Failed to get vendor packages"
          "Failed to get the vendor packages for the go binary." (some err)),
        [Call.GetContentPath, Call.Open contentFilePath]
          ++ uptoVendors w contentFilePath goFile ++ [Call.Close]) := by
  obtain ⟨r, tr, hrun, hE⟩ := Execute_run w gi contentFilePath goFile hpath hopen
  rw [hE] at hquery ⊢
  simp only at hquery
  cases hrun with
  | noVersion hgate => simp at hquery
  | headRejected e p f hgate hrej => simp at hquery
  | packagesFailed err2 hgate herr2 => simp [uptoPackages] at hquery
  | packagesRejected e p f hgate hpackages hrej => simp [uptoPackages] at hquery
  | vendorsFailed err2 hgate hpackages herr2 =>
    rw [herr] at herr2
    cases herr2
    rfl
  | vendorsRejected e p f hgate hpackages hvendors hrej =>
    rw [herr] at hvendors; cases hvendors
  | typesFailed err2 hgate hpackages hvendors herr2 => rw [herr] at hvendors; cases hvendors
  | typesRejected e p f hgate hpackages hvendors htypes hrej =>
    rw [herr] at hvendors; cases hvendors
  | finished hgate hpackages hvendors htypes => rw [herr] at hvendors; cases hvendors

/-- When the type query is made and fails, `Execute` returns the type error and the run
consists of the calls up to that query and `Close`. -/
theorem Execute_types_failed (w : Env) (gi : GoInfoPlugin) (contentFilePath : String)
    (goFile : GoFile) (err : GoError)
    (hpath : w.GetContentPath = Except.ok contentFilePath)
    (hopen : w.Open contentFilePath = OpenResult.returned (some goFile) none)
    (hquery : Call.GetTypes ∈ (Execute w gi).2.2)
    (herr : goFile.GetTypes.2 = some err) :
    (Execute w gi).2 =
      (some (PluginError.error ErrorKind.ErrorException "Failed to get GoTypes"
          "Failed to get the GoTypes for the go binary." (some err)),
        [Call.GetContentPath, Call.Open contentFilePath]
          ++ uptoTypes w contentFilePath goFile ++ [Call.Close]) := by
  obtain ⟨r, tr, hrun, hE⟩ := Execute_run w gi contentFilePath goFile hpath hopen
  rw [hE] at hquery ⊢
  simp only at hquery
  cases hrun with
  | noVersion hgate => simp at hquery
  | headRejected e p f hgate hrej => simp at hquery
  | packagesFailed err2 hgate herr2 => simp [uptoPackages] at hquery
  | packagesRejected e p f hgate hpackages hrej => simp [uptoPackages] at hquery
  | vendorsFailed err2 hgate hpackages herr2 => simp [uptoVendors, uptoPackages] at hquery
  | vendorsRejected e p f hgate hpackages hvendors hrej =>
    simp [uptoVendors, uptoPackages] at hquery
  | typesFailed err2 hgate hpackages hvendors herr2 =>
    rw [herr] at herr2
    cases herr2
    rfl
  | typesRejected e p f hgate hpackages hvendors htypes hrej =>
    rw [herr] at htypes; cases htypes
  | finished hgate hpackages hvendors htypes => rw [herr] at htypes; cases htypes

theorem emitted_uptoVendors (w : Env) (contentFilePath : String) (goFile : GoFile) :
    emitted (uptoVendors w contentFilePath goFile) =
      headFeatures w contentFilePath goFile ++ packageStageFeatures goFile := by
  have h1 : emitted [Call.GetVendors] = [] := rfl
  simp only [uptoVendors, emitted_append, emitted_map, emitted_uptoPackages, h1,
    List.append_nil]

theorem emitted_uptoTypes (w : Env) (contentFilePath : String) (goFile : GoFile) :
    emitted (uptoTypes w contentFilePath goFile) =
      headFeatures w contentFilePath goFile ++ packageStageFeatures goFile
        ++ vendorStageFeatures goFile := by
  have h1 : emitted [Call.GetTypes] = [] := rfl
  simp only [uptoTypes, emitted_append, emitted_map, emitted_uptoVendors, h1,
    List.append_nil]

/-- Records of a trace that starts with the path and open calls and ends with `Close`. -/
theorem emitted_framed (contentFilePath : String) (tr : List Call) :
    emitted ([Call.GetContentPath, Call.Open contentFilePath] ++ tr ++ [Call.Close]) =
      emitted tr := by
  have h0 : emitted [Call.GetContentPath, Call.Open contentFilePath] = [] := rfl
  have h1 : emitted [Call.Close] = [] := rfl
  simp only [emitted_append, h0, h1, List.nil_append, List.append_nil]

theorem mem_compilerFeatures_build_id (goFile : GoFile) :
    (⟨"go_build_id", goFile.BuildID, none⟩ : Feature) ∈ compilerFeatures goFile := by
  unfold compilerFeatures
  exact List.mem_cons_self _ _

/-- Shape of `Execute` when `gore.Open` panics with anything but the string "Unsupported
architecture". -/
theorem Execute_other_panic (w : Env) (gi : GoInfoPlugin) (contentFilePath : String)
    (value : PanicValue)
    (hpath : w.GetContentPath = Except.ok contentFilePath)
    (hopen : w.Open contentFilePath = OpenResult.panicked value)
    (hvalue : value ≠ PanicValue.str "Unsupported architecture") :
    (Execute w gi).2 =
      (some (PluginError.error ErrorKind.ErrorException "Pygore Panic"
          ("Pygore paniced with a panic message: '"
            ++ (handleGorePanic gi (some value)).panicError ++ "'") none),
        [Call.GetContentPath, Call.Open contentFilePath]) := by
  have hq : openGoreFile w gi contentFilePath =
      (handleGorePanic gi (some value), none, none) := by
    unfold openGoreFile
    rw [hopen]
  have hne : (handleGorePanic gi (some value)).panicError ≠ "Unsupported architecture" := by
    cases value with
    | str m =>
      intro h
      apply hvalue
      have hm : m = "Unsupported architecture" := h
      rw [hm]
    | nonString text =>
      show ¬ ("PyGore panic but the error couldn't be recovered." = "Unsupported architecture")
      decide
  rw [Execute_noHandle w gi contentFilePath hpath (by rw [hq]), hq, if_neg hne]

/-- C14: when the package query, the vendor query or the type query is made and fails (a
query is only made past the version gate), `Execute` returns the error of category Exception
titled "Failed to get packages", "Failed to get vendor packages" or "Failed to get GoTypes"
respectively, with the query's error as causal error; the records emitted are exactly those
of the blocks and stages before the failing query, so none of that stage or a later one; and
the later queries are not in the trace. -/
theorem enumeration_failure_is_fatal (w : Env) (gi : GoInfoPlugin)
    (contentFilePath : String) (goFile : GoFile)
    (hpath : w.GetContentPath = Except.ok contentFilePath)
    (hopen : w.Open contentFilePath = OpenResult.returned (some goFile) none) :
    (∀ err, Call.GetPackages ∈ (Execute w gi).2.2 → goFile.GetPackages.2 = some err →
      (Execute w gi).2.1 = some (PluginError.error ErrorKind.ErrorException
          "Failed to get packages" "Failed to get the packages for the go binary." (some err)) ∧
        emitted (Execute w gi).2.2 =
          flagFeatures (w.ReadFile contentFilePath) ++ compilerFeatures goFile ∧
        Call.GetVendors ∉ (Execute w gi).2.2 ∧ Call.GetTypes ∉ (Execute w gi).2.2) ∧
    (∀ err, Call.GetVendors ∈ (Execute w gi).2.2 → goFile.GetVendors.2 = some err →
      (Execute w gi).2.1 = some (PluginError.error ErrorKind.ErrorException
          "Failed to get vendor packages"
          "Failed to get the vendor packages for the go binary." (some err)) ∧
        emitted (Execute w gi).2.2 =
          flagFeatures (w.ReadFile contentFilePath) ++ compilerFeatures goFile
            ++ goFile.GetPackages.1.flatMap packageFeatures ∧
        Call.GetTypes ∉ (Execute w gi).2.2) ∧
    (∀ err, Call.GetTypes ∈ (Execute w gi).2.2 → goFile.GetTypes.2 = some err →
      (Execute w gi).2.1 = some (PluginError.error ErrorKind.ErrorException
          "Failed to get GoTypes" "Failed to get the GoTypes for the go binary." (some err)) ∧
        emitted (Execute w gi).2.2 =
          flagFeatures (w.ReadFile contentFilePath) ++ compilerFeatures goFile
            ++ goFile.GetPackages.1.flatMap packageFeatures
            ++ goFile.GetVendors.1.map vendorFeature) := by
  refine ⟨?_, ?_, ?_⟩
  · intro err hquery herr
    rw [Execute_packages_failed w gi contentFilePath goFile err hpath hopen hquery herr]
    refine ⟨rfl, ?_, ?_, ?_⟩
    · show emitted ([Call.GetContentPath, Call.Open contentFilePath]
        ++ uptoPackages w contentFilePath goFile ++ [Call.Close]) = _
      rw [emitted_framed, emitted_uptoPackages]
      rfl
    · simp [uptoPackages]
    · simp [uptoPackages]
  · intro err hquery herr
    rw [Execute_vendors_failed w gi contentFilePath goFile err hpath hopen hquery herr]
    refine ⟨rfl, ?_, ?_⟩
    · show emitted ([Call.GetContentPath, Call.Open contentFilePath]
        ++ uptoVendors w contentFilePath goFile ++ [Call.Close]) = _
      rw [emitted_framed, emitted_uptoVendors]
      rfl
    · simp [uptoVendors, uptoPackages]
  · intro err hquery herr
    rw [Execute_types_failed w gi contentFilePath goFile err hpath hopen hquery herr]
    refine ⟨rfl, ?_⟩
    show emitted ([Call.GetContentPath, Call.Open contentFilePath]
      ++ uptoTypes w contentFilePath goFile ++ [Call.Close]) = _
    rw [emitted_framed, emitted_uptoTypes]
    rfl

/-- Instance of C14: the vendor enumeration of the sample binary fails after its package
records have been emitted. -/
theorem enumeration_failure_is_fatal_witness :
    Call.GetVendors ∈
        (Execute (envOpened sampleNoVendors (Except.error ⟨"not a Go executable"⟩)) ⟨""⟩).2.2 ∧
      (Execute (envOpened sampleNoVendors (Except.error ⟨"not a Go executable"⟩)) ⟨""⟩).2.1 =
        some (PluginError.error ErrorKind.ErrorException "Failed to get vendor packages"
          "Failed to get the vendor packages for the go binary."
          (some ⟨"no pclntab section found"⟩)) ∧
      Call.GetTypes ∉
        (Execute (envOpened sampleNoVendors (Except.error ⟨"not a Go executable"⟩)) ⟨""⟩).2.2 :=
  have h := (enumeration_failure_is_fatal
    (envOpened sampleNoVendors (Except.error ⟨"not a Go executable"⟩)) ⟨""⟩ "/tmp/content"
    sampleNoVendors rfl rfl).2.1 ⟨"no pclntab section found"⟩ (by decide) rfl
  ⟨by decide, h.1, h.2.2⟩

/-- Counterexample to C17: the package enumeration of the sample binary fails, the outcome
is the fatal error "Failed to get packages", and three records have been emitted before. -/
theorem fatal_error_after_records :
    (Execute (envOpened sampleNoPackages (Except.error ⟨"not a Go executable"⟩)) ⟨""⟩).2.1 =
        some (PluginError.error ErrorKind.ErrorException "Failed to get packages"
          "Failed to get the packages for the go binary."
          (some ⟨"no pclntab section found"⟩)) ∧
      emitted (Execute (envOpened sampleNoPackages
          (Except.error ⟨"not a Go executable"⟩)) ⟨""⟩).2.2 =
        [⟨"go_build_id", "THyJCsrrxDurShR", none⟩, ⟨"go_compiler_version", "go1.15", none⟩,
          ⟨"go_compiler_timestamp", "2020-08-11T19:01:57Z", none⟩] ∧
      emitted (Execute (envOpened sampleNoPackages
          (Except.error ⟨"not a Go executable"⟩)) ⟨""⟩).2.2 ≠ [] := by
  decide

/-- C17, amended: a fatal error from a failed open or from a panic other than the string
"Unsupported architecture" comes with no emitted record; a fatal error from a failed
package, vendor or type query comes with exactly the records of the blocks and stages
completed before that query, among them always "go_build_id", and with no record of the
failing stage or of a later one. -/
theorem fatal_error_records (w : Env) (gi : GoInfoPlugin) (contentFilePath : String)
    (hpath : w.GetContentPath = Except.ok contentFilePath) :
    (∀ goFile err, w.Open contentFilePath = OpenResult.returned goFile (some err) →
      strings_Contains (w.ToLower err.Error) "unsupported" = false →
      strings_Contains (w.ToLower err.Error) "fail to read string table length" = false →
      (Execute w gi).2.1 = some (PluginError.error ErrorKind.ErrorException
          "Could not be opened" "Pygore could not open the file" (some err)) ∧
        emitted (Execute w gi).2.2 = []) ∧
    (∀ value, w.Open contentFilePath = OpenResult.panicked value →
      value ≠ PanicValue.str "Unsupported architecture" →
      (∃ message, (Execute w gi).2.1 = some (PluginError.error ErrorKind.ErrorException
          "Pygore Panic" message none)) ∧
        emitted (Execute w gi).2.2 = []) ∧
    (∀ goFile err, w.Open contentFilePath = OpenResult.returned (some goFile) none →
      Call.GetPackages ∈ (Execute w gi).2.2 → goFile.GetPackages.2 = some err →
      (Execute w gi).2.1 = some (PluginError.error ErrorKind.ErrorException
          "Failed to get packages" "Failed to get the packages for the go binary." (some err)) ∧
        emitted (Execute w gi).2.2 =
          flagFeatures (w.ReadFile contentFilePath) ++ compilerFeatures goFile ∧
        (⟨"go_build_id", goFile.BuildID, none⟩ : Feature) ∈ emitted (Execute w gi).2.2) ∧
    (∀ goFile err, w.Open contentFilePath = OpenResult.returned (some goFile) none →
      Call.GetVendors ∈ (Execute w gi).2.2 → goFile.GetVendors.2 = some err →
      (Execute w gi).2.1 = some (PluginError.error ErrorKind.ErrorException
          "Failed to get vendor packages"
          "Failed to get the vendor packages for the go binary." (some err)) ∧
        emitted (Execute w gi).2.2 =
          flagFeatures (w.ReadFile contentFilePath) ++ compilerFeatures goFile
            ++ goFile.GetPackages.1.flatMap packageFeatures ∧
        (⟨"go_build_id", goFile.BuildID, none⟩ : Feature) ∈ emitted (Execute w gi).2.2) ∧
    (∀ goFile err, w.Open contentFilePath = OpenResult.returned (some goFile) none →
      Call.GetTypes ∈ (Execute w gi).2.2 → goFile.GetTypes.2 = some err →
      (Execute w gi).2.1 = some (PluginError.error ErrorKind.ErrorException
          "Failed to get GoTypes" "Failed to get the GoTypes for the go binary." (some err)) ∧
        emitted (Execute w gi).2.2 =
          flagFeatures (w.ReadFile contentFilePath) ++ compilerFeatures goFile
            ++ goFile.GetPackages.1.flatMap packageFeatures
            ++ goFile.GetVendors.1.map vendorFeature ∧
        (⟨"go_build_id", goFile.BuildID, none⟩ : Feature) ∈ emitted (Execute w gi).2.2) := by
  refine ⟨?_, ?_, ?_, ?_, ?_⟩
  · intro goFile err hopen hsupported hcorrupt
    rw [Execute_openError w gi contentFilePath goFile err hpath hopen, hsupported, hcorrupt,
      if_neg Bool.false_ne_true, if_neg Bool.false_ne_true]
    exact ⟨rfl, rfl⟩
  · intro value hopen hvalue
    rw [Execute_other_panic w gi contentFilePath value hpath hopen hvalue]
    exact ⟨⟨_, rfl⟩, rfl⟩
  · intro goFile err hopen hquery herr
    rw [Execute_packages_failed w gi contentFilePath goFile err hpath hopen hquery herr]
    have hrec : emitted ([Call.GetContentPath, Call.Open contentFilePath]
        ++ uptoPackages w contentFilePath goFile ++ [Call.Close]) =
        flagFeatures (w.ReadFile contentFilePath) ++ compilerFeatures goFile := by
      rw [emitted_framed, emitted_uptoPackages]
      rfl
    refine ⟨rfl, hrec, ?_⟩
    show _ ∈ emitted ([Call.GetContentPath, Call.Open contentFilePath]
        ++ uptoPackages w contentFilePath goFile ++ [Call.Close])
    rw [hrec]
    exact List.mem_append_right _ (mem_compilerFeatures_build_id goFile)
  · intro goFile err hopen hquery herr
    rw [Execute_vendors_failed w gi contentFilePath goFile err hpath hopen hquery herr]
    have hrec : emitted ([Call.GetContentPath, Call.Open contentFilePath]
        ++ uptoVendors w contentFilePath goFile ++ [Call.Close]) =
        flagFeatures (w.ReadFile contentFilePath) ++ compilerFeatures goFile
          ++ goFile.GetPackages.1.flatMap packageFeatures := by
      rw [emitted_framed, emitted_uptoVendors]
      rfl
    refine ⟨rfl, hrec, ?_⟩
    show _ ∈ emitted ([Call.GetContentPath, Call.Open contentFilePath]
        ++ uptoVendors w contentFilePath goFile ++ [Call.Close])
    rw [hrec]
    exact List.mem_append_left _
      (List.mem_append_right _ (mem_compilerFeatures_build_id goFile))
  · intro goFile err hopen hquery herr
    rw [Execute_types_failed w gi contentFilePath goFile err hpath hopen hquery herr]
    have hrec : emitted ([Call.GetContentPath, Call.Open contentFilePath]
        ++ uptoTypes w contentFilePath goFile ++ [Call.Close]) =
        flagFeatures (w.ReadFile contentFilePath) ++ compilerFeatures goFile
          ++ goFile.GetPackages.1.flatMap packageFeatures
          ++ goFile.GetVendors.1.map vendorFeature := by
      rw [emitted_framed, emitted_uptoTypes]
      rfl
    refine ⟨rfl, hrec, ?_⟩
    show _ ∈ emitted ([Call.GetContentPath, Call.Open contentFilePath]
        ++ uptoTypes w contentFilePath goFile ++ [Call.Close])
    rw [hrec]
    exact List.mem_append_left _ (List.mem_append_left _
      (List.mem_append_right _ (mem_compilerFeatures_build_id goFile)))

/-- Instance of the amended C17: the failing package enumeration of the sample binary comes
after the "go_build_id" record. -/
theorem fatal_error_records_witness :
    Call.GetPackages ∈
        (Execute (envOpened sampleNoPackages (Except.error ⟨"not a Go executable"⟩)) ⟨""⟩).2.2 ∧
      (Execute (envOpened sampleNoPackages (Except.error ⟨"not a Go executable"⟩)) ⟨""⟩).2.1 =
        some (PluginError.error ErrorKind.ErrorException "Failed to get packages"
          "Failed to get the packages for the go binary."
          (some ⟨"no pclntab section found"⟩)) ∧
      (⟨"go_build_id", "THyJCsrrxDurShR", none⟩ : Feature) ∈
        emitted (Execute (envOpened sampleNoPackages
          (Except.error ⟨"not a Go executable"⟩)) ⟨""⟩).2.2 :=
  have h := (fatal_error_records
    (envOpened sampleNoPackages (Except.error ⟨"not a Go executable"⟩)) ⟨""⟩ "/tmp/content"
    rfl).2.2.1 sampleNoPackages ⟨"no pclntab section found"⟩ rfl (by decide) rfl
  ⟨by decide, h.1, h.2.2⟩

/-! ## Records past the first two blocks -/

/-- Every record of the three stages carries one of the seven stage names. -/
theorem name_of_mem_afterPackages (goFile : GoFile) (rest : List Call)
    (hrest : rest <+: afterPackages goFile) (f : Feature) (hf : f ∈ emitted rest) :
    f.name ∈ ["go_package", "go_file", "go_package_function", "go_package_method",
      "go_vendor_package", "go_type", "go_type_method"] := by
  have hmem : f ∈ emitted (afterPackages goFile) := (emitted_initial _ _ hrest).subset hf
  rw [emitted_afterPackages] at hmem
  rcases List.mem_append.1 hmem with h | h
  · rcases List.mem_append.1 h with h | h
    · have := name_of_mem_packageFeatures _ f h
      revert this
      generalize f.name = n
      simp only [List.mem_cons, List.mem_singleton, List.not_mem_nil, or_false]
      tauto
    · have := name_of_mem_vendorFeatures _ f h
      simp [this]
  · have := name_of_mem_typeFeatures _ _ f h
    revert this
    generalize f.name = n
    simp only [List.mem_cons, List.mem_singleton, List.not_mem_nil, or_false]
    tauto

theorem filter_named_afterPackages (n : String)
    (hn : n ∉ ["go_package", "go_file", "go_package_function", "go_package_method",
      "go_vendor_package", "go_type", "go_type_method"])
    (goFile : GoFile) (rest : List Call) (hrest : rest <+: afterPackages goFile) :
    (emitted rest).filter (fun f => decide (f.name = n)) = [] :=
  filter_named_eq_nil n _ _ (name_of_mem_afterPackages goFile rest hrest) hn

/-- Of an initial part of `xs ++ ys` whose last element fails a test that all of `xs` pass
and none of `ys` passes, the elements passing the test are `xs`. -/
theorem filter_prefix_of_last {α : Type} (t : α → Bool) (xs ys q : List α) (a : α)
    (hxs : ∀ x ∈ xs, t x = true) (hys : ∀ y ∈ ys, t y = false)
    (hq : q ++ [a] <+: xs ++ ys) (ha : t a = false) :
    (q ++ [a]).filter t = xs := by
  rcases List.prefix_or_prefix_of_prefix hq (List.prefix_append xs ys) with h | h
  · have hmem : a ∈ xs := h.subset (by simp)
    rw [hxs a hmem] at ha
    cases ha
  · obtain ⟨b, hb⟩ := h
    rw [← hb] at hq ⊢
    have hbys : b <+: ys := (List.prefix_append_right_inj xs).1 hq
    rw [List.filter_append, List.filter_eq_self.2 hxs,
      List.filter_eq_nil_iff.2 (fun y hy => by simp [hys y (hbys.subset hy)]),
      List.append_nil]

/-- The records of a trace that runs the first two blocks and then part of the stages. -/
theorem emitted_staged (w : Env) (contentFilePath : String) (goFile : GoFile)
    (rest : List Call) :
    emitted ([Call.GetContentPath, Call.Open contentFilePath]
        ++ uptoPackages w contentFilePath goFile ++ rest ++ [Call.Close]) =
      flagFeatures (w.ReadFile contentFilePath) ++ compilerFeatures goFile ++ emitted rest := by
  have h0 : emitted [Call.GetContentPath, Call.Open contentFilePath] = [] := rfl
  have h1 : emitted [Call.Close] = [] := rfl
  simp only [emitted_append, h0, h1, emitted_uptoPackages, headFeatures, List.nil_append,
    List.append_nil]

theorem filter_flag_flagFeatures (r : Except GoError DebugBuildInfo) :
    (flagFeatures r).filter (fun f => decide (f.name = "go_compiler_flag")) = flagFeatures r :=
  filter_named_eq_self "go_compiler_flag" _ (name_of_mem_flagFeatures r)

/-- Two surroundings with the same sink hand records over in the same way. -/
theorem emitAll_congr (w w2 : Env) (hsink : w.sink = w2.sink) (fs : List Feature) :
    emitAll w fs = emitAll w2 fs := by
  induction fs with
  | nil => rfl
  | cons f rest ih =>
    simp only [emitAll, ih]
    unfold emit
    rw [hsink]

/-- The processing of an opened binary depends on its surroundings only through the
version gate, the records of the build settings and the sink. -/
theorem executeOpened_congr (w w2 : Env) (goFile : GoFile) (contentFilePath : String)
    (hgate : noGoVersion w goFile.GetCompilerVersion = noGoVersion w2 goFile.GetCompilerVersion)
    (hflags : flagFeatures (w.ReadFile contentFilePath) =
      flagFeatures (w2.ReadFile contentFilePath))
    (hsink : w.sink = w2.sink) :
    executeOpened w goFile contentFilePath = executeOpened w2 goFile contentFilePath := by
  rw [executeOpened_eq, executeOpened_eq, hgate]
  unfold headFeatures packagesStage vendorsStage typesStage
  rw [hflags]
  simp only [emitAll_congr w w2 hsink]

/-! ## Build settings -/

/-- Counterexample to C11: the version gate passes and reading the build settings gives two
settings, but the sink rejects "go_compiler_flag" records, `Execute` returns after the
first one, and the records named "go_compiler_flag" are not one per setting. -/
theorem flag_records_stop_at_rejection :
    noGoVersion (envRejecting sampleGoFile (Except.ok sampleSettings) "go_compiler_flag")
        sampleGoFile.GetCompilerVersion = false ∧
      (envRejecting sampleGoFile (Except.ok sampleSettings) "go_compiler_flag").ReadFile
        "/tmp/content" = Except.ok sampleSettings ∧
      (Execute (envRejecting sampleGoFile (Except.ok sampleSettings) "go_compiler_flag")
        ⟨""⟩).2.1 = some sinkError ∧
      emittedNamed "go_compiler_flag"
        (Execute (envRejecting sampleGoFile (Except.ok sampleSettings) "go_compiler_flag")
          ⟨""⟩).2.2 ≠
        sampleSettings.Settings.map
          (fun s => (⟨"go_compiler_flag", s.Value, some ⟨s.Key, 0, 0⟩⟩ : Feature)) :=
  ⟨by decide, rfl, by decide, by decide⟩

/-- C11, amended: past the version gate, if reading the build settings succeeds and the
sink accepts every "go_compiler_flag" record, the records named "go_compiler_flag" are one
per build setting, in order, with the setting's value as value and its key as label; if
reading the build settings fails, no "go_compiler_flag" record is emitted and `Execute`
gives exactly the result (outcome and trace) that it gives when the read succeeds with no
settings. -/
theorem compiler_flag_records (w : Env) (gi : GoInfoPlugin) (contentFilePath : String)
    (goFile : GoFile)
    (hpath : w.GetContentPath = Except.ok contentFilePath)
    (hopen : w.Open contentFilePath = OpenResult.returned (some goFile) none)
    (hgate : noGoVersion w goFile.GetCompilerVersion = false) :
    (∀ buildInfo, w.ReadFile contentFilePath = Except.ok buildInfo →
      (∀ tr f, f.name = "go_compiler_flag" → w.sink tr f = none) →
      emittedNamed "go_compiler_flag" (Execute w gi).2.2 =
        buildInfo.Settings.map
          (fun s => (⟨"go_compiler_flag", s.Value, some ⟨s.Key, 0, 0⟩⟩ : Feature))) ∧
    (∀ err, w.ReadFile contentFilePath = Except.error err →
      emittedNamed "go_compiler_flag" (Execute w gi).2.2 = [] ∧
      Execute w gi = Execute { w with ReadFile := fun _ => Except.ok ⟨[]⟩ } gi) := by
  obtain ⟨r, tr, hrun, hE⟩ := Execute_run w gi contentFilePath goFile hpath hopen
  have hshape : ∀ (rs : Except GoError DebugBuildInfo),
      w.ReadFile contentFilePath = rs →
      (∀ tr f, f ∈ flagFeatures rs → w.sink tr f = none) →
      emittedNamed "go_compiler_flag" (Execute w gi).2.2 = flagFeatures rs := by
    intro rs hrs haccept
    rw [hE]
    unfold emittedNamed
    rcases hrun.stages with ⟨hg, _⟩ | ⟨_, e, p, f, hrej, _, htr⟩ | ⟨_, rest, hrest, htr⟩
    · rw [hgate] at hg
      cases hg
    · subst htr
      have hrec : emitted ([Call.GetContentPath, Call.Open contentFilePath]
          ++ [Call.GetCompilerVersion, Call.ReadFile contentFilePath]
          ++ (p ++ [f]).map Call.AddFeature ++ [Call.Close]) = p ++ [f] := by
        have h0 : emitted ([Call.GetContentPath, Call.Open contentFilePath]
            ++ [Call.GetCompilerVersion, Call.ReadFile contentFilePath]) = [] := rfl
        have h1 : emitted [Call.Close] = [] := rfl
        simp only [emitted_append, emitted_map, h0, h1, List.nil_append, List.append_nil]
      show List.filter _ (emitted ([Call.GetContentPath, Call.Open contentFilePath]
          ++ [Call.GetCompilerVersion, Call.ReadFile contentFilePath]
          ++ (p ++ [f]).map Call.AddFeature ++ [Call.Close])) = _
      rw [hrec]
      have hinit := hrej.1
      unfold headFeatures at hinit
      rw [hrs] at hinit
      apply filter_prefix_of_last _ _ (compilerFeatures goFile) p f _ _ hinit
      · have hf : f ∉ flagFeatures rs := by
          intro hmem
          have hs := hrej.2
          rw [haccept _ f hmem] at hs
          cases hs
        have hmemf : f ∈ flagFeatures rs ++ compilerFeatures goFile :=
          hinit.subset (by simp)
        rcases List.mem_append.1 hmemf with h | h
        · exact absurd h hf
        · have := name_of_mem_compilerFeatures goFile f h
          revert this
          generalize f.name = n
          intro hn
          simp only [List.mem_cons, List.mem_singleton, List.not_mem_nil, or_false] at hn
          rcases hn with rfl | rfl | rfl <;> decide
      · intro x hx
        simp [name_of_mem_flagFeatures rs x hx]
      · intro y hy
        have := name_of_mem_compilerFeatures goFile y hy
        revert this
        generalize y.name = n
        intro hn
        simp only [List.mem_cons, List.mem_singleton, List.not_mem_nil, or_false] at hn
        rcases hn with rfl | rfl | rfl <;> decide
    · subst htr
      show List.filter _ (emitted ([Call.GetContentPath, Call.Open contentFilePath]
          ++ uptoPackages w contentFilePath goFile ++ rest ++ [Call.Close])) = _
      rw [emitted_staged, List.filter_append, List.filter_append, hrs,
        filter_flag_flagFeatures,
        filter_compilerFeatures_other "go_compiler_flag" (by decide),
        filter_named_afterPackages "go_compiler_flag" (by decide) goFile rest hrest]
      simp only [List.append_nil]
  refine ⟨?_, ?_⟩
  · intro buildInfo hread haccept
    have h := hshape (Except.ok buildInfo) hread
      (fun tr f hf => haccept tr f (name_of_mem_flagFeatures _ f hf))
    rw [h]
    rfl
  · intro err hread
    refine ⟨hshape (Except.error err) hread (fun tr f hf => by simp [flagFeatures] at hf), ?_⟩
    have hcongr : executeOpened w goFile contentFilePath =
        executeOpened { w with ReadFile := fun _ => Except.ok ⟨[]⟩ } goFile contentFilePath := by
      apply executeOpened_congr
      · rfl
      · show flagFeatures (w.ReadFile contentFilePath) = flagFeatures (Except.ok ⟨[]⟩)
        rw [hread]
        rfl
      · rfl
    rw [Execute_opened w gi contentFilePath goFile hpath hopen,
      Execute_opened { w with ReadFile := fun _ => Except.ok ⟨[]⟩ } gi contentFilePath goFile
        hpath hopen, hcongr]

/-- Instance of the amended C11: two settings, one with an empty value, and an accepting
sink. -/
theorem compiler_flag_records_witness :
    emittedNamed "go_compiler_flag"
        (Execute (envOpened sampleGoFile (Except.ok sampleSettings)) ⟨""⟩).2.2 =
      [⟨"go_compiler_flag", "windows", some ⟨"GOOS", 0, 0⟩⟩,
       ⟨"go_compiler_flag", "", some ⟨"CGO_CFLAGS", 0, 0⟩⟩] :=
  (compiler_flag_records (envOpened sampleGoFile (Except.ok sampleSettings)) ⟨""⟩
    "/tmp/content" sampleGoFile rfl rfl rfl).1 sampleSettings rfl (fun _ _ _ => rfl)

/-! ## Compiler identity -/

theorem compilerFeatures_present (goFile : GoFile) (buildInfo : GoreBuildInfo)
    (compiler : GoVersion) (hinfo : goFile.BuildInfo = some buildInfo)
    (hcompiler : buildInfo.Compiler = some compiler) :
    compilerFeatures goFile =
      [⟨"go_build_id", goFile.BuildID, none⟩, ⟨"go_compiler_version", compiler.Name, none⟩,
        ⟨"go_compiler_timestamp", compiler.Timestamp, none⟩] := by
  unfold compilerFeatures
  rw [hinfo]
  simp only []
  rw [hcompiler]

theorem compilerFeatures_absent (goFile : GoFile)
    (habsent : goFile.BuildInfo = none ∨
      ∃ buildInfo, goFile.BuildInfo = some buildInfo ∧ buildInfo.Compiler = none) :
    compilerFeatures goFile = [⟨"go_build_id", goFile.BuildID, none⟩] := by
  unfold compilerFeatures
  rcases habsent with h | ⟨buildInfo, h, hc⟩
  · rw [h]
  · rw [h]
    simp only []
    rw [hc]

/-- Past the version gate and with a sink that accepts everything, the run makes the
package query and then follows the plan of the three stages for a while. -/
theorem Execute_accepting_reaches_packages (w : Env) (gi : GoInfoPlugin)
    (contentFilePath : String) (goFile : GoFile)
    (hpath : w.GetContentPath = Except.ok contentFilePath)
    (hopen : w.Open contentFilePath = OpenResult.returned (some goFile) none)
    (hgate : noGoVersion w goFile.GetCompilerVersion = false)
    (hsink : ∀ tr f, w.sink tr f = none) :
    ∃ rest, rest <+: afterPackages goFile ∧
      (Execute w gi).2.2 = [Call.GetContentPath, Call.Open contentFilePath]
        ++ uptoPackages w contentFilePath goFile ++ rest ++ [Call.Close] := by
  obtain ⟨r, tr, hrun, hE⟩ := Execute_run w gi contentFilePath goFile hpath hopen
  rcases hrun.stages with ⟨hg, _⟩ | ⟨_, e, p, f, hrej, _, _⟩ | ⟨_, rest, hrest, htr⟩
  · rw [hgate] at hg
    cases hg
  · have hs := hrej.2
    rw [hsink] at hs
    cases hs
  · exact ⟨rest, hrest, by rw [hE, htr]⟩

/-- C12: past the version gate and with a sink that accepts everything, the run goes on to
the package query, and: if the handle's build info and its compiler are both present, the
records emitted are the flag records, then "go_build_id", "go_compiler_version" (the
compiler's name) and "go_compiler_timestamp" (its timestamp) next to each other in this
order, then the later records, and each of the two compiler names occurs once in the whole
run; if the build info or its compiler is absent, no record carries either name. -/
theorem compiler_records_follow_build_id (w : Env) (gi : GoInfoPlugin)
    (contentFilePath : String) (goFile : GoFile)
    (hpath : w.GetContentPath = Except.ok contentFilePath)
    (hopen : w.Open contentFilePath = OpenResult.returned (some goFile) none)
    (hgate : noGoVersion w goFile.GetCompilerVersion = false)
    (hsink : ∀ tr f, w.sink tr f = none) :
    Call.GetPackages ∈ (Execute w gi).2.2 ∧
    (∀ buildInfo compiler, goFile.BuildInfo = some buildInfo →
      buildInfo.Compiler = some compiler →
      (∃ later, emitted (Execute w gi).2.2 =
        flagFeatures (w.ReadFile contentFilePath)
          ++ [⟨"go_build_id", goFile.BuildID, none⟩,
              ⟨"go_compiler_version", compiler.Name, none⟩,
              ⟨"go_compiler_timestamp", compiler.Timestamp, none⟩]
          ++ later) ∧
      emittedNamed "go_compiler_version" (Execute w gi).2.2 =
        [⟨"go_compiler_version", compiler.Name, none⟩] ∧
      emittedNamed "go_compiler_timestamp" (Execute w gi).2.2 =
        [⟨"go_compiler_timestamp", compiler.Timestamp, none⟩]) ∧
    ((goFile.BuildInfo = none ∨
        ∃ buildInfo, goFile.BuildInfo = some buildInfo ∧ buildInfo.Compiler = none) →
      (∃ later, emitted (Execute w gi).2.2 =
        flagFeatures (w.ReadFile contentFilePath)
          ++ [⟨"go_build_id", goFile.BuildID, none⟩] ++ later) ∧
      emittedNamed "go_compiler_version" (Execute w gi).2.2 = [] ∧
      emittedNamed "go_compiler_timestamp" (Execute w gi).2.2 = []) := by
  obtain ⟨rest, hrest, htr⟩ :=
    Execute_accepting_reaches_packages w gi contentFilePath goFile hpath hopen hgate hsink
  have hrec : emitted (Execute w gi).2.2 =
      flagFeatures (w.ReadFile contentFilePath) ++ compilerFeatures goFile ++ emitted rest := by
    rw [htr, emitted_staged]
  have hnamed : ∀ n, n ∉ ["go_compiler_flag", "go_package", "go_file", "go_package_function",
      "go_package_method", "go_vendor_package", "go_type", "go_type_method"] →
      emittedNamed n (Execute w gi).2.2 =
        (compilerFeatures goFile).filter (fun f => decide (f.name = n)) := by
    intro n hn
    unfold emittedNamed
    rw [hrec, List.filter_append, List.filter_append,
      filter_flagFeatures_other n (fun h => hn (by
        simp only [List.mem_singleton] at h
        simp [h])),
      filter_named_afterPackages n (fun h => hn (List.mem_cons_of_mem _ h)) goFile rest hrest]
    simp only [List.nil_append, List.append_nil]
  refine ⟨?_, ?_, ?_⟩
  · rw [htr]
    simp [uptoPackages]
  · intro buildInfo compiler hinfo hcompiler
    have hcf := compilerFeatures_present goFile buildInfo compiler hinfo hcompiler
    refine ⟨⟨emitted rest, by rw [hrec, hcf]⟩, ?_, ?_⟩
    · rw [hnamed "go_compiler_version" (by decide), hcf]
      rfl
    · rw [hnamed "go_compiler_timestamp" (by decide), hcf]
      rfl
  · intro habsent
    have hcf := compilerFeatures_absent goFile habsent
    refine ⟨⟨emitted rest, by rw [hrec, hcf]⟩, ?_, ?_⟩
    · rw [hnamed "go_compiler_version" (by decide), hcf]
      rfl
    · rw [hnamed "go_compiler_timestamp" (by decide), hcf]
      rfl

/-- Instance of C12: the sample binary, whose compiler is go1.15. -/
theorem compiler_records_follow_build_id_witness :
    Call.GetPackages ∈
        (Execute (envOpened sampleGoFile (Except.ok sampleSettings)) ⟨""⟩).2.2 ∧
      emittedNamed "go_compiler_version"
        (Execute (envOpened sampleGoFile (Except.ok sampleSettings)) ⟨""⟩).2.2 =
        [⟨"go_compiler_version", "go1.15", none⟩] ∧
      emittedNamed "go_compiler_timestamp"
        (Execute (envOpened sampleGoFile (Except.ok sampleSettings)) ⟨""⟩).2.2 =
        [⟨"go_compiler_timestamp", "2020-08-11T19:01:57Z", none⟩] :=
  have h := compiler_records_follow_build_id
    (envOpened sampleGoFile (Except.ok sampleSettings)) ⟨""⟩ "/tmp/content" sampleGoFile
    rfl rfl rfl (fun _ _ => rfl)
  ⟨h.1, (h.2.1 ⟨some ⟨"go1.15", "", "2020-08-11T19:01:57Z"⟩⟩
    ⟨"go1.15", "", "2020-08-11T19:01:57Z"⟩ rfl rfl).2⟩

/-! ## Type methods -/

theorem filter_go_type_method_typeFeatures (goPackageSet : List String)
    (goTypes : List GoType) :
    (goTypes.flatMap (typeFeatures goPackageSet)).filter
        (fun f => decide (f.name = "go_type_method")) =
      (goTypes.filter (fun goType => decide (goType.PackagePath ∈ goPackageSet))).flatMap
        (fun goType => goType.Methods.map (typeMethodFeature goType)) := by
  induction goTypes with
  | nil => rfl
  | cons goType rest ih =>
    rw [List.flatMap_cons, List.filter_append, ih]
    unfold typeFeatures
    by_cases hp : goType.PackagePath ∈ goPackageSet
    · have hm : (goType.Methods.map (typeMethodFeature goType)).filter
          (fun f => decide (f.name = "go_type_method")) =
          goType.Methods.map (typeMethodFeature goType) := by
        apply filter_named_eq_self
        intro f hf
        simp only [List.mem_map] at hf
        obtain ⟨m, _, rfl⟩ := hf
        rfl
      rw [if_pos hp, List.filter_cons_of_neg (by simp [goTypeFeature]), hm,
        List.filter_cons_of_pos (by simp [hp]), List.flatMap_cons]
    · rw [if_neg hp, List.filter_cons_of_neg (by simp [hp])]
      rfl

/-- Counterexample to C13: type "main.Loader" of the sample binary lies in the user package
"main" and has the method "Run", but the sink rejects the "go_type" record and no
"go_type_method" record for "Run" is emitted. -/
theorem type_method_missing_after_rejection :
    (⟨"main.Loader", "main", ⟨"struct"⟩, 4700000, 24, [⟨"Run"⟩]⟩ : GoType) ∈
        sampleGoFile.GetTypes.1 ∧
      "main" ∈ sampleGoFile.GetPackages.1.map Package.Name ∧
      (Execute (envRejecting sampleGoFile (Except.ok sampleSettings) "go_type") ⟨""⟩).2.1 =
        some sinkError ∧
      (⟨"go_type_method", "Run", some ⟨"main.Loader", 0, 0⟩⟩ : Feature) ∉
        emitted (Execute (envRejecting sampleGoFile (Except.ok sampleSettings) "go_type")
          ⟨""⟩).2.2 := by
  decide

/-- C13, amended: in an invocation that runs to the final `return nil`, the records named
"go_type_method" are, in order, one per method of each type whose `PackagePath` is in the
user package set (the names of the analyzer's packages), with the method's name as value,
the type's name as label and offset and size left at zero; the methods of a skipped type
give no record. -/
theorem type_method_records (w : Env) (gi : GoInfoPlugin) (contentFilePath : String)
    (goFile : GoFile)
    (hpath : w.GetContentPath = Except.ok contentFilePath)
    (hopen : w.Open contentFilePath = OpenResult.returned (some goFile) none)
    (hnil : (Execute w gi).2.1 = none) :
    emittedNamed "go_type_method" (Execute w gi).2.2 =
      (goFile.GetTypes.1.filter (fun goType =>
          decide (goType.PackagePath ∈ goFile.GetPackages.1.map Package.Name))).flatMap
        (fun goType => goType.Methods.map (fun goTypeMethod =>
          (⟨"go_type_method", goTypeMethod.Name, some ⟨goType.Name, 0, 0⟩⟩ : Feature))) := by
  rw [emittedNamed_success "go_type_method" w gi contentFilePath goFile hpath hopen hnil,
    filter_flagFeatures_other "go_type_method" (by decide),
    filter_compilerFeatures_other "go_type_method" (by decide),
    filter_packageFeatures_other "go_type_method" (by decide),
    filter_vendorFeatures_other "go_type_method" (by decide),
    filter_go_type_method_typeFeatures]
  simp only [List.nil_append, List.append_nil]
  rfl

/-- Instance of the amended C13: of the two types of the sample binary only "main.Loader"
is retained, and its method "Run" gives the one record. -/
theorem type_method_records_witness :
    (Execute (envOpened sampleGoFile (Except.ok sampleSettings)) ⟨""⟩).2.1 = none ∧
      emittedNamed "go_type_method"
        (Execute (envOpened sampleGoFile (Except.ok sampleSettings)) ⟨""⟩).2.2 =
        [⟨"go_type_method", "Run", some ⟨"main.Loader", 0, 0⟩⟩] :=
  ⟨by decide,
    (type_method_records (envOpened sampleGoFile (Except.ok sampleSettings)) ⟨""⟩
      "/tmp/content" sampleGoFile rfl rfl (by decide)).trans (by decide)⟩

/-! ## No deduplication -/

theorem filter_function_packageFeatures (pkgs : List Package) :
    (pkgs.flatMap packageFeatures).filter
        (fun f => decide (f.name = "go_package_function")) =
      (pkgs.flatMap Package.Functions).map functionFeature := by
  induction pkgs with
  | nil => rfl
  | cons pkg rest ih =>
    rw [List.flatMap_cons, List.filter_append, ih, List.flatMap_cons, List.map_append]
    congr 1
    unfold packageFeatures
    have hfile : (if pkg.Filepath ≠ "." then [fileFeature pkg] else []).filter
        (fun f => decide (f.name = "go_package_function")) = [] := by
      by_cases hp : pkg.Filepath = "."
      · simp [hp]
      · simp [hp, fileFeature]
    have hfun : (pkg.Functions.map functionFeature).filter
        (fun f => decide (f.name = "go_package_function")) =
        pkg.Functions.map functionFeature := by
      apply filter_named_eq_self
      intro f hf
      simp only [List.mem_map] at hf
      obtain ⟨x, _, rfl⟩ := hf
      rfl
    have hmeth : (pkg.Methods.map methodFeature).filter
        (fun f => decide (f.name = "go_package_function")) = [] := by
      apply filter_named_eq_nil "go_package_function" ["go_package_method"]
      · intro f hf
        simp only [List.mem_map] at hf
        obtain ⟨x, _, rfl⟩ := hf
        simp [methodFeature]
      · decide
    rw [List.filter_cons_of_neg (by simp [packageFeature]), List.filter_append,
      List.filter_append, hfile, hfun, hmeth, List.nil_append, List.append_nil]

theorem filter_method_packageFeatures (pkgs : List Package) :
    (pkgs.flatMap packageFeatures).filter
        (fun f => decide (f.name = "go_package_method")) =
      (pkgs.flatMap Package.Methods).map methodFeature := by
  induction pkgs with
  | nil => rfl
  | cons pkg rest ih =>
    rw [List.flatMap_cons, List.filter_append, ih, List.flatMap_cons, List.map_append]
    congr 1
    unfold packageFeatures
    have hfile : (if pkg.Filepath ≠ "." then [fileFeature pkg] else []).filter
        (fun f => decide (f.name = "go_package_method")) = [] := by
      by_cases hp : pkg.Filepath = "."
      · simp [hp]
      · simp [hp, fileFeature]
    have hfun : (pkg.Functions.map functionFeature).filter
        (fun f => decide (f.name = "go_package_method")) = [] := by
      apply filter_named_eq_nil "go_package_method" ["go_package_function"]
      · intro f hf
        simp only [List.mem_map] at hf
        obtain ⟨x, _, rfl⟩ := hf
        simp [functionFeature]
      · decide
    have hmeth : (pkg.Methods.map methodFeature).filter
        (fun f => decide (f.name = "go_package_method")) =
        pkg.Methods.map methodFeature := by
      apply filter_named_eq_self
      intro f hf
      simp only [List.mem_map] at hf
      obtain ⟨x, _, rfl⟩ := hf
      rfl
    rw [List.filter_cons_of_neg (by simp [packageFeature]), List.filter_append,
      List.filter_append, hfile, hfun, hmeth, List.nil_append, List.nil_append]

/-- C20: in an invocation that runs to the final `return nil`, the "go_package" records
are the package list mapped entry by entry, the "go_package_function" records are all
functions of all packages in order, and likewise the "go_package_method" records; so their
numbers are the length of the package list and the sums of the function and method counts,
and whatever is reported n times has at least n records equal to its own. -/
theorem package_stage_keeps_duplicates (w : Env) (gi : GoInfoPlugin)
    (contentFilePath : String) (goFile : GoFile)
    (hpath : w.GetContentPath = Except.ok contentFilePath)
    (hopen : w.Open contentFilePath = OpenResult.returned (some goFile) none)
    (hnil : (Execute w gi).2.1 = none) :
    (emittedNamed "go_package" (Execute w gi).2.2 =
        goFile.GetPackages.1.map (fun pkg => (⟨"go_package", pkg.Name, none⟩ : Feature)) ∧
      emittedNamed "go_package_function" (Execute w gi).2.2 =
        (goFile.GetPackages.1.flatMap Package.Functions).map functionFeature ∧
      emittedNamed "go_package_method" (Execute w gi).2.2 =
        (goFile.GetPackages.1.flatMap Package.Methods).map methodFeature) ∧
    ((emittedNamed "go_package" (Execute w gi).2.2).length = goFile.GetPackages.1.length ∧
      (emittedNamed "go_package_function" (Execute w gi).2.2).length =
        (goFile.GetPackages.1.map (fun pkg => pkg.Functions.length)).sum ∧
      (emittedNamed "go_package_method" (Execute w gi).2.2).length =
        (goFile.GetPackages.1.map (fun pkg => pkg.Methods.length)).sum) ∧
    ((∀ pkg, goFile.GetPackages.1.count pkg ≤
        (emittedNamed "go_package" (Execute w gi).2.2).count ⟨"go_package", pkg.Name, none⟩) ∧
      (∀ pkgFunc, (goFile.GetPackages.1.flatMap Package.Functions).count pkgFunc ≤
        (emittedNamed "go_package_function" (Execute w gi).2.2).count
          (functionFeature pkgFunc)) ∧
      (∀ pkgMethods, (goFile.GetPackages.1.flatMap Package.Methods).count pkgMethods ≤
        (emittedNamed "go_package_method" (Execute w gi).2.2).count
          (methodFeature pkgMethods))) := by
  have hpkg : emittedNamed "go_package" (Execute w gi).2.2 =
      goFile.GetPackages.1.map (fun pkg => (⟨"go_package", pkg.Name, none⟩ : Feature)) :=
    emittedNamed_success_packages w gi contentFilePath goFile hpath hopen hnil
  have hfun : emittedNamed "go_package_function" (Execute w gi).2.2 =
      (goFile.GetPackages.1.flatMap Package.Functions).map functionFeature := by
    rw [emittedNamed_success "go_package_function" w gi contentFilePath goFile hpath hopen hnil,
      filter_flagFeatures_other "go_package_function" (by decide),
      filter_compilerFeatures_other "go_package_function" (by decide),
      filter_vendorFeatures_other "go_package_function" (by decide),
      filter_typeFeatures_other "go_package_function" (by decide),
      filter_function_packageFeatures]
    simp only [List.nil_append, List.append_nil]
  have hmeth : emittedNamed "go_package_method" (Execute w gi).2.2 =
      (goFile.GetPackages.1.flatMap Package.Methods).map methodFeature := by
    rw [emittedNamed_success "go_package_method" w gi contentFilePath goFile hpath hopen hnil,
      filter_flagFeatures_other "go_package_method" (by decide),
      filter_compilerFeatures_other "go_package_method" (by decide),
      filter_vendorFeatures_other "go_package_method" (by decide),
      filter_typeFeatures_other "go_package_method" (by decide),
      filter_method_packageFeatures]
    simp only [List.nil_append, List.append_nil]
  refine ⟨⟨hpkg, hfun, hmeth⟩, ⟨?_, ?_, ?_⟩, ⟨?_, ?_, ?_⟩⟩
  · rw [hpkg, List.length_map]
  · rw [hfun, List.length_map, List.length_flatMap]
    rfl
  · rw [hmeth, List.length_map, List.length_flatMap]
    rfl
  · intro pkg
    rw [hpkg]
    exact List.count_le_count_map goFile.GetPackages.1
      (fun pkg => (⟨"go_package", pkg.Name, none⟩ : Feature)) pkg
  · intro pkgFunc
    rw [hfun]
    exact List.count_le_count_map (goFile.GetPackages.1.flatMap Package.Functions)
      functionFeature pkgFunc
  · intro pkgMethods
    rw [hmeth]
    exact List.count_le_count_map (goFile.GetPackages.1.flatMap Package.Methods)
      methodFeature pkgMethods

/-- Instance of C20: a package reported twice, each time with the same function twice,
gives two "go_package" records and four "go_package_function" records. -/
theorem package_stage_keeps_duplicates_witness :
    (Execute (envOpened sampleDuplicated (Except.error ⟨"not a Go executable"⟩)) ⟨""⟩).2.1
        = none ∧
      (emittedNamed "go_package"
        (Execute (envOpened sampleDuplicated
          (Except.error ⟨"not a Go executable"⟩)) ⟨""⟩).2.2).length = 2 ∧
      (emittedNamed "go_package_function"
        (Execute (envOpened sampleDuplicated
          (Except.error ⟨"not a Go executable"⟩)) ⟨""⟩).2.2).length = 4 :=
  have h := package_stage_keeps_duplicates
    (envOpened sampleDuplicated (Except.error ⟨"not a Go executable"⟩)) ⟨""⟩ "/tmp/content"
    sampleDuplicated rfl rfl (by decide)
  ⟨by decide, h.2.1.1, h.2.1.2.1⟩

/-! ## Order of the open-error branches -/

/-- C22: when the open error's lower-cased text contains both "unsupported" and "fail to
read string table length", the first branch decides: `Execute` returns the opt-out "File
could not be opened by pygore with message " followed by the error text, and no record, so
no "malformed" record, is handed to the sink. -/
theorem open_error_branches_in_order (w : Env) (gi : GoInfoPlugin)
    (contentFilePath : String) (goFile : Option GoFile) (err : GoError)
    (hpath : w.GetContentPath = Except.ok contentFilePath)
    (hopen : w.Open contentFilePath = OpenResult.returned goFile (some err))
    (hunsupported : strings_Contains (w.ToLower err.Error) "unsupported" = true)
    (_hcorrupt :
      strings_Contains (w.ToLower err.Error) "fail to read string table length" = true) :
    (Execute w gi).2.1 = some (PluginError.optOut
        ("File could not be opened by pygore with message " ++ err.Error)) ∧
      emittedNamed "malformed" (Execute w gi).2.2 = [] ∧
      emitted (Execute w gi).2.2 = [] := by
  rw [Execute_openError w gi contentFilePath goFile err hpath hopen, if_pos hunsupported]
  exact ⟨rfl, rfl, rfl⟩

/-- Instance of C22: an error text with both phrases. -/
theorem open_error_branches_in_order_witness :
    strings_Contains ((envOpenError
        "unsupported file: fail to read string table length").ToLower
        "unsupported file: fail to read string table length") "unsupported" = true ∧
      strings_Contains ((envOpenError
        "unsupported file: fail to read string table length").ToLower
        "unsupported file: fail to read string table length")
        "fail to read string table length" = true ∧
      (Execute (envOpenError
        "unsupported file: fail to read string table length") ⟨""⟩).2.1 =
        some (PluginError.optOut
          "File could not be opened by pygore with message unsupported file: fail to read string table length") ∧
      emittedNamed "malformed" (Execute (envOpenError
        "unsupported file: fail to read string table length") ⟨""⟩).2.2 = [] :=
  have h := open_error_branches_in_order
    (envOpenError "unsupported file: fail to read string table length") ⟨""⟩ "/tmp/content"
    none ⟨"unsupported file: fail to read string table length"⟩ rfl rfl
    (by decide) (by decide)
  ⟨by decide, by decide, h.1, h.2.1⟩

/-! ## No handle and no error -/

/-- C28: when `gore.Open` returns neither an error nor a handle and did not panic, the
message left in `panicError` is empty, whatever it was before, `Execute` returns the error
of category Exception titled "Pygore Panic" with message "Pygore paniced with a panic
message: ''", and the trace ends with the open call: no query is made on the missing
handle, nothing is emitted and nothing is closed. -/
theorem no_handle_no_error_is_fatal (w : Env) (gi : GoInfoPlugin) (contentFilePath : String)
    (hpath : w.GetContentPath = Except.ok contentFilePath)
    (hopen : w.Open contentFilePath = OpenResult.returned none none) :
    (Execute w gi).1.panicError = "" ∧
      (Execute w gi).2.1 = some (PluginError.error ErrorKind.ErrorException "Pygore Panic"
        "Pygore paniced with a panic message: ''" none) ∧
      (Execute w gi).2.2 = [Call.GetContentPath, Call.Open contentFilePath] := by
  have hq : openGoreFile w gi contentFilePath = ({ gi with panicError := "" }, none, none) := by
    unfold openGoreFile
    rw [hopen]
    rfl
  have hne : ¬ ("" = "Unsupported architecture") := by decide
  rw [Execute_noHandle w gi contentFilePath hpath (by rw [hq]), hq, if_neg hne]
  exact ⟨rfl, rfl, rfl⟩

/-- Instance of C28 on an instance that still holds the message of an earlier panic. -/
theorem no_handle_no_error_is_fatal_witness :
    (Execute envNothing ⟨"Unsupported architecture"⟩).1.panicError = "" ∧
      (Execute envNothing ⟨"Unsupported architecture"⟩).2.1 =
        some (PluginError.error ErrorKind.ErrorException "Pygore Panic"
          "Pygore paniced with a panic message: ''" none) ∧
      (Execute envNothing ⟨"Unsupported architecture"⟩).2.2 =
        [Call.GetContentPath, Call.Open "/tmp/content"] :=
  no_handle_no_error_is_fatal envNothing ⟨"Unsupported architecture"⟩ "/tmp/content" rfl rfl

/-! ## No content path -/

/-- C29: when the job gives an error instead of the content path, `Execute` returns that
error as it is, the trace holds only the path request (so `gore.Open` is not called and no
record is emitted), and the instance, with its `panicError`, is left as it was. -/
theorem no_content_path_returns_error (w : Env) (gi : GoInfoPlugin) (pluginErr : PluginError)
    (hpath : w.GetContentPath = Except.error pluginErr) :
    (Execute w gi).2.1 = some pluginErr ∧
      (Execute w gi).2.2 = [Call.GetContentPath] ∧
      (∀ sourcePath, Call.Open sourcePath ∉ (Execute w gi).2.2) ∧
      emitted (Execute w gi).2.2 = [] ∧
      (Execute w gi).1 = gi ∧ (Execute w gi).1.panicError = gi.panicError := by
  rw [Execute_noPath w gi pluginErr hpath]
  refine ⟨rfl, rfl, ?_, rfl, rfl, rfl⟩
  intro sourcePath h
  simp at h

/-- Instance of C29 on an instance that holds the message of an earlier panic. -/
theorem no_content_path_returns_error_witness :
    (Execute (envNoPath sinkError) ⟨"index out of range"⟩).2.1 = some sinkError ∧
      (Execute (envNoPath sinkError) ⟨"index out of range"⟩).2.2 = [Call.GetContentPath] ∧
      (Execute (envNoPath sinkError) ⟨"index out of range"⟩).1.panicError
        = "index out of range" :=
  have h := no_content_path_returns_error (envNoPath sinkError) ⟨"index out of range"⟩
    sinkError rfl
  ⟨h.1, h.2.1, h.2.2.2.2.2⟩

/-! ## Declared feature names -/

theorem GetFeatures_names :
    GetFeatures.map PluginEntityFeature.Name =
      ["go_compiler_flag", "go_build_id", "go_compiler_version", "go_compiler_timestamp",
        "go_package", "go_package_function", "go_package_method", "go_vendor_package",
        "go_file", "go_type", "go_type_method", "malformed"] := rfl

theorem name_of_mem_successFeatures (w : Env) (contentFilePath : String) (goFile : GoFile)
    (f : Feature) (h : f ∈ successFeatures w contentFilePath goFile) :
    f.name ∈ GetFeatures.map PluginEntityFeature.Name := by
  rw [GetFeatures_names]
  simp only [successFeatures, List.mem_append] at h
  rcases h with (((h | h) | h) | h) | h
  · simp [name_of_mem_flagFeatures _ f h]
  · have := name_of_mem_compilerFeatures goFile f h
    revert this
    generalize f.name = n
    simp only [List.mem_cons, List.mem_singleton, List.not_mem_nil, or_false]
    tauto
  · have := name_of_mem_packageFeatures _ f h
    revert this
    generalize f.name = n
    simp only [List.mem_cons, List.mem_singleton, List.not_mem_nil, or_false]
    tauto
  · simp [name_of_mem_vendorFeatures _ f h]
  · have := name_of_mem_typeFeatures _ _ f h
    revert this
    generalize f.name = n
    simp only [List.mem_cons, List.mem_singleton, List.not_mem_nil, or_false]
    tauto

/-- Whatever the run, the records of its trace are records of a full run or the one
"malformed" record. -/
theorem mem_emitted_Execute (w : Env) (gi : GoInfoPlugin) (f : Feature)
    (h : f ∈ emitted (Execute w gi).2.2) :
    f.name = "malformed" ∨
      ∃ contentFilePath goFile,
        w.Open contentFilePath = OpenResult.returned (some goFile) none ∧
        w.GetContentPath = Except.ok contentFilePath ∧
        f ∈ successFeatures w contentFilePath goFile := by
  cases hpath : w.GetContentPath with
  | error pluginErr =>
    rw [Execute_noPath w gi pluginErr hpath] at h
    simp [emitted] at h
  | ok contentFilePath =>
    have hnone : (openGoreFile w gi contentFilePath).2 = (none, none) → False := by
      intro hq
      rw [Execute_noHandle w gi contentFilePath hpath hq] at h
      split at h <;> simp [emitted] at h
    cases hopen : w.Open contentFilePath with
    | panicked value =>
      exact (hnone (by unfold openGoreFile; rw [hopen])).elim
    | returned handle failure =>
      cases failure with
      | some err =>
        rw [Execute_openError w gi contentFilePath handle err hpath hopen] at h
        split at h
        · simp [emitted] at h
        · split at h
          · simp only [emitted, List.mem_singleton] at h
            exact Or.inl (by rw [h])
          · simp [emitted] at h
      | none =>
        cases handle with
        | none => exact (hnone (by unfold openGoreFile; rw [hopen])).elim
        | some goFile =>
          obtain ⟨r, tr, hrun, hE⟩ := Execute_run w gi contentFilePath goFile hpath hopen
          obtain ⟨q, hq, htr⟩ := hrun.within_plan
          rw [hE, htr] at h
          have h2 : f ∈ emitted q := by
            have hframe := emitted_framed contentFilePath q
            rw [← hframe]
            exact h
          refine Or.inr ⟨contentFilePath, goFile, hopen, rfl, ?_⟩
          rw [← emitted_openedPlan]
          exact (emitted_initial _ _ hq).subset h2

/-- C21: `GetFeatures` declares the twelve names listed, no name twice, and every record
that `Execute` hands to the sink, on any input and however the run ends, carries one of
them. -/
theorem emitted_names_are_declared :
    GetFeatures.map PluginEntityFeature.Name =
        ["go_compiler_flag", "go_build_id", "go_compiler_version", "go_compiler_timestamp",
          "go_package", "go_package_function", "go_package_method", "go_vendor_package",
          "go_file", "go_type", "go_type_method", "malformed"] ∧
      GetFeatures.length = 12 ∧
      (GetFeatures.map PluginEntityFeature.Name).Nodup ∧
      ∀ (w : Env) (gi : GoInfoPlugin) (f : Feature), f ∈ emitted (Execute w gi).2.2 →
        f.name ∈ GetFeatures.map PluginEntityFeature.Name := by
  refine ⟨rfl, rfl, by decide, ?_⟩
  intro w gi f h
  rcases mem_emitted_Execute w gi f h with hm | ⟨contentFilePath, goFile, _, _, hmem⟩
  · rw [hm]
    decide
  · exact name_of_mem_successFeatures w contentFilePath goFile f hmem

/-- Instance of C21: the "malformed" record of the corrupted PE fixture carries a declared
name. -/
theorem emitted_names_are_declared_witness :
    (⟨"malformed",
        "PE file was corrupted and it's header couldn't be read with error error when parsing the PE file: fail to read string table length: EOF",
        none⟩ : Feature).name ∈ GetFeatures.map PluginEntityFeature.Name :=
  emitted_names_are_declared.2.2.2
    (envOpenError "error when parsing the PE file: fail to read string table length: EOF")
    ⟨""⟩ _ (by decide)

/-! ## The whole record sequence -/

theorem flatMap_typeFeatures_eq (goPackageSet : List String) (goTypes : List GoType) :
    goTypes.flatMap (typeFeatures goPackageSet) =
      (goTypes.filter (fun goType => decide (goType.PackagePath ∈ goPackageSet))).flatMap
        (fun goType => goTypeFeature goType :: goType.Methods.map (typeMethodFeature goType)) := by
  induction goTypes with
  | nil => rfl
  | cons goType rest ih =>
    rw [List.flatMap_cons, ih]
    unfold typeFeatures
    by_cases hp : goType.PackagePath ∈ goPackageSet
    · rw [if_pos hp, List.filter_cons_of_pos (by simp [hp]), List.flatMap_cons]
    · rw [if_neg hp, List.filter_cons_of_neg (by simp [hp]), List.nil_append]

/-- C23: in an invocation that runs to the final `return nil`, the records handed to the
sink are, in this order: the "go_compiler_flag" records of the build settings (none when
they could not be read); "go_build_id"; "go_compiler_version" and "go_compiler_timestamp"
when the compiler is present; for each package in the analyzer's order its "go_package"
record, its "go_file" record unless the file path is ".", its functions in order and its
methods in order; the "go_vendor_package" records in order; and for each retained type in
the analyzer's order its "go_type" record followed at once by its "go_type_method" records
in order.  Records of one name thus keep the order in which the analyzer reported them. -/
theorem full_success_record_sequence (w : Env) (gi : GoInfoPlugin)
    (contentFilePath : String) (goFile : GoFile)
    (hpath : w.GetContentPath = Except.ok contentFilePath)
    (hopen : w.Open contentFilePath = OpenResult.returned (some goFile) none)
    (hnil : (Execute w gi).2.1 = none) :
    emitted (Execute w gi).2.2 =
      (match w.ReadFile contentFilePath with
        | Except.ok buildInfo =>
          buildInfo.Settings.map
            (fun s => (⟨"go_compiler_flag", s.Value, some ⟨s.Key, 0, 0⟩⟩ : Feature))
        | Except.error _ => [])
      ++ [(⟨"go_build_id", goFile.BuildID, none⟩ : Feature)]
      ++ (match goFile.BuildInfo with
          | some buildInfo =>
            match buildInfo.Compiler with
            | some compiler =>
              [(⟨"go_compiler_version", compiler.Name, none⟩ : Feature),
               ⟨"go_compiler_timestamp", compiler.Timestamp, none⟩]
            | none => []
          | none => [])
      ++ goFile.GetPackages.1.flatMap (fun pkg =>
          [(⟨"go_package", pkg.Name, none⟩ : Feature)]
          ++ (if pkg.Filepath ≠ "." then [(⟨"go_file", pkg.Filepath, none⟩ : Feature)] else [])
          ++ pkg.Functions.map (fun pkgFunc =>
              (⟨"go_package_function", pkgFunc.Name,
                some ⟨pkgFunc.PackageName, pkgFunc.Offset,
                  sub64 pkgFunc.End pkgFunc.Offset⟩⟩ : Feature))
          ++ pkg.Methods.map (fun pkgMethods =>
              (⟨"go_package_method", pkgMethods.Name,
                some ⟨pkgMethods.PackageName, pkgMethods.Offset,
                  sub64 pkgMethods.End pkgMethods.Offset⟩⟩ : Feature)))
      ++ goFile.GetVendors.1.map
          (fun vendorPackage => (⟨"go_vendor_package", vendorPackage.Name, none⟩ : Feature))
      ++ (goFile.GetTypes.1.filter (fun goType =>
            decide (goType.PackagePath ∈ goFile.GetPackages.1.map Package.Name))).flatMap
          (fun goType =>
            (⟨"go_type", goType.Name,
              some ⟨goType.Kind.text, goType.Addr, uint64 goType.Length⟩⟩ : Feature)
            :: goType.Methods.map (fun goTypeMethod =>
              (⟨"go_type_method", goTypeMethod.Name, some ⟨goType.Name, 0, 0⟩⟩ : Feature))) := by
  rw [(Execute_success w gi contentFilePath goFile hpath hopen hnil).1, emitted_successTrace]
  unfold successFeatures
  rw [flatMap_typeFeatures_eq]
  have hpkg : ∀ pkg : Package, packageFeatures pkg =
      [(⟨"go_package", pkg.Name, none⟩ : Feature)]
      ++ (if pkg.Filepath ≠ "." then [(⟨"go_file", pkg.Filepath, none⟩ : Feature)] else [])
      ++ pkg.Functions.map (fun pkgFunc =>
          (⟨"go_package_function", pkgFunc.Name,
            some ⟨pkgFunc.PackageName, pkgFunc.Offset,
              sub64 pkgFunc.End pkgFunc.Offset⟩⟩ : Feature))
      ++ pkg.Methods.map (fun pkgMethods =>
          (⟨"go_package_method", pkgMethods.Name,
            some ⟨pkgMethods.PackageName, pkgMethods.Offset,
              sub64 pkgMethods.End pkgMethods.Offset⟩⟩ : Feature)) := by
    intro pkg
    unfold packageFeatures
    simp only [List.singleton_append, List.append_assoc]
    rfl
  have hfun : packageFeatures = fun pkg =>
      [(⟨"go_package", pkg.Name, none⟩ : Feature)]
      ++ (if pkg.Filepath ≠ "." then [(⟨"go_file", pkg.Filepath, none⟩ : Feature)] else [])
      ++ pkg.Functions.map (fun pkgFunc =>
          (⟨"go_package_function", pkgFunc.Name,
            some ⟨pkgFunc.PackageName, pkgFunc.Offset,
              sub64 pkgFunc.End pkgFunc.Offset⟩⟩ : Feature))
      ++ pkg.Methods.map (fun pkgMethods =>
          (⟨"go_package_method", pkgMethods.Name,
            some ⟨pkgMethods.PackageName, pkgMethods.Offset,
              sub64 pkgMethods.End pkgMethods.Offset⟩⟩ : Feature)) := funext hpkg
  have hcompiler : compilerFeatures goFile =
      [(⟨"go_build_id", goFile.BuildID, none⟩ : Feature)]
      ++ (match goFile.BuildInfo with
          | some buildInfo =>
            match buildInfo.Compiler with
            | some compiler =>
              [(⟨"go_compiler_version", compiler.Name, none⟩ : Feature),
               ⟨"go_compiler_timestamp", compiler.Timestamp, none⟩]
            | none => []
          | none => []) := rfl
  rw [hfun, hcompiler, ← List.append_assoc]
  rfl

/-- Instance of C23: the whole record sequence of the sample binary with one build
setting. -/
theorem full_success_record_sequence_witness :
    (Execute (envOpened sampleGoFile (Except.ok ⟨[⟨"GOOS", "windows"⟩]⟩)) ⟨""⟩).2.1 = none ∧
      emitted (Execute (envOpened sampleGoFile (Except.ok ⟨[⟨"GOOS", "windows"⟩]⟩)) ⟨""⟩).2.2 =
        [⟨"go_compiler_flag", "windows", some ⟨"GOOS", 0, 0⟩⟩,
         ⟨"go_build_id", "THyJCsrrxDurShR", none⟩,
         ⟨"go_compiler_version", "go1.15", none⟩,
         ⟨"go_compiler_timestamp", "2020-08-11T19:01:57Z", none⟩,
         ⟨"go_package", "main", none⟩,
         ⟨"go_file", "D:/src/xor", none⟩,
         ⟨"go_package_function", "init", some ⟨"main", 4639616, 342⟩⟩,
         ⟨"go_package_function", "main", some ⟨"main", 4638816, 800⟩⟩,
         ⟨"go_package_method", "Run", some ⟨"main", 4640000, 100⟩⟩,
         ⟨"go_vendor_package", "github.com/acme/lib", none⟩,
         ⟨"go_vendor_package", "golang.org/x/sys", none⟩,
         ⟨"go_type", "main.Loader", some ⟨"struct", 4700000, 24⟩⟩,
         ⟨"go_type_method", "Run", some ⟨"main.Loader", 0, 0⟩⟩] :=
  ⟨by decide,
    (full_success_record_sequence
      (envOpened sampleGoFile (Except.ok ⟨[⟨"GOOS", "windows"⟩]⟩)) ⟨""⟩ "/tmp/content"
      sampleGoFile rfl rfl (by decide)).trans (by decide)⟩

/-! ## Type records and the set of package names -/

/-- The records of one type depend on the package set only through membership. -/
theorem typeFeatures_congr (set1 set2 : List String) (hsets : ∀ n, n ∈ set1 ↔ n ∈ set2)
    (goTypes : List GoType) :
    goTypes.flatMap (typeFeatures set1) = goTypes.flatMap (typeFeatures set2) := by
  have h : typeFeatures set1 = typeFeatures set2 := by
    funext goType
    unfold typeFeatures
    by_cases hp : goType.PackagePath ∈ set1
    · rw [if_pos hp, if_pos ((hsets _).1 hp)]
    · rw [if_neg hp, if_neg (fun h2 => hp ((hsets _).2 h2))]
  rw [h]

/-- In a run to the final `return nil` the records named "go_type" or "go_type_method" are
the records of the type stage. -/
theorem type_records_of_success (w : Env) (gi : GoInfoPlugin) (contentFilePath : String)
    (goFile : GoFile)
    (hpath : w.GetContentPath = Except.ok contentFilePath)
    (hopen : w.Open contentFilePath = OpenResult.returned (some goFile) none)
    (hnil : (Execute w gi).2.1 = none) :
    (emitted (Execute w gi).2.2).filter
        (fun f => decide (f.name = "go_type" ∨ f.name = "go_type_method")) =
      goFile.GetTypes.1.flatMap (typeFeatures (goFile.GetPackages.1.map Package.Name)) := by
  rw [(Execute_success w gi contentFilePath goFile hpath hopen hnil).1, emitted_successTrace]
  unfold successFeatures
  have hother : ∀ (fs : List Feature) (names : List String),
      (∀ f ∈ fs, f.name ∈ names) → "go_type" ∉ names → "go_type_method" ∉ names →
      fs.filter (fun f => decide (f.name = "go_type" ∨ f.name = "go_type_method")) = [] := by
    intro fs names hfs h1 h2
    rw [List.filter_eq_nil_iff]
    intro f hf hd
    simp only [decide_eq_true_eq] at hd
    rcases hd with hd | hd
    · exact h1 (hd ▸ hfs f hf)
    · exact h2 (hd ▸ hfs f hf)
  have hself : (goFile.GetTypes.1.flatMap
      (typeFeatures (goFile.GetPackages.1.map Package.Name))).filter
        (fun f => decide (f.name = "go_type" ∨ f.name = "go_type_method")) =
      goFile.GetTypes.1.flatMap (typeFeatures (goFile.GetPackages.1.map Package.Name)) := by
    rw [List.filter_eq_self]
    intro f hf
    have := name_of_mem_typeFeatures _ _ f hf
    simp only [List.mem_cons, List.mem_singleton, List.not_mem_nil, or_false] at this
    simp [this]
  rw [List.filter_append, List.filter_append, List.filter_append, List.filter_append, hself,
    hother _ ["go_compiler_flag"] (fun f hf => by simp [name_of_mem_flagFeatures _ f hf])
      (by decide) (by decide),
    hother _ _ (name_of_mem_compilerFeatures goFile) (by decide) (by decide),
    hother _ _ (name_of_mem_packageFeatures goFile.GetPackages.1) (by decide) (by decide),
    hother _ ["go_vendor_package"]
      (fun f hf => by simp [name_of_mem_vendorFeatures _ f hf]) (by decide) (by decide)]
  rfl

theorem emittedNamed_of_type_records (n : String)
    (hn : n = "go_type" ∨ n = "go_type_method") (tr : List Call) :
    emittedNamed n tr =
      ((emitted tr).filter
        (fun f => decide (f.name = "go_type" ∨ f.name = "go_type_method"))).filter
        (fun f => decide (f.name = n)) := by
  unfold emittedNamed
  rw [List.filter_filter]
  apply List.filter_congr
  intro f _
  rcases hn with rfl | rfl
  · by_cases h : f.name = "go_type" <;> simp [h]
  · by_cases h : f.name = "go_type_method" <;> simp [h]

/-- C26: for two invocations that run to the final `return nil`, with the same type list
and with package lists that have the same set of names (in whatever order and number), the
records named "go_type" or "go_type_method" are the same sequence, and so are the "go_type"
records and the "go_type_method" records on their own; and when the package list is empty
no record of either name is emitted, whatever the type list. -/
theorem type_records_depend_on_name_set (w1 w2 : Env) (gi1 gi2 : GoInfoPlugin)
    (path1 path2 : String) (goFile1 goFile2 : GoFile)
    (hpath1 : w1.GetContentPath = Except.ok path1)
    (hopen1 : w1.Open path1 = OpenResult.returned (some goFile1) none)
    (hnil1 : (Execute w1 gi1).2.1 = none)
    (hpath2 : w2.GetContentPath = Except.ok path2)
    (hopen2 : w2.Open path2 = OpenResult.returned (some goFile2) none)
    (hnil2 : (Execute w2 gi2).2.1 = none) :
    (goFile1.GetTypes.1 = goFile2.GetTypes.1 →
      (∀ n, n ∈ goFile1.GetPackages.1.map Package.Name ↔
        n ∈ goFile2.GetPackages.1.map Package.Name) →
      (emitted (Execute w1 gi1).2.2).filter
          (fun f => decide (f.name = "go_type" ∨ f.name = "go_type_method")) =
        (emitted (Execute w2 gi2).2.2).filter
          (fun f => decide (f.name = "go_type" ∨ f.name = "go_type_method")) ∧
      emittedNamed "go_type" (Execute w1 gi1).2.2 =
        emittedNamed "go_type" (Execute w2 gi2).2.2 ∧
      emittedNamed "go_type_method" (Execute w1 gi1).2.2 =
        emittedNamed "go_type_method" (Execute w2 gi2).2.2) ∧
    (goFile1.GetPackages.1 = [] →
      emittedNamed "go_type" (Execute w1 gi1).2.2 = [] ∧
      emittedNamed "go_type_method" (Execute w1 gi1).2.2 = []) := by
  have h1 := type_records_of_success w1 gi1 path1 goFile1 hpath1 hopen1 hnil1
  have h2 := type_records_of_success w2 gi2 path2 goFile2 hpath2 hopen2 hnil2
  refine ⟨?_, ?_⟩
  · intro htypes hnames
    have hsame : (emitted (Execute w1 gi1).2.2).filter
          (fun f => decide (f.name = "go_type" ∨ f.name = "go_type_method")) =
        (emitted (Execute w2 gi2).2.2).filter
          (fun f => decide (f.name = "go_type" ∨ f.name = "go_type_method")) := by
      rw [h1, h2, htypes]
      exact typeFeatures_congr _ _ hnames _
    refine ⟨hsame, ?_, ?_⟩
    · rw [emittedNamed_of_type_records "go_type" (Or.inl rfl),
        emittedNamed_of_type_records "go_type" (Or.inl rfl), hsame]
    · rw [emittedNamed_of_type_records "go_type_method" (Or.inr rfl),
        emittedNamed_of_type_records "go_type_method" (Or.inr rfl), hsame]
  · intro hempty
    have hnone : goFile1.GetTypes.1.flatMap
        (typeFeatures (goFile1.GetPackages.1.map Package.Name)) = [] := by
      rw [hempty, List.flatMap_eq_nil_iff]
      intro goType _
      simp [typeFeatures]
    rw [emittedNamed_of_type_records "go_type" (Or.inl rfl),
      emittedNamed_of_type_records "go_type_method" (Or.inr rfl), h1, hnone]
    exact ⟨rfl, rfl⟩

/-- Instance of C26: the packages "main" and "util" once each, and the same names in another
order with repetitions, give the same type records. -/
theorem type_records_depend_on_name_set_witness :
    emittedNamed "go_type"
        (Execute (envOpened sampleTwoPackages (Except.ok sampleSettings)) ⟨""⟩).2.2 =
      emittedNamed "go_type"
        (Execute (envOpened sampleReordered (Except.ok sampleSettings)) ⟨""⟩).2.2 ∧
    emittedNamed "go_type_method"
        (Execute (envOpened sampleTwoPackages (Except.ok sampleSettings)) ⟨""⟩).2.2 =
      emittedNamed "go_type_method"
        (Execute (envOpened sampleReordered (Except.ok sampleSettings)) ⟨""⟩).2.2 :=
  ((type_records_depend_on_name_set
    (envOpened sampleTwoPackages (Except.ok sampleSettings))
    (envOpened sampleReordered (Except.ok sampleSettings)) ⟨""⟩ ⟨""⟩
    "/tmp/content" "/tmp/content" sampleTwoPackages sampleReordered
    rfl rfl (by decide) rfl rfl (by decide)).1 rfl
    (fun n => by
      simp only [sampleTwoPackages, sampleReordered, List.map_cons, List.map_nil,
        List.mem_cons, List.mem_singleton, List.not_mem_nil, or_false]
      tauto)).2

/-! ## Sizes of package symbols -/

/-- Offset plus the `uint64` difference gives back the end, modulo 2^64. -/
theorem add_sub64_mod (a b : Nat) : (b + sub64 a b) % 2 ^ 64 = a % 2 ^ 64 := by
  unfold sub64
  have h : (2 : Nat) ^ 64 = 18446744073709551616 := by norm_num
  rw [h]
  omega

/-- When the end lies before the start the `uint64` difference wraps around. -/
theorem sub64_of_lt (a b : Nat) (hab : a < b) (hb : b < 2 ^ 64) :
    sub64 a b = 2 ^ 64 - (b - a) := by
  unfold sub64
  have h : (2 : Nat) ^ 64 = 18446744073709551616 := by norm_num
  rw [h] at hb ⊢
  omega

/-- The records of an opened run are records of a full run. -/
theorem mem_successFeatures_of_emitted (w : Env) (gi : GoInfoPlugin)
    (contentFilePath : String) (goFile : GoFile)
    (hpath : w.GetContentPath = Except.ok contentFilePath)
    (hopen : w.Open contentFilePath = OpenResult.returned (some goFile) none)
    (f : Feature) (h : f ∈ emitted (Execute w gi).2.2) :
    f ∈ successFeatures w contentFilePath goFile := by
  obtain ⟨r, tr, hrun, hE⟩ := Execute_run w gi contentFilePath goFile hpath hopen
  obtain ⟨q, hq, htr⟩ := hrun.within_plan
  rw [hE, htr] at h
  have h2 : f ∈ emitted q := by
    have hframe := emitted_framed contentFilePath q
    rw [← hframe]
    exact h
  rw [← emitted_openedPlan]
  exact (emitted_initial _ _ hq).subset h2

theorem function_of_mem_successFeatures (w : Env) (contentFilePath : String)
    (goFile : GoFile) (f : Feature) (h : f ∈ successFeatures w contentFilePath goFile)
    (hname : f.name = "go_package_function") :
    ∃ pkg ∈ goFile.GetPackages.1, ∃ pkgFunc ∈ pkg.Functions, f = functionFeature pkgFunc := by
  simp only [successFeatures, List.mem_append] at h
  rcases h with (((h | h) | h) | h) | h
  · have := name_of_mem_flagFeatures _ f h
    rw [hname] at this
    exact absurd this (by decide)
  · have := name_of_mem_compilerFeatures goFile f h
    rw [hname] at this
    exact absurd this (by decide)
  · simp only [List.mem_flatMap, packageFeatures, List.mem_cons, List.mem_append,
      List.mem_map] at h
    obtain ⟨pkg, hpkg, h⟩ := h
    rcases h with h | h | ⟨x, hx, h⟩ | ⟨x, hx, h⟩
    · rw [h] at hname
      exact absurd (show "go_package" = "go_package_function" from hname) (by decide)
    · by_cases hp : pkg.Filepath = "."
      · simp [hp] at h
      · simp only [ne_eq, hp, not_false_eq_true, if_true, List.mem_singleton] at h
        rw [h] at hname
        exact absurd (show "go_file" = "go_package_function" from hname) (by decide)
    · exact ⟨pkg, hpkg, x, hx, h.symm⟩
    · rw [← h] at hname
      exact absurd (show "go_package_method" = "go_package_function" from hname) (by decide)
  · have := name_of_mem_vendorFeatures _ f h
    rw [hname] at this
    exact absurd this (by decide)
  · have := name_of_mem_typeFeatures _ _ f h
    rw [hname] at this
    exact absurd this (by decide)

theorem method_of_mem_successFeatures (w : Env) (contentFilePath : String)
    (goFile : GoFile) (f : Feature) (h : f ∈ successFeatures w contentFilePath goFile)
    (hname : f.name = "go_package_method") :
    ∃ pkg ∈ goFile.GetPackages.1, ∃ pkgMethods ∈ pkg.Methods,
      f = methodFeature pkgMethods := by
  simp only [successFeatures, List.mem_append] at h
  rcases h with (((h | h) | h) | h) | h
  · have := name_of_mem_flagFeatures _ f h
    rw [hname] at this
    exact absurd this (by decide)
  · have := name_of_mem_compilerFeatures goFile f h
    rw [hname] at this
    exact absurd this (by decide)
  · simp only [List.mem_flatMap, packageFeatures, List.mem_cons, List.mem_append,
      List.mem_map] at h
    obtain ⟨pkg, hpkg, h⟩ := h
    rcases h with h | h | ⟨x, hx, h⟩ | ⟨x, hx, h⟩
    · rw [h] at hname
      exact absurd (show "go_package" = "go_package_method" from hname) (by decide)
    · by_cases hp : pkg.Filepath = "."
      · simp [hp] at h
      · simp only [ne_eq, hp, not_false_eq_true, if_true, List.mem_singleton] at h
        rw [h] at hname
        exact absurd (show "go_file" = "go_package_method" from hname) (by decide)
    · rw [← h] at hname
      exact absurd (show "go_package_function" = "go_package_method" from hname) (by decide)
    · exact ⟨pkg, hpkg, x, hx, h.symm⟩
  · have := name_of_mem_vendorFeatures _ f h
    rw [hname] at this
    exact absurd this (by decide)
  · have := name_of_mem_typeFeatures _ _ f h
    rw [hname] at this
    exact absurd this (by decide)

/-- C27: every emitted "go_package_function" record is the record of a function of one of
the analyzer's packages, and every emitted "go_package_method" record that of a method,
with offset the symbol's `Offset` and size the `uint64` difference `End - Offset`; for that
symbol offset plus size is congruent to `End` modulo 2^64, the size is the plain difference
when `Offset ≤ End`, and it is 2^64 - (`Offset` - `End`) when `End < Offset`: such a symbol
still gets its record. -/
theorem symbol_size_wraps (w : Env) (gi : GoInfoPlugin) (contentFilePath : String)
    (goFile : GoFile)
    (hpath : w.GetContentPath = Except.ok contentFilePath)
    (hopen : w.Open contentFilePath = OpenResult.returned (some goFile) none) :
    (∀ f ∈ emitted (Execute w gi).2.2, f.name = "go_package_function" →
      ∃ pkg ∈ goFile.GetPackages.1, ∃ pkgFunc ∈ pkg.Functions,
        f = ⟨"go_package_function", pkgFunc.Name,
          some ⟨pkgFunc.PackageName, pkgFunc.Offset, sub64 pkgFunc.End pkgFunc.Offset⟩⟩ ∧
        (pkgFunc.Offset + sub64 pkgFunc.End pkgFunc.Offset) % 2 ^ 64 = pkgFunc.End % 2 ^ 64 ∧
        (pkgFunc.Offset ≤ pkgFunc.End → pkgFunc.End < 2 ^ 64 →
          sub64 pkgFunc.End pkgFunc.Offset = pkgFunc.End - pkgFunc.Offset) ∧
        (pkgFunc.End < pkgFunc.Offset → pkgFunc.Offset < 2 ^ 64 →
          sub64 pkgFunc.End pkgFunc.Offset = 2 ^ 64 - (pkgFunc.Offset - pkgFunc.End))) ∧
    (∀ f ∈ emitted (Execute w gi).2.2, f.name = "go_package_method" →
      ∃ pkg ∈ goFile.GetPackages.1, ∃ pkgMethods ∈ pkg.Methods,
        f = ⟨"go_package_method", pkgMethods.Name,
          some ⟨pkgMethods.PackageName, pkgMethods.Offset,
            sub64 pkgMethods.End pkgMethods.Offset⟩⟩ ∧
        (pkgMethods.Offset + sub64 pkgMethods.End pkgMethods.Offset) % 2 ^ 64 =
          pkgMethods.End % 2 ^ 64 ∧
        (pkgMethods.Offset ≤ pkgMethods.End → pkgMethods.End < 2 ^ 64 →
          sub64 pkgMethods.End pkgMethods.Offset = pkgMethods.End - pkgMethods.Offset) ∧
        (pkgMethods.End < pkgMethods.Offset → pkgMethods.Offset < 2 ^ 64 →
          sub64 pkgMethods.End pkgMethods.Offset =
            2 ^ 64 - (pkgMethods.Offset - pkgMethods.End))) := by
  refine ⟨?_, ?_⟩
  · intro f hf hname
    obtain ⟨pkg, hpkg, pkgFunc, hmem, hrec⟩ := function_of_mem_successFeatures w
      contentFilePath goFile f
      (mem_successFeatures_of_emitted w gi contentFilePath goFile hpath hopen f hf) hname
    exact ⟨pkg, hpkg, pkgFunc, hmem, hrec, add_sub64_mod _ _, sub64_of_le _ _,
      sub64_of_lt _ _⟩
  · intro f hf hname
    obtain ⟨pkg, hpkg, pkgMethods, hmem, hrec⟩ := method_of_mem_successFeatures w
      contentFilePath goFile f
      (mem_successFeatures_of_emitted w gi contentFilePath goFile hpath hopen f hf) hname
    exact ⟨pkg, hpkg, pkgMethods, hmem, hrec, add_sub64_mod _ _, sub64_of_le _ _,
      sub64_of_lt _ _⟩

/-- Instance of C27: a function reported with `Offset` 4200 and `End` 4100 gets a record
whose size is 2^64 - 100. -/
theorem symbol_size_wraps_witness :
    (⟨"go_package_function", "stub", some ⟨"main", 4200, 18446744073709551516⟩⟩ : Feature) ∈
        emitted (Execute (envOpened sampleInverted
          (Except.error ⟨"not a Go executable"⟩)) ⟨""⟩).2.2 ∧
      ∃ pkg ∈ sampleInverted.GetPackages.1, ∃ pkgFunc ∈ pkg.Functions,
        (⟨"go_package_function", "stub", some ⟨"main", 4200, 18446744073709551516⟩⟩ : Feature) =
          ⟨"go_package_function", pkgFunc.Name,
            some ⟨pkgFunc.PackageName, pkgFunc.Offset, sub64 pkgFunc.End pkgFunc.Offset⟩⟩ ∧
        (pkgFunc.Offset + sub64 pkgFunc.End pkgFunc.Offset) % 2 ^ 64 = pkgFunc.End % 2 ^ 64 ∧
        (pkgFunc.Offset ≤ pkgFunc.End → pkgFunc.End < 2 ^ 64 →
          sub64 pkgFunc.End pkgFunc.Offset = pkgFunc.End - pkgFunc.Offset) ∧
        (pkgFunc.End < pkgFunc.Offset → pkgFunc.Offset < 2 ^ 64 →
          sub64 pkgFunc.End pkgFunc.Offset = 2 ^ 64 - (pkgFunc.Offset - pkgFunc.End)) :=
  ⟨by decide,
    (symbol_size_wraps (envOpened sampleInverted (Except.error ⟨"not a Go executable"⟩)) ⟨""⟩
      "/tmp/content" sampleInverted rfl rfl).1 _ (by decide) rfl⟩

/-! ## Equality in the version gate -/

/-- An initial part of `xs ++ c :: ys` whose last element is not in `xs` contains `c`. -/
theorem mem_of_initial_past {α : Type} (xs ys q : List α) (a c : α)
    (hq : q ++ [a] <+: xs ++ c :: ys) (ha : a ∉ xs) : c ∈ q ++ [a] := by
  rcases List.prefix_or_prefix_of_prefix hq (List.prefix_append xs (c :: ys)) with h | h
  · exact absurd (h.subset (by simp)) ha
  · obtain ⟨b, hb⟩ := h
    rw [← hb] at hq ⊢
    have hbys : b <+: c :: ys := (List.prefix_append_right_inj xs).1 hq
    cases b with
    | nil =>
      rw [List.append_nil] at hb
      exact absurd (hb ▸ (by simp : a ∈ q ++ [a])) ha
    | cons x rest =>
      obtain ⟨t, ht⟩ := hbys
      have hx : x = c := by
        simp only [List.cons_append, List.cons.injEq] at ht
        exact ht.1
      rw [hx]
      simp

/-- Past the version gate the build settings are read, and when the sink accepts every
"go_compiler_flag" record the "go_build_id" record is handed to it. -/
theorem Execute_past_gate (w : Env) (gi : GoInfoPlugin) (contentFilePath : String)
    (goFile : GoFile)
    (hpath : w.GetContentPath = Except.ok contentFilePath)
    (hopen : w.Open contentFilePath = OpenResult.returned (some goFile) none)
    (hgate : noGoVersion w goFile.GetCompilerVersion = false) :
    Call.ReadFile contentFilePath ∈ (Execute w gi).2.2 ∧
      ((∀ tr f, f.name = "go_compiler_flag" → w.sink tr f = none) →
        (⟨"go_build_id", goFile.BuildID, none⟩ : Feature) ∈ emitted (Execute w gi).2.2) := by
  obtain ⟨r, tr, hrun, hE⟩ := Execute_run w gi contentFilePath goFile hpath hopen
  rw [hE]
  rcases hrun.stages with ⟨hg, _⟩ | ⟨_, e, p, f, hrej, _, htr⟩ | ⟨_, rest, hrest, htr⟩
  · rw [hgate] at hg
    cases hg
  · subst htr
    refine ⟨by simp, ?_⟩
    intro haccept
    have hrec : emitted ([Call.GetContentPath, Call.Open contentFilePath]
        ++ [Call.GetCompilerVersion, Call.ReadFile contentFilePath]
        ++ (p ++ [f]).map Call.AddFeature ++ [Call.Close]) = p ++ [f] := by
      have h0 : emitted ([Call.GetContentPath, Call.Open contentFilePath]
          ++ [Call.GetCompilerVersion, Call.ReadFile contentFilePath]) = [] := rfl
      have h1 : emitted [Call.Close] = [] := rfl
      simp only [emitted_append, emitted_map, h0, h1, List.nil_append, List.append_nil]
    show _ ∈ emitted ([Call.GetContentPath, Call.Open contentFilePath]
        ++ [Call.GetCompilerVersion, Call.ReadFile contentFilePath]
        ++ (p ++ [f]).map Call.AddFeature ++ [Call.Close])
    rw [hrec]
    have hinit := hrej.1
    unfold headFeatures compilerFeatures at hinit
    apply mem_of_initial_past _ _ p f _ hinit
    intro hmem
    have hs := hrej.2
    rw [haccept _ f (name_of_mem_flagFeatures _ f hmem)] at hs
    cases hs
  · subst htr
    refine ⟨by simp [uptoPackages], ?_⟩
    intro _
    show _ ∈ emitted ([Call.GetContentPath, Call.Open contentFilePath]
        ++ uptoPackages w contentFilePath goFile ++ rest ++ [Call.Close])
    rw [emitted_staged]
    exact List.mem_append_left _
      (List.mem_append_right _ (mem_compilerFeatures_build_id goFile))

/-- Counterexample to C25: the version query gives a version together with the error
"error: no goversion found", whose lower-cased text is not "no goversion found", but the
sink rejects the first "go_compiler_flag" record and no "go_build_id" record is emitted. -/
theorem build_id_missing_after_gate :
    sampleOddVersion.GetCompilerVersion =
        (some ⟨"go1.15", "", "2020-08-11T19:01:57Z"⟩, some ⟨"error: no goversion found"⟩) ∧
      (envRejecting sampleOddVersion (Except.ok sampleSettings) "go_compiler_flag").ToLower
        "error: no goversion found" ≠ "no goversion found" ∧
      (Execute (envRejecting sampleOddVersion (Except.ok sampleSettings) "go_compiler_flag")
        ⟨""⟩).2.1 = some sinkError ∧
      emittedNamed "go_build_id"
        (Execute (envRejecting sampleOddVersion (Except.ok sampleSettings) "go_compiler_flag")
          ⟨""⟩).2.2 = [] :=
  ⟨rfl, by decide, by decide, by decide⟩

/-- C25, amended: the version gate tests the error text for equality.  When the query gives
a version together with an error whose lower-cased text is not exactly "no goversion
found", the error is dropped: the gate lets the run pass, the build settings are read, and
"go_build_id" is emitted provided the sink accepts every "go_compiler_flag" record before
it.  When the query gives no version, `Execute` opts out with "Not a go binary, no go
version found." and emits nothing, whatever the error, also with no error. -/
theorem version_gate_compares_for_equality (w : Env) (gi : GoInfoPlugin)
    (contentFilePath : String) (goFile : GoFile)
    (hpath : w.GetContentPath = Except.ok contentFilePath)
    (hopen : w.Open contentFilePath = OpenResult.returned (some goFile) none) :
    (∀ compilerVersion err, goFile.GetCompilerVersion = (some compilerVersion, some err) →
      w.ToLower err.Error ≠ "no goversion found" →
      noGoVersion w goFile.GetCompilerVersion = false ∧
        Call.ReadFile contentFilePath ∈ (Execute w gi).2.2 ∧
        ((∀ tr f, f.name = "go_compiler_flag" → w.sink tr f = none) →
          (⟨"go_build_id", goFile.BuildID, none⟩ : Feature) ∈ emitted (Execute w gi).2.2)) ∧
    (∀ err, goFile.GetCompilerVersion = (none, err) →
      (Execute w gi).2.1 = some (PluginError.optOut "Not a go binary, no go version found.") ∧
        emitted (Execute w gi).2.2 = []) := by
  refine ⟨?_, ?_⟩
  · intro compilerVersion err hversion hne
    have hgate : noGoVersion w goFile.GetCompilerVersion = false := by
      rw [hversion]
      simp [noGoVersion, hne]
    exact ⟨hgate, Execute_past_gate w gi contentFilePath goFile hpath hopen hgate⟩
  · intro err hversion
    have hgate : noGoVersion w goFile.GetCompilerVersion = true := by
      rw [hversion]
      rfl
    obtain ⟨r, tr, hrun, hE⟩ := Execute_run w gi contentFilePath goFile hpath hopen
    rw [hE]
    rcases hrun.stages with ⟨_, hr, htr⟩ | ⟨hg, _⟩ | ⟨hg, _⟩
    · subst hr htr
      exact ⟨rfl, rfl⟩
    · rw [hgate] at hg
      cases hg
    · rw [hgate] at hg
      cases hg

/-- Instance of the amended C25: with the error "error: no goversion found" next to a
version and an accepting sink, the run passes the gate and emits "go_build_id". -/
theorem version_gate_compares_for_equality_witness :
    (envOpened sampleOddVersion (Except.ok sampleSettings)).ToLower
        "error: no goversion found" ≠ "no goversion found" ∧
      noGoVersion (envOpened sampleOddVersion (Except.ok sampleSettings))
        sampleOddVersion.GetCompilerVersion = false ∧
      (⟨"go_build_id", "THyJCsrrxDurShR", none⟩ : Feature) ∈
        emitted (Execute (envOpened sampleOddVersion (Except.ok sampleSettings)) ⟨""⟩).2.2 :=
  have h := (version_gate_compares_for_equality
    (envOpened sampleOddVersion (Except.ok sampleSettings)) ⟨""⟩ "/tmp/content"
    sampleOddVersion rfl rfl).1 ⟨"go1.15", "", "2020-08-11T19:01:57Z"⟩
    ⟨"error: no goversion found"⟩ rfl (by decide)
  ⟨by decide, h.1, h.2.2 (fun _ _ _ => rfl)⟩

/-! ## Runs stop at the first rejected record -/

theorem snoc_initial_snoc {α : Type} (tr0 tr1 : List α) (x c : α)
    (h1 : tr0 <+: tr1) (h2 : tr1 ++ [x] <+: tr0 ++ [c]) : tr1 = tr0 ∧ x = c := by
  have hl1 := h1.length_le
  have hl2 := h2.length_le
  simp only [List.length_append, List.length_singleton] at hl2
  have heq : tr0 = tr1 := h1.eq_of_length (by omega)
  subst heq
  have h3 : tr0 ++ [x] = tr0 ++ [c] := h2.eq_of_length (by simp)
  exact ⟨rfl, by simpa using h3⟩

theorem no_snoc_initial {α : Type} (tr0 tr1 : List α) (x : α)
    (h1 : tr0 <+: tr1) (h2 : tr1 ++ [x] <+: tr0) : False := by
  have hl1 := h1.length_le
  have hl2 := h2.length_le
  simp only [List.length_append, List.length_singleton] at hl2
  omega

theorem orderly_done (w : Env) {α : Type} (a : α) : Orderly w (Step.done a) := by
  intro tr0
  refine ⟨List.prefix_refl _, ?_⟩
  intro tr1 f e h1 h2 _
  exact (no_snoc_initial tr0 tr1 _ h1 h2).elim

theorem orderly_fail (w : Env) {α : Type} (pluginErr : PluginError) :
    Orderly w (Step.fail pluginErr : Step α) := by
  intro tr0
  refine ⟨List.prefix_refl _, ?_⟩
  intro tr1 f e h1 h2 _
  exact (no_snoc_initial tr0 tr1 _ h1 h2).elim

theorem orderly_record (w : Env) (c : Call) (hc : ∀ f, c ≠ Call.AddFeature f) :
    Orderly w (record c) := by
  intro tr0
  refine ⟨List.prefix_append _ _, ?_⟩
  intro tr1 f e h1 h2 _
  have h3 : tr1 ++ [Call.AddFeature f] <+: tr0 ++ [c] := h2
  exact absurd (snoc_initial_snoc tr0 tr1 _ _ h1 h3).2.symm (hc f)

theorem orderly_emit (w : Env) (g : Feature) : Orderly w (emit w g) := by
  intro tr0
  refine ⟨List.prefix_append _ _, ?_⟩
  intro tr1 f e h1 h2 hsink
  have h3 : tr1 ++ [Call.AddFeature f] <+: tr0 ++ [Call.AddFeature g] := h2
  obtain ⟨htr, hfg⟩ := snoc_initial_snoc tr0 tr1 _ _ h1 h3
  cases hfg
  subst htr
  unfold emit
  rw [hsink]

theorem orderly_andThen (w : Env) {α β : Type} (m : Step α) (k : α → Step β)
    (hm : Orderly w m) (hk : ∀ a, Orderly w (k a)) : Orderly w (m.andThen k) := by
  intro tr0
  obtain ⟨hm1, hm2⟩ := hm tr0
  rw [andThen_apply]
  rcases hr : m tr0 with ⟨r, t1⟩
  rw [hr] at hm1 hm2
  cases r with
  | error e1 =>
    refine ⟨hm1, ?_⟩
    intro tr1 f e h1 h2 hsink
    have h3 := hm2 tr1 f e h1 h2 hsink
    simp only [Prod.mk.injEq, Except.error.injEq] at h3
    obtain ⟨he, ht⟩ := h3
    rw [he, ht]
  | ok a =>
    obtain ⟨hk1, hk2⟩ := hk a t1
    refine ⟨hm1.trans hk1, ?_⟩
    intro tr1 f e h1 h2 hsink
    have h2' : tr1 ++ [Call.AddFeature f] <+: (k a t1).2 := h2
    rcases List.prefix_or_prefix_of_prefix h2' hk1 with h | h
    · have := hm2 tr1 f e h1 h hsink
      simp at this
    · rcases List.prefix_concat_iff.1 h with h | h
      · have hback : tr1 ++ [Call.AddFeature f] <+: t1 := by
          rw [h]
        have := hm2 tr1 f e h1 hback hsink
        simp at this
      · exact hk2 tr1 f e h h2' hsink

theorem orderly_emitAll (w : Env) (fs : List Feature) : Orderly w (emitAll w fs) := by
  induction fs with
  | nil => exact orderly_done w ()
  | cons g rest ih => exact orderly_andThen w _ _ (orderly_emit w g) (fun _ => ih)

theorem orderly_query (w : Env) {α β : Type} (c : Call) (r : α × Option GoError)
    (title message : String) (k : α → Step β) (hc : ∀ f, c ≠ Call.AddFeature f)
    (hk : ∀ a, Orderly w (k a)) : Orderly w ((query c r title message).andThen k) := by
  apply orderly_andThen w _ _ _ hk
  intro tr0
  unfold query
  cases r.2 with
  | none =>
    refine ⟨List.prefix_append _ _, ?_⟩
    intro tr1 f e h1 h2 _
    have h3 : tr1 ++ [Call.AddFeature f] <+: tr0 ++ [c] := h2
    exact absurd (snoc_initial_snoc tr0 tr1 _ _ h1 h3).2.symm (hc f)
  | some err =>
    refine ⟨List.prefix_append _ _, ?_⟩
    intro tr1 f e h1 h2 _
    have h3 : tr1 ++ [Call.AddFeature f] <+: tr0 ++ [c] := h2
    exact absurd (snoc_initial_snoc tr0 tr1 _ _ h1 h3).2.symm (hc f)

/-- The processing of an opened binary is orderly. -/
theorem orderly_executeOpened (w : Env) (goFile : GoFile) (contentFilePath : String) :
    Orderly w (executeOpened w goFile contentFilePath) := by
  rw [executeOpened_eq]
  apply orderly_andThen w _ _ (orderly_record w _ (fun f h => by cases h))
  intro _
  split
  · exact orderly_fail w _
  · apply orderly_andThen w _ _ (orderly_record w _ (fun f h => by cases h))
    intro _
    apply orderly_andThen w _ _ (orderly_emitAll w _)
    intro _
    unfold packagesStage
    apply orderly_query w _ _ _ _ _ (fun f h => by cases h)
    intro packageList
    apply orderly_andThen w _ _ (orderly_emitAll w _)
    intro _
    unfold vendorsStage
    apply orderly_query w _ _ _ _ _ (fun f h => by cases h)
    intro vendorPackages
    apply orderly_andThen w _ _ (orderly_emitAll w _)
    intro _
    unfold typesStage
    apply orderly_query w _ _ _ _ _ (fun f h => by cases h)
    intro goTypes
    exact orderly_emitAll w _

/-! ## What an accepting sink would have received -/

theorem uptoPackages_initial_uptoVendors (w : Env) (contentFilePath : String)
    (goFile : GoFile) :
    uptoPackages w contentFilePath goFile <+: uptoVendors w contentFilePath goFile :=
  ⟨(packageStageFeatures goFile).map Call.AddFeature ++ [Call.GetVendors],
    by simp only [uptoVendors, List.append_assoc]⟩

theorem uptoVendors_initial_uptoTypes (w : Env) (contentFilePath : String)
    (goFile : GoFile) :
    uptoVendors w contentFilePath goFile <+: uptoTypes w contentFilePath goFile :=
  ⟨(vendorStageFeatures goFile).map Call.AddFeature ++ [Call.GetTypes],
    by simp only [uptoTypes, List.append_assoc]⟩

theorem acceptingPlan_noVersion (w : Env) (contentFilePath : String) (goFile : GoFile)
    (hgate : noGoVersion w goFile.GetCompilerVersion = true) :
    acceptingPlan w contentFilePath goFile = [Call.GetCompilerVersion] := by
  simp [acceptingPlan, hgate]

theorem acceptingPlan_packagesFailed (w : Env) (contentFilePath : String) (goFile : GoFile)
    (err : GoError) (hgate : noGoVersion w goFile.GetCompilerVersion = false)
    (herr : goFile.GetPackages.2 = some err) :
    acceptingPlan w contentFilePath goFile = uptoPackages w contentFilePath goFile := by
  simp [acceptingPlan, hgate, herr]

theorem acceptingPlan_vendorsFailed (w : Env) (contentFilePath : String) (goFile : GoFile)
    (err : GoError) (hgate : noGoVersion w goFile.GetCompilerVersion = false)
    (hpackages : goFile.GetPackages.2 = none) (herr : goFile.GetVendors.2 = some err) :
    acceptingPlan w contentFilePath goFile = uptoVendors w contentFilePath goFile := by
  simp [acceptingPlan, hgate, hpackages, herr]

theorem acceptingPlan_typesFailed (w : Env) (contentFilePath : String) (goFile : GoFile)
    (err : GoError) (hgate : noGoVersion w goFile.GetCompilerVersion = false)
    (hpackages : goFile.GetPackages.2 = none) (hvendors : goFile.GetVendors.2 = none)
    (herr : goFile.GetTypes.2 = some err) :
    acceptingPlan w contentFilePath goFile = uptoTypes w contentFilePath goFile := by
  simp [acceptingPlan, hgate, hpackages, hvendors, herr]

theorem acceptingPlan_finished (w : Env) (contentFilePath : String) (goFile : GoFile)
    (hgate : noGoVersion w goFile.GetCompilerVersion = false)
    (hpackages : goFile.GetPackages.2 = none) (hvendors : goFile.GetVendors.2 = none)
    (htypes : goFile.GetTypes.2 = none) :
    acceptingPlan w contentFilePath goFile =
      uptoTypes w contentFilePath goFile
        ++ (typeStageFeatures goFile).map Call.AddFeature := by
  simp [acceptingPlan, hgate, hpackages, hvendors, htypes]

theorem uptoTypes_initial_acceptingPlan (w : Env) (contentFilePath : String)
    (goFile : GoFile) (hgate : noGoVersion w goFile.GetCompilerVersion = false)
    (hpackages : goFile.GetPackages.2 = none) (hvendors : goFile.GetVendors.2 = none) :
    uptoTypes w contentFilePath goFile <+: acceptingPlan w contentFilePath goFile := by
  cases htypes : goFile.GetTypes.2 with
  | some err =>
    rw [acceptingPlan_typesFailed w contentFilePath goFile err hgate hpackages hvendors htypes]
  | none =>
    rw [acceptingPlan_finished w contentFilePath goFile hgate hpackages hvendors htypes]
    exact List.prefix_append _ _

theorem uptoVendors_initial_acceptingPlan (w : Env) (contentFilePath : String)
    (goFile : GoFile) (hgate : noGoVersion w goFile.GetCompilerVersion = false)
    (hpackages : goFile.GetPackages.2 = none) :
    uptoVendors w contentFilePath goFile <+: acceptingPlan w contentFilePath goFile := by
  cases hvendors : goFile.GetVendors.2 with
  | some err =>
    rw [acceptingPlan_vendorsFailed w contentFilePath goFile err hgate hpackages hvendors]
  | none =>
    exact (uptoVendors_initial_uptoTypes w contentFilePath goFile).trans
      (uptoTypes_initial_acceptingPlan w contentFilePath goFile hgate hpackages hvendors)

theorem uptoPackages_initial_acceptingPlan (w : Env) (contentFilePath : String)
    (goFile : GoFile) (hgate : noGoVersion w goFile.GetCompilerVersion = false) :
    uptoPackages w contentFilePath goFile <+: acceptingPlan w contentFilePath goFile := by
  cases hpackages : goFile.GetPackages.2 with
  | some err =>
    rw [acceptingPlan_packagesFailed w contentFilePath goFile err hgate hpackages]
  | none =>
    exact (uptoPackages_initial_uptoVendors w contentFilePath goFile).trans
      (uptoVendors_initial_acceptingPlan w contentFilePath goFile hgate hpackages)

/-- A block cut after a rejected record is an initial part of the whole block followed by
anything. -/
theorem rejected_initial (w : Env) (tr base : List Call) (fs : List Feature)
    (e : PluginError) (p : List Feature) (f : Feature) (later : List Call)
    (hrej : Rejected w tr fs e p f) :
    base ++ (p ++ [f]).map Call.AddFeature <+: base ++ fs.map Call.AddFeature ++ later := by
  obtain ⟨t, ht⟩ := hrej.1
  exact ⟨t.map Call.AddFeature ++ later, by
    simp only [← ht, List.map_append, List.append_assoc]⟩

/-- The calls of a run between `Open` and `Close` are an initial part of what a sink
accepting everything lets the run make, and all of it when the sink accepts everything. -/
theorem OpenedRun.within_accepting {w : Env} {goFile : GoFile} {contentFilePath : String}
    {tr0 : List Call} {r : Except PluginError Unit} {tr : List Call}
    (hrun : OpenedRun w goFile contentFilePath tr0 (r, tr)) :
    (∃ q, q <+: acceptingPlan w contentFilePath goFile ∧ tr = tr0 ++ q) ∧
      ((∀ tr f, w.sink tr f = none) →
        tr = tr0 ++ acceptingPlan w contentFilePath goFile) := by
  cases hrun with
  | noVersion hgate =>
    rw [acceptingPlan_noVersion w contentFilePath goFile hgate]
    exact ⟨⟨_, List.prefix_refl _, rfl⟩, fun _ => rfl⟩
  | headRejected e p f hgate hrej =>
    refine ⟨⟨[Call.GetCompilerVersion, Call.ReadFile contentFilePath]
      ++ (p ++ [f]).map Call.AddFeature, ?_, by rw [List.append_assoc]⟩, ?_⟩
    · refine List.IsPrefix.trans ?_
        (uptoPackages_initial_acceptingPlan w contentFilePath goFile hgate)
      exact rejected_initial w _ _ _ e p f [Call.GetPackages] hrej
    · intro hsink
      have hs := hrej.2
      rw [hsink] at hs
      cases hs
  | packagesFailed err hgate herr =>
    rw [acceptingPlan_packagesFailed w contentFilePath goFile err hgate herr]
    exact ⟨⟨_, List.prefix_refl _, rfl⟩, fun _ => rfl⟩
  | packagesRejected e p f hgate hpackages hrej =>
    refine ⟨⟨uptoPackages w contentFilePath goFile ++ (p ++ [f]).map Call.AddFeature, ?_,
      by rw [List.append_assoc]⟩, ?_⟩
    · refine List.IsPrefix.trans ?_
        (uptoVendors_initial_acceptingPlan w contentFilePath goFile hgate hpackages)
      exact rejected_initial w _ _ _ e p f [Call.GetVendors] hrej
    · intro hsink
      have hs := hrej.2
      rw [hsink] at hs
      cases hs
  | vendorsFailed err hgate hpackages herr =>
    rw [acceptingPlan_vendorsFailed w contentFilePath goFile err hgate hpackages herr]
    exact ⟨⟨_, List.prefix_refl _, rfl⟩, fun _ => rfl⟩
  | vendorsRejected e p f hgate hpackages hvendors hrej =>
    refine ⟨⟨uptoVendors w contentFilePath goFile ++ (p ++ [f]).map Call.AddFeature, ?_,
      by rw [List.append_assoc]⟩, ?_⟩
    · refine List.IsPrefix.trans ?_
        (uptoTypes_initial_acceptingPlan w contentFilePath goFile hgate hpackages hvendors)
      exact rejected_initial w _ _ _ e p f [Call.GetTypes] hrej
    · intro hsink
      have hs := hrej.2
      rw [hsink] at hs
      cases hs
  | typesFailed err hgate hpackages hvendors herr =>
    rw [acceptingPlan_typesFailed w contentFilePath goFile err hgate hpackages hvendors herr]
    exact ⟨⟨_, List.prefix_refl _, rfl⟩, fun _ => rfl⟩
  | typesRejected e p f hgate hpackages hvendors htypes hrej =>
    rw [acceptingPlan_finished w contentFilePath goFile hgate hpackages hvendors htypes]
    refine ⟨⟨uptoTypes w contentFilePath goFile ++ (p ++ [f]).map Call.AddFeature, ?_,
      by rw [List.append_assoc]⟩, ?_⟩
    · have h := rejected_initial w _ (uptoTypes w contentFilePath goFile) _ e p f [] hrej
      rw [List.append_nil] at h
      exact h
    · intro hsink
      have hs := hrej.2
      rw [hsink] at hs
      cases hs
  | finished hgate hpackages hvendors htypes =>
    rw [acceptingPlan_finished w contentFilePath goFile hgate hpackages hvendors htypes]
    exact ⟨⟨_, List.prefix_refl _, by rw [List.append_assoc]⟩,
      fun _ => by rw [List.append_assoc]⟩

theorem acceptingPlan_withAcceptingSink (w : Env) (contentFilePath : String)
    (goFile : GoFile) :
    acceptingPlan (withAcceptingSink w) contentFilePath goFile =
      acceptingPlan w contentFilePath goFile := rfl

/-- Whatever the sink, the records handed to it are an initial part of the records that a
sink accepting everything receives in the same surroundings. -/
theorem emitted_initial_accepting (w : Env) (gi : GoInfoPlugin) :
    emitted (Execute w gi).2.2 <+: emitted (Execute (withAcceptingSink w) gi).2.2 := by
  cases hpath : w.GetContentPath with
  | error pluginErr =>
    rw [Execute_noPath w gi pluginErr hpath]
    exact List.nil_prefix
  | ok contentFilePath =>
    have hpath2 : (withAcceptingSink w).GetContentPath = Except.ok contentFilePath := hpath
    have hnone : (openGoreFile w gi contentFilePath).2 = (none, none) →
        emitted (Execute w gi).2.2 = [] := by
      intro hq
      rw [Execute_noHandle w gi contentFilePath hpath hq]
      split <;> rfl
    cases hopen : w.Open contentFilePath with
    | panicked value =>
      rw [hnone (by unfold openGoreFile; rw [hopen])]
      exact List.nil_prefix
    | returned handle failure =>
      have hopen2 : (withAcceptingSink w).Open contentFilePath =
          OpenResult.returned handle failure := hopen
      cases failure with
      | some err =>
        rw [Execute_openError w gi contentFilePath handle err hpath hopen,
          Execute_openError (withAcceptingSink w) gi contentFilePath handle err hpath2 hopen2]
        have hlower : (withAcceptingSink w).ToLower = w.ToLower := rfl
        rw [hlower]
        by_cases h1 : strings_Contains (w.ToLower err.Error) "unsupported" = true
        · rw [if_pos h1, if_pos h1]
        · rw [if_neg h1, if_neg h1]
          by_cases h2 : strings_Contains (w.ToLower err.Error)
              "fail to read string table length" = true
          · rw [if_pos h2, if_pos h2]
          · rw [if_neg h2, if_neg h2]
      | none =>
        cases handle with
        | none =>
          rw [hnone (by unfold openGoreFile; rw [hopen])]
          exact List.nil_prefix
        | some goFile =>
          obtain ⟨r, tr, hrun, hE⟩ := Execute_run w gi contentFilePath goFile hpath hopen
          obtain ⟨r2, tr2, hrun2, hE2⟩ :=
            Execute_run (withAcceptingSink w) gi contentFilePath goFile hpath2 hopen2
          obtain ⟨q, hq, htr⟩ := hrun.within_accepting.1
          have htr2 := hrun2.within_accepting.2 (fun _ _ => rfl)
          rw [acceptingPlan_withAcceptingSink] at htr2
          rw [hE, hE2, htr, htr2]
          show emitted ([Call.GetContentPath, Call.Open contentFilePath] ++ q ++ [Call.Close])
            <+: emitted ([Call.GetContentPath, Call.Open contentFilePath]
              ++ acceptingPlan w contentFilePath goFile ++ [Call.Close])
          rw [emitted_framed, emitted_framed]
          exact emitted_initial _ _ hq

/-- Shape of `Execute` when the sink answers a record of the trace with an error: the run
ends with that record, followed only by `Close` when a handle was opened. -/
theorem Execute_rejected (w : Env) (gi : GoInfoPlugin) (tr1 : List Call) (f : Feature)
    (e : PluginError)
    (hcall : tr1 ++ [Call.AddFeature f] <+: (Execute w gi).2.2)
    (hreject : w.sink tr1 f = some e) :
    (f.name = "malformed" ∧
        (Execute w gi).2 = (some e, tr1 ++ [Call.AddFeature f])) ∨
      (∃ contentFilePath goFile, w.GetContentPath = Except.ok contentFilePath ∧
        w.Open contentFilePath = OpenResult.returned (some goFile) none ∧
        (Execute w gi).2 = (some e, tr1 ++ [Call.AddFeature f] ++ [Call.Close])) := by
  cases hpath : w.GetContentPath with
  | error pluginErr =>
    rw [Execute_noPath w gi pluginErr hpath] at hcall
    have hlen := hcall.length_le
    have hsub : Call.AddFeature f ∈ [Call.GetContentPath] := hcall.subset (by simp)
    simp at hsub
  | ok contentFilePath =>
    have hbase : ¬ tr1 ++ [Call.AddFeature f] <+:
        [Call.GetContentPath, Call.Open contentFilePath] := by
      intro h
      have hsub : Call.AddFeature f ∈ [Call.GetContentPath, Call.Open contentFilePath] :=
        h.subset (by simp)
      simp at hsub
    have hnone : (openGoreFile w gi contentFilePath).2 = (none, none) → False := by
      intro hq
      rw [Execute_noHandle w gi contentFilePath hpath hq] at hcall
      split at hcall <;> exact hbase hcall
    cases hopen : w.Open contentFilePath with
    | panicked value => exact (hnone (by unfold openGoreFile; rw [hopen])).elim
    | returned handle failure =>
      cases failure with
      | some err =>
        rw [Execute_openError w gi contentFilePath handle err hpath hopen] at hcall ⊢
        split at hcall
        · exact (hbase hcall).elim
        · split at hcall
          · have h3 : tr1 ++ [Call.AddFeature f] <+:
                [Call.GetContentPath, Call.Open contentFilePath] ++
                  [Call.AddFeature ⟨"malformed",
                    "PE file was corrupted and it's header couldn't be read with error "
                      ++ err.Error, none⟩] := hcall
            rcases List.prefix_concat_iff.1 h3 with h | h
            · obtain ⟨htr, hf⟩ := List.append_inj' h rfl
              simp only [List.cons.injEq, Call.AddFeature.injEq, and_true] at hf
              subst htr
              subst hf
              rw [if_neg (by assumption), if_pos (by assumption), hreject]
              exact Or.inl ⟨rfl, rfl⟩
            · exact (hbase h).elim
          · exact (hbase hcall).elim
      | none =>
        cases handle with
        | none => exact (hnone (by unfold openGoreFile; rw [hopen])).elim
        | some goFile =>
          refine Or.inr ⟨contentFilePath, goFile, rfl, hopen, ?_⟩
          rw [Execute_opened w gi contentFilePath goFile hpath hopen] at hcall ⊢
          obtain ⟨hext, hstop⟩ := orderly_executeOpened w goFile contentFilePath
            [Call.GetContentPath, Call.Open contentFilePath]
          have hin : tr1 ++ [Call.AddFeature f] <+:
              (executeOpened w goFile contentFilePath
                [Call.GetContentPath, Call.Open contentFilePath]).2 := by
            rcases List.prefix_concat_iff.1 hcall with h | h
            · have := (List.append_inj' h rfl).2
              simp at this
            · exact h
          have hstart : [Call.GetContentPath, Call.Open contentFilePath] <+: tr1 := by
            rcases List.prefix_or_prefix_of_prefix hin hext with h | h
            · exact (hbase h).elim
            · rcases List.prefix_concat_iff.1 h with h | h
              · exact (hbase (by rw [h])).elim
              · exact h
          rw [hstop tr1 f e hstart hin hreject]
          rfl

/-- An initial part of `xs ++ ys` whose last element is not in `ys` lies within `xs`. -/
theorem initial_within {α : Type} (xs ys q : List α) (a : α)
    (hq : q ++ [a] <+: xs ++ ys) (ha : a ∉ ys) : q ++ [a] <+: xs := by
  rcases List.prefix_or_prefix_of_prefix hq (List.prefix_append xs ys) with h | h
  · exact h
  · obtain ⟨b, hb⟩ := h
    rw [← hb] at hq
    have hbys : b <+: ys := (List.prefix_append_right_inj xs).1 hq
    by_cases hnil : b = []
    · rw [hnil, List.append_nil] at hb
      rw [← hb]
    · have h1 : (q ++ [a]).getLast? = (xs ++ b).getLast? := by rw [hb]
      rw [List.getLast?_append_of_ne_nil _ hnil] at h1
      simp at h1
      exact absurd (hbys.subset (List.mem_of_getLast?_eq_some h1.symm)) ha

/-- The records of an opened run are an initial part of those of a full run. -/
theorem emitted_initial_successFeatures (w : Env) (gi : GoInfoPlugin)
    (contentFilePath : String) (goFile : GoFile)
    (hpath : w.GetContentPath = Except.ok contentFilePath)
    (hopen : w.Open contentFilePath = OpenResult.returned (some goFile) none) :
    emitted (Execute w gi).2.2 <+: successFeatures w contentFilePath goFile := by
  obtain ⟨r, tr, hrun, hE⟩ := Execute_run w gi contentFilePath goFile hpath hopen
  obtain ⟨q, hq, htr⟩ := hrun.within_plan
  rw [hE, htr]
  show emitted ([Call.GetContentPath, Call.Open contentFilePath] ++ q ++ [Call.Close]) <+: _
  rw [emitted_framed, ← emitted_openedPlan]
  exact emitted_initial _ _ hq

/-- C24: if at some point of the run a record `f` is handed to the sink, after the calls
`tr1`, and the sink answers with the error `e`, then `Execute` returns `e` as it is; the
trace ends with that call, followed by nothing or, when a handle was opened, by `Close`
alone, so no record is attempted and no enumeration queried after it; the records handed
over are those before `f` and `f`, and they are an initial part of the records that a sink
accepting everything receives in the same surroundings; and when `f` is a
"go_compiler_flag" record no "go_build_id" record is emitted. -/
theorem sink_rejection_stops_run (w : Env) (gi : GoInfoPlugin) (tr1 : List Call)
    (f : Feature) (e : PluginError)
    (hcall : tr1 ++ [Call.AddFeature f] <+: (Execute w gi).2.2)
    (hreject : w.sink tr1 f = some e) :
    (Execute w gi).2.1 = some e ∧
      ((Execute w gi).2.2 = tr1 ++ [Call.AddFeature f] ∨
        (Execute w gi).2.2 = tr1 ++ [Call.AddFeature f, Call.Close]) ∧
      emitted (Execute w gi).2.2 = emitted tr1 ++ [f] ∧
      emitted (Execute w gi).2.2 <+: emitted (Execute (withAcceptingSink w) gi).2.2 ∧
      (f.name = "go_compiler_flag" →
        emittedNamed "go_build_id" (Execute w gi).2.2 = []) := by
  have haccept := emitted_initial_accepting w gi
  have hone : emitted [Call.AddFeature f] = [f] := rfl
  have hnil : emitted [Call.Close] = [] := rfl
  rcases Execute_rejected w gi tr1 f e hcall hreject with
    ⟨hname, hE⟩ | ⟨contentFilePath, goFile, hpath, hopen, hE⟩
  · have hrec : emitted (Execute w gi).2.2 = emitted tr1 ++ [f] := by
      rw [hE]
      show emitted (tr1 ++ [Call.AddFeature f]) = _
      rw [emitted_append, hone]
    refine ⟨by rw [hE], Or.inl (by rw [hE]), hrec, haccept, ?_⟩
    intro hflag
    rw [hname] at hflag
    exact absurd hflag (by decide)
  · have hrec : emitted (Execute w gi).2.2 = emitted tr1 ++ [f] := by
      rw [hE]
      show emitted (tr1 ++ [Call.AddFeature f] ++ [Call.Close]) = _
      rw [emitted_append, emitted_append, hone, hnil, List.append_nil]
    refine ⟨by rw [hE], Or.inr (by rw [hE, List.append_assoc]; rfl), hrec, haccept, ?_⟩
    intro hflag
    have hinit := emitted_initial_successFeatures w gi contentFilePath goFile hpath hopen
    rw [hrec] at hinit
    unfold successFeatures at hinit
    simp only [List.append_assoc] at hinit
    have hlater : f ∉ compilerFeatures goFile
        ++ (goFile.GetPackages.1.flatMap packageFeatures
          ++ (goFile.GetVendors.1.map vendorFeature
            ++ goFile.GetTypes.1.flatMap
              (typeFeatures (goFile.GetPackages.1.map Package.Name)))) := by
      intro hmem
      rcases List.mem_append.1 hmem with h | h
      · have := name_of_mem_compilerFeatures goFile f h
        rw [hflag] at this
        exact absurd this (by decide)
      · rcases List.mem_append.1 h with h | h
        · have := name_of_mem_packageFeatures _ f h
          rw [hflag] at this
          exact absurd this (by decide)
        · rcases List.mem_append.1 h with h | h
          · have := name_of_mem_vendorFeatures _ f h
            rw [hflag] at this
            exact absurd this (by decide)
          · have := name_of_mem_typeFeatures _ _ f h
            rw [hflag] at this
            exact absurd this (by decide)
    have hflags := initial_within _ _ _ f hinit hlater
    unfold emittedNamed
    rw [hrec]
    exact filter_named_eq_nil "go_build_id" ["go_compiler_flag"] _
      (fun g hg => by simp [name_of_mem_flagFeatures _ g (hflags.subset hg)]) (by decide)

/-- Instance of C24: the sink rejects the first "go_compiler_flag" record of the sample
binary. -/
theorem sink_rejection_stops_run_witness :
    (Execute (envRejecting sampleGoFile (Except.ok sampleSettings) "go_compiler_flag")
        ⟨""⟩).2.1 = some sinkError ∧
      (Execute (envRejecting sampleGoFile (Except.ok sampleSettings) "go_compiler_flag")
        ⟨""⟩).2.2 =
        [Call.GetContentPath, Call.Open "/tmp/content", Call.GetCompilerVersion,
          Call.ReadFile "/tmp/content",
          Call.AddFeature ⟨"go_compiler_flag", "windows", some ⟨"GOOS", 0, 0⟩⟩, Call.Close] ∧
      emittedNamed "go_build_id"
        (Execute (envRejecting sampleGoFile (Except.ok sampleSettings) "go_compiler_flag")
          ⟨""⟩).2.2 = [] :=
  have h := sink_rejection_stops_run
    (envRejecting sampleGoFile (Except.ok sampleSettings) "go_compiler_flag") ⟨""⟩
    [Call.GetContentPath, Call.Open "/tmp/content", Call.GetCompilerVersion,
      Call.ReadFile "/tmp/content"]
    ⟨"go_compiler_flag", "windows", some ⟨"GOOS", 0, 0⟩⟩ sinkError
    ⟨[Call.Close], by decide⟩ (by decide)
  ⟨h.1, by decide, h.2.2.2.2 rfl⟩

end GoInfo
